import Mathlib

/-! PulsarEngine: a shallow embedding of the pulsar-synthesis oscillator.

The embedding follows `PulsarEngine.hpp` / `PulsarEngine.cpp` field by field and
statement by statement.

* `float` values are elements of an arbitrary linearly ordered field `K` with a floor
  function (`ℚ` makes every definition executable, `ℝ` gives the statements over the reals);
  field arithmetic is exact: neither rounding nor overflow of `+`, `-`, `*`, `/` is modelled.
* `uint32_t randomSeed_` is a natural number reduced modulo `2^32` after every update.
* The conversion `static_cast<float>(randomSeed_)` is modelled bit-exactly, because its
  rounding decides the range of the draw: `u32ToFloat` rounds a 32-bit unsigned integer to a
  24-bit significand, to nearest, ties to even.
* `int` values are integers; the counters stay far below `2^31`.
* `enum class` values carry their underlying `int`; a `switch` whose cases do not match
  falls through to the initial value of the result variable, as in the source.
* `sinf` and `expf` are parameters, collected in `Libm`.
-/

set_option linter.unusedSectionVars false

namespace PulsarEngine

/-- The two `<cmath>` functions used by the engine. -/
structure Libm (K : Type) where
  sinf : K → K
  expf : K → K

/-- The facts about `sinf` and `expf` that the range analysis relies on. -/
structure Libm.Sound {K : Type} [LinearOrderedField K] (M : Libm K) : Prop where
  sin_ge : ∀ x, -1 ≤ M.sinf x
  sin_le : ∀ x, M.sinf x ≤ 1
  exp_nonneg : ∀ x, 0 ≤ M.expf x
  exp_le_one : ∀ x, x ≤ 0 → M.expf x ≤ 1

/-- Pulsaret waveform types (`enum class PulsaretWaveform`). -/
structure PulsaretWaveform where
  val : Int
deriving DecidableEq, Repr

namespace PulsaretWaveform
def SINE : PulsaretWaveform := ⟨0⟩
def TRIANGLE : PulsaretWaveform := ⟨1⟩
def SAW_UP : PulsaretWaveform := ⟨2⟩
def SAW_DOWN : PulsaretWaveform := ⟨3⟩
def SQUARE : PulsaretWaveform := ⟨4⟩
def PULSE : PulsaretWaveform := ⟨5⟩
def NOISE : PulsaretWaveform := ⟨6⟩
end PulsaretWaveform

/-- Pulsaret envelope types (`enum class PulsaretEnvelope`). -/
structure PulsaretEnvelope where
  val : Int
deriving DecidableEq, Repr

namespace PulsaretEnvelope
def RECTANGULAR : PulsaretEnvelope := ⟨0⟩
def GAUSSIAN : PulsaretEnvelope := ⟨1⟩
def EXPODEC : PulsaretEnvelope := ⟨2⟩
def LINEAR_DECAY : PulsaretEnvelope := ⟨3⟩
def LINEAR_ATTACK : PulsaretEnvelope := ⟨4⟩
def EXPO_ATTACK : PulsaretEnvelope := ⟨5⟩
def FOF : PulsaretEnvelope := ⟨6⟩
end PulsaretEnvelope

/-- Masking mode (`enum class MaskingMode`). -/
structure MaskingMode where
  val : Int
deriving DecidableEq, Repr

namespace MaskingMode
def OFF : MaskingMode := ⟨0⟩
def BURST : MaskingMode := ⟨1⟩
def STOCHASTIC : MaskingMode := ⟨2⟩
end MaskingMode

end PulsarEngine

/-- The private data members of `class PulsarEngine`. -/
structure PulsarEngine (K : Type) where
  sampleRate_ : K
  invSampleRate_ : K
  phase_ : K
  phaseIncrement_ : K
  pulsaretPhase_ : K
  fundamentalFreq_ : K
  formantFreq_ : K
  dutyCycle_ : K
  waveform_ : PulsarEngine.PulsaretWaveform
  waveformNext_ : PulsarEngine.PulsaretWaveform
  waveformMorph_ : K
  envelope_ : PulsarEngine.PulsaretEnvelope
  envelopeNext_ : PulsarEngine.PulsaretEnvelope
  envelopeMorph_ : K
  foldAmount_ : K
  maskingMode_ : PulsarEngine.MaskingMode
  burstCount_ : Int
  restCount_ : Int
  burstPosition_ : Int
  maskingProbability_ : K
  currentPulsarMasked_ : Bool
  inPulsaret_ : Bool
  amplitude_ : K
  randomSeed_ : Nat
  prevSample_ : K

namespace PulsarEngine

variable {K : Type} [LinearOrderedField K] [FloorRing K]

/-- `fmaxf` on non-NaN arguments. -/
def fmaxf (a b : K) : K := max a b

/-- `fminf` on non-NaN arguments. -/
def fminf (a b : K) : K := min a b

/-- `static_cast<int>(x)`: truncation toward zero. -/
def truncToInt (x : K) : Int := if 0 ≤ x then Int.floor x else Int.ceil x

/-- The fallback value of `M_PI` in `PulsarEngine.cpp`. -/
def M_PI : K := 3.14159265358979323846

/-- `static constexpr float TWO_PI = 2.0f * M_PI`. -/
def TWO_PI : K := 2 * M_PI

/-! ## Pseudo-random source -/

/-- `static_cast<float>(n)` for a 32-bit unsigned `n`, as the integer that the resulting
binary32 value denotes: `n` is rounded to a 24-bit significand, to nearest, ties to even.
`Nat.size n` is the bit length of `n`, so `e` is the number of low bits that do not fit;
`q` is the truncated significand and `r` the discarded part. A significand that rounds up
to `2^24` gives the next power of two. -/
def u32ToFloat (n : Nat) : Nat :=
  let e := Nat.size n - 24
  let q := n / 2 ^ e
  let r := n % 2 ^ e
  if 2 ^ e < 2 * r ∨ (2 * r = 2 ^ e ∧ q % 2 = 1) then (q + 1) * 2 ^ e else q * 2 ^ e

/-- `PulsarEngine::FastRandom`: one step of the linear congruential generator; the result
is the new seed, converted to `float`, divided by `4294967296.0f`. The division by a power
of two is exact in binary32, so the conversion is the only rounding step. -/
def FastRandom (s : PulsarEngine K) : K × PulsarEngine K :=
  let seed : Nat := (s.randomSeed_ * 1664525 + 1013904223) % 2 ^ 32
  ((u32ToFloat seed : K) / 4294967296, { s with randomSeed_ := seed })

/-! ## Wavefolder -/

/-- The body of the `while` loop of `ApplyFold`: the test against the upper bound, then the
test against the lower bound on the possibly updated value. -/
def foldBody (sample : K) : K :=
  let sample := if sample > 1 then 2 - sample else sample
  if sample < -1 then -2 - sample else sample

/-- Distance of a value to the interval `[-1, 1]`. -/
def distToUnit (x : K) : K := max (|x| - 1) 0

/-- The `while (sample > 1.0f || sample < -1.0f)` loop of `ApplyFold`. It is defined by
well-founded recursion: every pass through the body lowers `⌈|sample|⌉`. -/
def foldLoop [FloorRing K] (sample : K) : K :=
  if sample > 1 ∨ sample < -1 then foldLoop (foldBody sample) else sample
termination_by Nat.ceil |sample|
decreasing_by
  rename_i h
  have hx : (1 : K) < |sample| := by
    rcases h with h | h
    · exact lt_of_lt_of_le h (le_abs_self sample)
    · have h5 : -sample ≤ |sample| := neg_le_abs sample
      linarith
  have h2 : 1 < Nat.ceil |sample| := by
    rw [Nat.lt_ceil]
    exact_mod_cast hx
  have hc : |sample| ≤ (Nat.ceil |sample| : K) := Nat.le_ceil _
  have h2K : (2 : K) ≤ (Nat.ceil |sample| : K) := by exact_mod_cast h2
  have hcast : ((Nat.ceil |sample| - 1 : Nat) : K) = (Nat.ceil |sample| : K) - 1 := by
    rw [Nat.cast_sub (le_of_lt h2)]
    simp
  have key : |foldBody sample| ≤ ((Nat.ceil |sample| - 1 : Nat) : K) := by
    rw [hcast, abs_le]
    unfold foldBody
    simp only
    by_cases h1 : sample > 1
    · have hc1 : sample ≤ (Nat.ceil |sample| : K) := le_trans (le_abs_self _) hc
      rw [if_pos h1]
      split_ifs <;> constructor <;> linarith
    · have h3 : sample < -1 := h.resolve_left h1
      have hc2 : -sample ≤ (Nat.ceil |sample| : K) := le_trans (neg_le_abs _) hc
      rw [if_neg h1, if_pos h3]
      constructor <;> linarith
  have := Nat.ceil_le.mpr key
  omega

/-- `PulsarEngine::ApplyFold`. -/
def ApplyFold (s : PulsarEngine K) (sample : K) : K :=
  let gain := 1 + s.foldAmount_ * 8
  let sample := sample * gain
  foldLoop sample

/-! ## Masking controller -/

/-- `PulsarEngine::ShouldEmitPulsar`. -/
def ShouldEmitPulsar (s : PulsarEngine K) : Bool × PulsarEngine K :=
  if s.maskingMode_ = MaskingMode.OFF then (true, s)
  else if s.maskingMode_ = MaskingMode.BURST then
    (decide (s.burstPosition_ < s.burstCount_), s)
  else if s.maskingMode_ = MaskingMode.STOCHASTIC then
    let r := FastRandom s
    (decide (r.1 < r.2.maskingProbability_), r.2)
  else (true, s)

/-! ## Waveform and envelope generators -/

/-- `PulsarEngine::GenerateWaveform`. Only the `NOISE` case touches the state. -/
def GenerateWaveform (M : Libm K) (s : PulsarEngine K) (phase : K)
    (waveform : PulsaretWaveform) : K × PulsarEngine K :=
  if waveform = PulsaretWaveform.SINE then (M.sinf (phase * TWO_PI), s)
  else if waveform = PulsaretWaveform.TRIANGLE then
    if phase < 0.25 then (phase * 4, s)
    else if phase < 0.75 then (1 - (phase - 0.25) * 4, s)
    else ((phase - 0.75) * 4 - 1, s)
  else if waveform = PulsaretWaveform.SAW_UP then (2 * phase - 1, s)
  else if waveform = PulsaretWaveform.SAW_DOWN then (1 - 2 * phase, s)
  else if waveform = PulsaretWaveform.SQUARE then ((if phase < 0.5 then 1 else -1), s)
  else if waveform = PulsaretWaveform.PULSE then ((if phase < 0.25 then 1 else -0.33), s)
  else if waveform = PulsaretWaveform.NOISE then
    let r := FastRandom s
    (r.1 * 2 - 1, r.2)
  else (0, s)

/-- `PulsarEngine::GenerateEnvelope`. It reads and writes no data member. -/
def GenerateEnvelope (M : Libm K) (phase : K) (envelope : PulsaretEnvelope) : K :=
  if envelope = PulsaretEnvelope.RECTANGULAR then 1
  else if envelope = PulsaretEnvelope.GAUSSIAN then
    let x := (phase - 0.5) * 3
    M.expf (-x * x)
  else if envelope = PulsaretEnvelope.EXPODEC then
    let decay : K := 4
    M.expf (-phase * decay)
  else if envelope = PulsaretEnvelope.LINEAR_DECAY then 1 - phase
  else if envelope = PulsaretEnvelope.LINEAR_ATTACK then phase
  else if envelope = PulsaretEnvelope.EXPO_ATTACK then
    let attack : K := 4
    1 - M.expf (-phase * attack)
  else if envelope = PulsaretEnvelope.FOF then
    let attackTime : K := 0.1
    if phase < attackTime then phase / attackTime
    else
      let decay : K := 3
      M.expf (-(phase - attackTime) * decay)
  else 1

/-! ## Parameter setters -/

/-- `PulsarEngine::SetFrequency`. -/
def SetFrequency (s : PulsarEngine K) (freq : K) : PulsarEngine K :=
  let s := { s with fundamentalFreq_ := fmaxf 0.1 (fminf freq (s.sampleRate_ * 0.45)) }
  let s := { s with phaseIncrement_ := s.fundamentalFreq_ * s.invSampleRate_ }
  if s.formantFreq_ > 0.1 then
    { s with dutyCycle_ := fminf 1 (s.fundamentalFreq_ / s.formantFreq_) }
  else s

/-- `PulsarEngine::SetFormantFrequency`. -/
def SetFormantFrequency (s : PulsarEngine K) (freq : K) : PulsarEngine K :=
  let s := { s with formantFreq_ := fmaxf 0.1 freq }
  if s.formantFreq_ > 0.1 then
    { s with dutyCycle_ := fminf 1 (s.fundamentalFreq_ / s.formantFreq_) }
  else s

/-- `PulsarEngine::SetFormantRatio`. The quotient stored in `formantFreq_` is the exact
one; binary32 stores `+∞` instead when the quotient exceeds `FLT_MAX`, which an element of
`K` cannot represent. -/
def SetFormantRatio (s : PulsarEngine K) (ratio : K) : PulsarEngine K :=
  let ratio := fmaxf 0.01 (fminf 1 ratio)
  let s := { s with dutyCycle_ := ratio }
  if ratio > 0.01 then
    { s with formantFreq_ := s.fundamentalFreq_ / ratio }
  else s

/-- `PulsarEngine::SetWaveform`. -/
def SetWaveform (s : PulsarEngine K) (waveform : PulsaretWaveform) : PulsarEngine K :=
  { s with waveform_ := waveform, waveformNext_ := waveform, waveformMorph_ := 0 }

/-- `PulsarEngine::SetWaveformMorph`. -/
def SetWaveformMorph (s : PulsarEngine K) (morphValue : K) : PulsarEngine K :=
  let morphValue := fmaxf 0 (fminf 6 morphValue)
  let idx : Int := truncToInt morphValue
  { s with
    waveformMorph_ := morphValue - (idx : K)
    waveform_ := ⟨idx⟩
    waveformNext_ := ⟨truncToInt (fminf 6 (((idx + 1 : Int)) : K))⟩ }

/-- `PulsarEngine::SetEnvelope`. -/
def SetEnvelope (s : PulsarEngine K) (envelope : PulsaretEnvelope) : PulsarEngine K :=
  { s with envelope_ := envelope, envelopeNext_ := envelope, envelopeMorph_ := 0 }

/-- `PulsarEngine::SetEnvelopeMorph`. -/
def SetEnvelopeMorph (s : PulsarEngine K) (morphValue : K) : PulsarEngine K :=
  let morphValue := fmaxf 0 (fminf 6 morphValue)
  let idx : Int := truncToInt morphValue
  { s with
    envelopeMorph_ := morphValue - (idx : K)
    envelope_ := ⟨idx⟩
    envelopeNext_ := ⟨truncToInt (fminf 6 (((idx + 1 : Int)) : K))⟩ }

/-- `PulsarEngine::SetFold`. -/
def SetFold (s : PulsarEngine K) (amount : K) : PulsarEngine K :=
  { s with foldAmount_ := fmaxf 0 (fminf 1 amount) }

/-- `PulsarEngine::SetBurstRatio`. -/
def SetBurstRatio (s : PulsarEngine K) (burst rest : Int) : PulsarEngine K :=
  { s with
    burstCount_ := if burst < 1 then 1 else (if burst > 16 then 16 else burst)
    restCount_ := if rest < 0 then 0 else (if rest > 16 then 16 else rest) }

/-- `PulsarEngine::SetMaskingProbability`. -/
def SetMaskingProbability (s : PulsarEngine K) (probability : K) : PulsarEngine K :=
  { s with maskingProbability_ := fmaxf 0 (fminf 1 probability) }

/-- `PulsarEngine::SetMaskingMode`. -/
def SetMaskingMode (s : PulsarEngine K) (mode : MaskingMode) : PulsarEngine K :=
  { s with maskingMode_ := mode }

/-- `PulsarEngine::SetAmplitude`. -/
def SetAmplitude (s : PulsarEngine K) (amp : K) : PulsarEngine K :=
  { s with amplitude_ := fmaxf 0 (fminf 1 amp) }

/-! ## Lifecycle -/

/-- `PulsarEngine::Init`: every data member is assigned, then `SetFrequency` is called with
the default fundamental. -/
def Init (sampleRate : K) : PulsarEngine K :=
  let s : PulsarEngine K :=
    { sampleRate_ := sampleRate
      invSampleRate_ := 1 / sampleRate
      phase_ := 0
      pulsaretPhase_ := 0
      phaseIncrement_ := 0
      fundamentalFreq_ := 220
      formantFreq_ := 440
      dutyCycle_ := 0.5
      waveform_ := PulsaretWaveform.SINE
      waveformNext_ := PulsaretWaveform.SINE
      waveformMorph_ := 0
      envelope_ := PulsaretEnvelope.GAUSSIAN
      envelopeNext_ := PulsaretEnvelope.GAUSSIAN
      envelopeMorph_ := 0
      foldAmount_ := 0
      maskingMode_ := MaskingMode.OFF
      burstCount_ := 4
      restCount_ := 0
      burstPosition_ := 0
      maskingProbability_ := 1
      currentPulsarMasked_ := false
      inPulsaret_ := true
      amplitude_ := 1
      randomSeed_ := 12345
      prevSample_ := 0 }
  SetFrequency s s.fundamentalFreq_

/-- `PulsarEngine::Reset`. -/
def Reset (s : PulsarEngine K) : PulsarEngine K :=
  { s with
    phase_ := 0
    pulsaretPhase_ := 0
    burstPosition_ := 0
    currentPulsarMasked_ := false
    inPulsaret_ := true
    prevSample_ := 0 }

/-- `PulsarEngine::Sync`. -/
def Sync (s : PulsarEngine K) : PulsarEngine K :=
  let s := { s with phase_ := 0, pulsaretPhase_ := 0, inPulsaret_ := true }
  let r := ShouldEmitPulsar s
  { r.2 with currentPulsarMasked_ := !r.1 }

/-! ## The per-sample tick -/

/-- The body of `if (inPulsaret_ && !currentPulsarMasked_)` in `Process`: the morphed
waveform times the morphed envelope, folded and scaled. -/
def pulsaretSample (M : Libm K) (s : PulsarEngine K) (dutyThreshold : K) :
    K × PulsarEngine K :=
  let s := { s with pulsaretPhase_ := s.phase_ / dutyThreshold }
  let a := GenerateWaveform M s s.pulsaretPhase_ s.waveform_
  let b := GenerateWaveform M a.2 a.2.pulsaretPhase_ a.2.waveformNext_
  let s := b.2
  let waveformSample := a.1 + (b.1 - a.1) * s.waveformMorph_
  let envA := GenerateEnvelope M s.pulsaretPhase_ s.envelope_
  let envB := GenerateEnvelope M s.pulsaretPhase_ s.envelopeNext_
  let envelopeSample := envA + (envB - envA) * s.envelopeMorph_
  let sample := waveformSample * envelopeSample
  let sample := if s.foldAmount_ > 0.001 then ApplyFold s sample else sample
  (sample * s.amplitude_, s)

/-- The phase advance of `Process` with the period wrap: burst position update and the
masking decision for the new period. -/
def advancePhase (s : PulsarEngine K) : PulsarEngine K :=
  let s := { s with phase_ := s.phase_ + s.phaseIncrement_ }
  if s.phase_ ≥ 1 then
    let s := { s with phase_ := s.phase_ - 1 }
    let s := { s with burstPosition_ := s.burstPosition_ + 1 }
    let s :=
      if s.burstPosition_ ≥ s.burstCount_ + s.restCount_ then { s with burstPosition_ := 0 }
      else s
    let r := ShouldEmitPulsar s
    { r.2 with currentPulsarMasked_ := !r.1 }
  else s

/-- The first part of `Process`: the pulsaret test and the sample computed for this tick
(`0` outside the pulsaret or when the pulsar is masked). -/
def renderSample (M : Libm K) (s : PulsarEngine K) : K × PulsarEngine K :=
  let dutyThreshold := s.dutyCycle_
  let s := { s with inPulsaret_ := decide (s.phase_ < dutyThreshold) }
  if s.inPulsaret_ && !s.currentPulsarMasked_ then pulsaretSample M s dutyThreshold
  else (0, s)

/-- `PulsarEngine::Process`: the returned sample and the state after the tick. -/
def Process (M : Libm K) (s : PulsarEngine K) : K × PulsarEngine K :=
  let dutyThreshold := s.dutyCycle_
  let r := renderSample M s
  let prevPhase := r.2.phase_
  let s := advancePhase r.2
  let sample :=
    if prevPhase < dutyThreshold ∧ s.phase_ ≥ dutyThreshold then s.prevSample_ * 0.5
    else r.1
  (sample, { s with prevSample_ := sample })

/-! ## Sequences of public operations -/

/-- The public operations that can follow `Init`, with their arguments. -/
inductive Op (K : Type) where
  | Reset
  | Sync
  | Process
  | SetFrequency (freq : K)
  | SetFormantFrequency (freq : K)
  | SetFormantRatio (ratio : K)
  | SetWaveform (waveform : PulsaretWaveform)
  | SetWaveformMorph (morphValue : K)
  | SetEnvelope (envelope : PulsaretEnvelope)
  | SetEnvelopeMorph (morphValue : K)
  | SetFold (amount : K)
  | SetBurstRatio (burst rest : Int)
  | SetMaskingProbability (probability : K)
  | SetMaskingMode (mode : MaskingMode)
  | SetAmplitude (amp : K)

/-- The state after one public operation. -/
def Op.apply (M : Libm K) (s : PulsarEngine K) : Op K → PulsarEngine K
  | .Reset => PulsarEngine.Reset s
  | .Sync => PulsarEngine.Sync s
  | .Process => (PulsarEngine.Process M s).2
  | .SetFrequency freq => PulsarEngine.SetFrequency s freq
  | .SetFormantFrequency freq => PulsarEngine.SetFormantFrequency s freq
  | .SetFormantRatio ratio => PulsarEngine.SetFormantRatio s ratio
  | .SetWaveform waveform => PulsarEngine.SetWaveform s waveform
  | .SetWaveformMorph morphValue => PulsarEngine.SetWaveformMorph s morphValue
  | .SetEnvelope envelope => PulsarEngine.SetEnvelope s envelope
  | .SetEnvelopeMorph morphValue => PulsarEngine.SetEnvelopeMorph s morphValue
  | .SetFold amount => PulsarEngine.SetFold s amount
  | .SetBurstRatio burst rest => PulsarEngine.SetBurstRatio s burst rest
  | .SetMaskingProbability probability => PulsarEngine.SetMaskingProbability s probability
  | .SetMaskingMode mode => PulsarEngine.SetMaskingMode s mode
  | .SetAmplitude amp => PulsarEngine.SetAmplitude s amp

/-- The state after a sequence of public operations, applied left to right. -/
def run (M : Libm K) (s : PulsarEngine K) (ops : List (Op K)) : PulsarEngine K :=
  ops.foldl (Op.apply M) s

/-! ## Definitions used to state the properties -/

/-- The results of `n` successive calls of `FastRandom`, first call first. -/
def draws : Nat → PulsarEngine K → List K
  | 0, _ => []
  | n + 1, s => (FastRandom s).1 :: draws n (FastRandom s).2

/-- The seed recurrence of the specification: `seed·1664525 + 1013904223` in 32-bit unsigned
wraparound arithmetic. -/
def lcgNext (seed : Nat) : Nat := (seed * 1664525 + 1013904223) % 2 ^ 32

/-- The output sequence of the specification's generator, as a function of the seed only:
each output is the new seed divided by `2^32`, without rounding. -/
def lcgDraws (K : Type) [LinearOrderedField K] : Nat → Nat → List K
  | 0, _ => []
  | n + 1, seed => ((lcgNext seed : Nat) : K) / 2 ^ 32 :: lcgDraws K n (lcgNext seed)

/-- The affine map `x ↦ a·x + c` on 32-bit unsigned integers, for `p = (a, c)`. -/
def lcgApply (p : Nat × Nat) (x : Nat) : Nat := (p.1 * x + p.2) % 2 ^ 32

/-- The coefficients of the composition `lcgApply p ∘ lcgApply q`. -/
def lcgCompose (p q : Nat × Nat) : Nat × Nat :=
  (p.1 * q.1 % 2 ^ 32, (p.1 * q.2 + p.2) % 2 ^ 32)

/-- The value of a list of binary digits, least significant digit first. -/
def bitsValue : List Bool → Nat
  | [] => 0
  | b :: bs => (if b then 1 else 0) + 2 * bitsValue bs

/-- The coefficients of the `bitsValue bits`-fold iterate of `lcgApply p`, by repeated
squaring. -/
def lcgPower (p : Nat × Nat) : List Bool → Nat × Nat
  | [] => (1, 0)
  | b :: bs =>
    if b then lcgCompose (lcgPower (lcgCompose p p) bs) p else lcgPower (lcgCompose p p) bs

/-- The binary digits of `52357831`, least significant first: the number of draws after
which the seed `12345` set by `Init` has become `1822439274`. -/
def firstUnitDrawBits : List Bool :=
  [true, true, true, false, false, false, true, true, false, true, false, true, false,
    true, true, true, false, true, true, true, true, false, false, false, true, true]

/-- The numeric invariant of the engine: what `Init` with a positive sample rate establishes
and every public operation preserves. -/
structure Inv (s : PulsarEngine K) : Prop where
  sampleRate_pos : 0 < s.sampleRate_
  invSampleRate_eq : s.invSampleRate_ = 1 / s.sampleRate_
  fundamental_ge : 0.1 ≤ s.fundamentalFreq_
  fundamental_le : s.fundamentalFreq_ ≤ max 0.1 (s.sampleRate_ * 0.45)
  phaseIncrement_eq : s.phaseIncrement_ = s.fundamentalFreq_ * s.invSampleRate_
  formant_ge : 0.1 ≤ s.formantFreq_
  duty_pos : 0 < s.dutyCycle_
  duty_le : s.dutyCycle_ ≤ 1
  phase_nonneg : 0 ≤ s.phase_
  phase_lt : 0.1 ≤ s.sampleRate_ → s.phase_ < 1
  waveformMorph_nonneg : 0 ≤ s.waveformMorph_
  waveformMorph_lt : s.waveformMorph_ < 1
  envelopeMorph_nonneg : 0 ≤ s.envelopeMorph_
  envelopeMorph_lt : s.envelopeMorph_ < 1
  fold_nonneg : 0 ≤ s.foldAmount_
  fold_le : s.foldAmount_ ≤ 1
  amplitude_nonneg : 0 ≤ s.amplitude_
  amplitude_le : s.amplitude_ ≤ 1
  probability_nonneg : 0 ≤ s.maskingProbability_
  probability_le : s.maskingProbability_ ≤ 1

/-- Bounds on the masking counters: what `Init` establishes and every public operation
preserves. -/
structure BurstInv (s : PulsarEngine K) : Prop where
  burstCount_ge : 1 ≤ s.burstCount_
  burstCount_le : s.burstCount_ ≤ 16
  restCount_ge : 0 ≤ s.restCount_
  restCount_le : s.restCount_ ≤ 16
  position_ge : 0 ≤ s.burstPosition_
  position_le : s.burstPosition_ ≤ 31

/-- The burst position lies inside the current pattern. -/
def positionInPattern (s : PulsarEngine K) : Prop :=
  s.burstPosition_ < s.burstCount_ + s.restCount_

/-- A sequence of operations started in `s` in which every `SetBurstRatio` call installs a
pattern longer than the burst position at the time of the call. -/
def burstSafe (M : Libm K) : PulsarEngine K → List (Op K) → Prop
  | _, [] => True
  | s, Op.SetBurstRatio burst rest :: ops =>
      s.burstPosition_ <
          (SetBurstRatio s burst rest).burstCount_ + (SetBurstRatio s burst rest).restCount_ ∧
        burstSafe M (SetBurstRatio s burst rest) ops
  | s, op :: ops => burstSafe M (op.apply M s) ops

/-- The state after `n` consecutive `Process()` calls, with no other call in between. -/
def ticks (M : Libm K) (s : PulsarEngine K) : Nat → PulsarEngine K
  | 0 => s
  | n + 1 => (Process M (ticks M s n)).2

/-- The number of period wraps during the first `n` consecutive `Process()` calls from `s`:
the index of the pulsar period the engine is in after them. -/
def wraps (M : Libm K) (s : PulsarEngine K) : Nat → Nat
  | 0 => 0
  | n + 1 =>
    wraps M s n +
      (if (ticks M s n).phase_ + (ticks M s n).phaseIncrement_ ≥ 1 then 1 else 0)

/-- The period-4 triangle fold as a relation: `t` is `y` shifted by a multiple of `4`, or the
mirror image `2 - ·` of such a shift. -/
def foldImage (y t : K) : Prop :=
  ∃ k : Int, t = y - 4 * (k : K) ∨ t = 2 - (y - 4 * (k : K))

/-- The tick is an audible pulsaret tick: the phase is inside the pulsaret and the current
pulsar is not masked. -/
def audibleTick (s : PulsarEngine K) : Prop :=
  s.phase_ < s.dutyCycle_ ∧ s.currentPulsarMasked_ = false

/-- The number of `NOISE` selectors among the current and the next waveform. -/
def noiseSelectors (s : PulsarEngine K) : Nat :=
  (if s.waveform_ = PulsaretWaveform.NOISE then 1 else 0) +
    (if s.waveformNext_ = PulsaretWaveform.NOISE then 1 else 0)

/-- A libm over `ℚ` for evaluating the engine: the constant functions `0` and `1`. -/
def flatLibm : Libm ℚ := ⟨fun _ => 0, fun _ => 1⟩

/-- The engine after `Init(48000)`, `SetMaskingMode(STOCHASTIC)` and `52357831` calls of
`Sync()`, each of which makes one draw. -/
def firstUnitDrawState : PulsarEngine ℚ :=
  run flatLibm (Init 48000)
    (Op.SetMaskingMode MaskingMode.STOCHASTIC :: List.replicate 52357831 Op.Sync)

/-- The engine after `Init(48000)`, `SetMaskingMode(STOCHASTIC)`, `SetMaskingProbability(1)`
and `52357831` calls of `Sync()`. -/
def unitDrawAtProbabilityOne : PulsarEngine ℚ :=
  run flatLibm (Init 48000)
    (Op.SetMaskingMode MaskingMode.STOCHASTIC :: Op.SetMaskingProbability 1 ::
      List.replicate 52357831 Op.Sync)

/-! ## Wavefolder: unfolding, range and termination -/

theorem foldLoop_unfold (x : K) :
    foldLoop x = if x > 1 ∨ x < -1 then foldLoop (foldBody x) else x := by
  rw [foldLoop]

theorem foldLoop_of_inside (x : K) (h1 : -1 ≤ x) (h2 : x ≤ 1) : foldLoop x = x := by
  rw [foldLoop_unfold, if_neg]
  rintro (h | h) <;> linarith

theorem foldBody_of_inside (x : K) (h1 : -1 ≤ x) (h2 : x ≤ 1) : foldBody x = x := by
  unfold foldBody
  simp only
  rw [if_neg (not_lt.mpr h2), if_neg (not_lt.mpr h1)]

theorem abs_foldBody_le (x : K) (h : x > 1 ∨ x < -1) :
    |foldBody x| ≤ 1 ∨ |foldBody x| ≤ |x| - 2 := by
  unfold foldBody
  simp only
  by_cases h1 : x > 1
  · rw [if_pos h1, abs_of_pos (by linarith : (0 : K) < x)]
    by_cases h2 : 2 - x < -1
    · rw [if_pos h2]
      right
      rw [abs_le]
      constructor <;> linarith
    · rw [if_neg h2]
      left
      rw [abs_le]
      constructor <;> linarith
  · rw [if_neg h1]
    have h3 : x < -1 := h.resolve_left h1
    rw [if_pos h3, abs_of_neg (by linarith : x < 0)]
    by_cases h4 : x < -3
    · right
      rw [abs_le]
      constructor <;> linarith
    · left
      rw [abs_le]
      constructor <;> linarith

theorem one_lt_abs_of_outside (x : K) (h : x > 1 ∨ x < -1) : 1 < |x| := by
  rcases h with h | h
  · exact lt_of_lt_of_le h (le_abs_self x)
  · have h5 : -x ≤ |x| := neg_le_abs x
    linarith

theorem outside_of_one_lt_abs (x : K) (h : 1 < |x|) : x > 1 ∨ x < -1 := by
  rcases lt_abs.mp h with h | h
  · exact Or.inl h
  · exact Or.inr (by linarith)

/-- The loop reaches the interval after finitely many passes through its body, and
`foldLoop` returns the value reached. -/
theorem foldLoop_iterate (x : K) :
    ∃ n : Nat, n ≤ Nat.ceil |x| ∧ |foldBody^[n] x| ≤ 1 ∧ foldLoop x = foldBody^[n] x := by
  induction x using foldLoop.induct with
  | case1 x h ih =>
    obtain ⟨n, hn, hin, heq⟩ := ih
    refine ⟨n + 1, ?_, ?_, ?_⟩
    · have hlt : Nat.ceil |foldBody x| < Nat.ceil |x| := by
        have hx := one_lt_abs_of_outside x h
        have h2 : 1 < Nat.ceil |x| := by
          rw [Nat.lt_ceil]
          exact_mod_cast hx
        have hc : |x| ≤ (Nat.ceil |x| : K) := Nat.le_ceil _
        have h2K : (2 : K) ≤ (Nat.ceil |x| : K) := by exact_mod_cast h2
        have hcast : ((Nat.ceil |x| - 1 : Nat) : K) = (Nat.ceil |x| : K) - 1 := by
          rw [Nat.cast_sub (le_of_lt h2)]
          simp
        have key : |foldBody x| ≤ ((Nat.ceil |x| - 1 : Nat) : K) := by
          rw [hcast]
          rcases abs_foldBody_le x h with h3 | h3 <;> linarith
        have := Nat.ceil_le.mpr key
        omega
      omega
    · rw [Function.iterate_succ_apply]
      exact hin
    · rw [foldLoop_unfold, if_pos h, Function.iterate_succ_apply]
      exact heq
  | case2 x h =>
    refine ⟨0, Nat.zero_le _, ?_, ?_⟩
    · rw [Function.iterate_zero_apply, abs_le]
      constructor
      · by_contra hc
        exact h (Or.inr (not_le.mp hc))
      · by_contra hc
        exact h (Or.inl (not_le.mp hc))
    · rw [foldLoop_unfold, if_neg h, Function.iterate_zero_apply]

theorem abs_foldLoop_le (x : K) : |foldLoop x| ≤ 1 := by
  obtain ⟨n, _, hin, heq⟩ := foldLoop_iterate x
  rw [heq]
  exact hin

theorem ApplyFold_eq (s : PulsarEngine K) (x : K) :
    ApplyFold s x = foldLoop (x * (1 + s.foldAmount_ * 8)) := rfl

theorem distToUnit_foldBody (x : K) (h : x > 1 ∨ x < -1) :
    distToUnit (foldBody x) < distToUnit x ∧
      ((foldBody x > 1 ∨ foldBody x < -1) → distToUnit (foldBody x) + 2 ≤ distToUnit x) := by
  have hx := one_lt_abs_of_outside x h
  have hd : distToUnit x = |x| - 1 := by
    unfold distToUnit
    exact max_eq_left (by linarith)
  rw [hd]
  constructor
  · unfold distToUnit
    rcases abs_foldBody_le x h with h3 | h3
    · rw [max_eq_right (by linarith)]
      linarith
    · rw [max_lt_iff]
      constructor <;> linarith
  · intro hout
    have hf := one_lt_abs_of_outside _ hout
    unfold distToUnit
    rw [max_eq_left (by linarith)]
    rcases abs_foldBody_le x h with h3 | h3 <;> linarith

theorem ApplyFold_bounds (s : PulsarEngine K) (sample : K) :
    -1 ≤ ApplyFold s sample ∧ ApplyFold s sample ≤ 1 := by
  rw [ApplyFold_eq]
  exact abs_le.mp (abs_foldLoop_le _)

/-- C2: for every input sample and every fold amount (in particular every fold amount in
`[0,1]`), `ApplyFold` returns a value in the closed interval `[-1,1]`. -/
theorem ApplyFold_range (s : PulsarEngine K) (sample : K) :
    -1 ≤ ApplyFold s sample ∧ ApplyFold s sample ≤ 1 :=
  ApplyFold_bounds s sample

/-- C3: the reflection loop of `ApplyFold` terminates. Every pass through the loop body that
starts outside `[-1,1]` ends strictly closer to the interval, and at least `2` closer while
the value is still outside; the loop function (defined by well-founded recursion on
`⌈|sample|⌉`) satisfies the `while` equation; and for every input and fold amount a finite
number of passes, at most `⌈|sample·gain|⌉`, brings the scaled sample into `[-1,1]`, where it
is the value `ApplyFold` returns. -/
theorem ApplyFold_terminates (s : PulsarEngine K) (sample : K) :
    (∀ x : K, (x > 1 ∨ x < -1) →
      distToUnit (foldBody x) < distToUnit x ∧
      ((foldBody x > 1 ∨ foldBody x < -1) → distToUnit (foldBody x) + 2 ≤ distToUnit x)) ∧
    (∀ x : K, foldLoop x = if x > 1 ∨ x < -1 then foldLoop (foldBody x) else x) ∧
    ∃ n : Nat, n ≤ Nat.ceil |sample * (1 + s.foldAmount_ * 8)| ∧
      |foldBody^[n] (sample * (1 + s.foldAmount_ * 8))| ≤ 1 ∧
      ApplyFold s sample = foldBody^[n] (sample * (1 + s.foldAmount_ * 8)) :=
  ⟨distToUnit_foldBody, foldLoop_unfold, foldLoop_iterate _⟩

/-- C4: with `y = x·(1 + foldAmount·8)`, `ApplyFold x` is `y` when `|y| ≤ 1`, `2 - y` when
`1 < y ≤ 3` and `-2 - y` when `-3 ≤ y < -1`. -/
theorem ApplyFold_piecewise (s : PulsarEngine K) (x : K) :
    (|x * (1 + s.foldAmount_ * 8)| ≤ 1 → ApplyFold s x = x * (1 + s.foldAmount_ * 8)) ∧
    (1 < x * (1 + s.foldAmount_ * 8) ∧ x * (1 + s.foldAmount_ * 8) ≤ 3 →
      ApplyFold s x = 2 - x * (1 + s.foldAmount_ * 8)) ∧
    (-3 ≤ x * (1 + s.foldAmount_ * 8) ∧ x * (1 + s.foldAmount_ * 8) < -1 →
      ApplyFold s x = -2 - x * (1 + s.foldAmount_ * 8)) := by
  rw [ApplyFold_eq]
  generalize x * (1 + s.foldAmount_ * 8) = y
  refine ⟨?_, ?_, ?_⟩
  · intro h
    exact foldLoop_of_inside y (abs_le.mp h).1 (abs_le.mp h).2
  · rintro ⟨h1, h2⟩
    have hb : foldBody y = 2 - y := by
      unfold foldBody
      simp only
      rw [if_pos h1, if_neg (by linarith)]
    rw [foldLoop_unfold, if_pos (Or.inl h1), hb]
    exact foldLoop_of_inside _ (by linarith) (by linarith)
  · rintro ⟨h1, h2⟩
    have hb : foldBody y = -2 - y := by
      unfold foldBody
      simp only
      rw [if_neg (show ¬ y > 1 by linarith), if_pos h2]
    rw [foldLoop_unfold, if_pos (Or.inr h2), hb]
    exact foldLoop_of_inside _ (by linarith) (by linarith)

/-- Scenario C of the specification: fold amount `0.125` (gain `2`) on the sample `0.6` gives
`1.2` after scaling and `0.8` after one reflection. -/
theorem ApplyFold_piecewise_witness :
    ApplyFold (SetFold (Init (48000 : ℚ)) 0.125) 0.6 = 0.8 := by
  have h := (ApplyFold_piecewise (SetFold (Init (48000 : ℚ)) 0.125) 0.6).2.1
  have hf : (SetFold (Init (48000 : ℚ)) 0.125).foldAmount_ = 0.125 := by
    norm_num [SetFold, fmaxf, fminf]
  rw [hf] at h
  rw [h ⟨by norm_num, by norm_num⟩]
  norm_num

/-- An instance of the decrease used for termination: one pass through the loop body takes
`5` to `1`, from distance `4` to distance `0`. -/
theorem ApplyFold_terminates_witness :
    foldBody (5 : ℚ) = 1 ∧ distToUnit (foldBody (5 : ℚ)) < distToUnit (5 : ℚ) :=
  ⟨by norm_num [foldBody],
    (((ApplyFold_terminates (Init (48000 : ℚ)) 0).1) 5 (Or.inl (by norm_num))).1⟩

/-! ## Pseudo-random source: the rounded conversion and the draw -/

theorem u32ToFloat_at (n e : Nat) (h : Nat.size n - 24 = e) :
    u32ToFloat n =
      if 2 ^ e < 2 * (n % 2 ^ e) ∨ (2 * (n % 2 ^ e) = 2 ^ e ∧ n / 2 ^ e % 2 = 1) then
        (n / 2 ^ e + 1) * 2 ^ e
      else n / 2 ^ e * 2 ^ e := by
  unfold u32ToFloat
  simp only
  rw [h]

theorem size_eq_of_range (n k : Nat) (h1 : 2 ^ k ≤ n) (h2 : n < 2 ^ (k + 1)) :
    Nat.size n = k + 1 := by
  have a : k < Nat.size n := Nat.lt_size.mpr h1
  have b : Nat.size n ≤ k + 1 := Nat.size_le.mpr h2
  omega

theorem u32ToFloat_small (n : Nat) (h : n < 2 ^ 24) : u32ToFloat n = n := by
  have hs : Nat.size n - 24 = 0 := by
    have := Nat.size_le.mpr h
    omega
  rw [u32ToFloat_at n 0 hs]
  norm_num
  omega

theorem u32ToFloat_le_pow (n k : Nat) (hk : 23 ≤ k) (h1 : 2 ^ k ≤ n) (h2 : n < 2 ^ (k + 1)) :
    u32ToFloat n ≤ 2 ^ (k + 1) := by
  have hs : Nat.size n - 24 = k - 23 := by
    rw [size_eq_of_range n k h1 h2]
    omega
  have hp : (2 : Nat) ^ (k + 1) = 2 ^ 24 * 2 ^ (k - 23) := by
    rw [← pow_add]
    congr 1
    omega
  have hpos : 0 < 2 ^ (k - 23) := by positivity
  have hq : n / 2 ^ (k - 23) < 2 ^ 24 := by
    rw [Nat.div_lt_iff_lt_mul hpos, ← hp]
    exact h2
  have hup : (n / 2 ^ (k - 23) + 1) * 2 ^ (k - 23) ≤ 2 ^ (k + 1) := by
    rw [hp]
    exact Nat.mul_le_mul_right _ hq
  rw [u32ToFloat_at n (k - 23) hs]
  split_ifs
  · exact hup
  · exact le_trans (Nat.mul_le_mul_right _ (Nat.le_succ _)) hup

theorem u32ToFloat_top (n : Nat) (h1 : 2 ^ 31 ≤ n) (h2 : n < 2 ^ 32) :
    u32ToFloat n ≤ 2 ^ 32 ∧ (u32ToFloat n = 2 ^ 32 ↔ 4294967168 ≤ n) := by
  have hs : Nat.size n - 24 = 8 := by rw [size_eq_of_range n 31 h1 h2]
  rw [u32ToFloat_at n 8 hs]
  norm_num at h1 h2 ⊢
  split_ifs with h <;> constructor <;> omega

theorem u32ToFloat_below (n : Nat) (h : n < 2 ^ 31) : u32ToFloat n ≤ 2 ^ 31 := by
  by_cases h24 : n < 2 ^ 24
  · rw [u32ToFloat_small n h24]
    exact le_of_lt h
  · have hpos : 0 < n := by
      have : 0 < 2 ^ 24 := by norm_num
      omega
    have hne : n ≠ 0 := by omega
    have hk1 : 2 ^ (Nat.size n - 1) ≤ n := by
      have : Nat.size n - 1 < Nat.size n := by
        have := Nat.size_pos.mpr hpos
        omega
      exact Nat.lt_size.mp this
    have hk2 : n < 2 ^ (Nat.size n - 1 + 1) := by
      have := Nat.lt_size_self n
      have e : Nat.size n - 1 + 1 = Nat.size n := by
        have := Nat.size_pos.mpr hpos
        omega
      rw [e]
      exact this
    have hk23 : 23 ≤ Nat.size n - 1 := by
      have : 24 < Nat.size n := Nat.lt_size.mpr (by omega)
      omega
    have hk30 : Nat.size n - 1 + 1 ≤ 31 := by
      have := Nat.size_le.mpr h
      omega
    exact le_trans (u32ToFloat_le_pow n _ hk23 hk1 hk2) (Nat.pow_le_pow_right (by norm_num) hk30)

theorem u32ToFloat_le (n : Nat) (h : n < 2 ^ 32) : u32ToFloat n ≤ 2 ^ 32 := by
  by_cases h31 : n < 2 ^ 31
  · exact le_trans (u32ToFloat_below n h31) (by norm_num)
  · exact (u32ToFloat_top n (by omega) h).1

theorem u32ToFloat_eq_top_iff (n : Nat) (h : n < 2 ^ 32) :
    u32ToFloat n = 2 ^ 32 ↔ 4294967168 ≤ n := by
  by_cases h31 : n < 2 ^ 31
  · have hb := u32ToFloat_below n h31
    norm_num at hb h31 ⊢
    constructor <;> intro h' <;> omega
  · exact (u32ToFloat_top n (by omega) h).2

theorem FastRandom_fst (s : PulsarEngine K) :
    (FastRandom s).1 = ((u32ToFloat (lcgNext s.randomSeed_) : Nat) : K) / 2 ^ 32 := by
  simp only [FastRandom, lcgNext]
  norm_num

theorem FastRandom_snd (s : PulsarEngine K) :
    (FastRandom s).2 = { s with randomSeed_ := lcgNext s.randomSeed_ } := rfl

theorem lcgNext_lt (seed : Nat) : lcgNext seed < 2 ^ 32 :=
  Nat.mod_lt _ (by norm_num)

theorem FastRandom_nonneg (s : PulsarEngine K) : 0 ≤ (FastRandom s).1 := by
  rw [FastRandom_fst]
  positivity

theorem FastRandom_le_one (s : PulsarEngine K) : (FastRandom s).1 ≤ 1 := by
  rw [FastRandom_fst, div_le_one (by positivity)]
  have h := u32ToFloat_le _ (lcgNext_lt s.randomSeed_)
  exact_mod_cast h

/-- The draw is exactly `1` for the new seeds from `4294967168` on, which the conversion
rounds up to `2^32`, and only for them. -/
theorem FastRandom_eq_one_iff (s : PulsarEngine K) :
    (FastRandom s).1 = 1 ↔ 4294967168 ≤ lcgNext s.randomSeed_ := by
  rw [FastRandom_fst, div_eq_one_iff_eq (by positivity),
    ← u32ToFloat_eq_top_iff _ (lcgNext_lt s.randomSeed_)]
  exact_mod_cast Iff.rfl

/-- The draw is the specification's quotient `newSeed / 2^32` whenever the new seed has at
most 24 significant bits before its trailing zeros; in particular below `2^24`. -/
theorem FastRandom_exact_of_small (s : PulsarEngine K) (h : lcgNext s.randomSeed_ < 2 ^ 24) :
    (FastRandom s).1 = ((lcgNext s.randomSeed_ : Nat) : K) / 2 ^ 32 := by
  rw [FastRandom_fst, u32ToFloat_small _ h]

/-- The sequence of draws depends on the starting seed only. -/
theorem draws_seed_only (n : Nat) (s t : PulsarEngine K) (h : s.randomSeed_ = t.randomSeed_) :
    draws n s = draws n t := by
  induction n generalizing s t with
  | zero => rfl
  | succ n ih =>
    simp only [draws]
    rw [FastRandom_fst s, FastRandom_fst t, h]
    congr 1
    apply ih
    rw [FastRandom_snd, FastRandom_snd]
    show lcgNext s.randomSeed_ = lcgNext t.randomSeed_
    rw [h]

/-! ## Jump-ahead for the seed recurrence -/

theorem lcgApply_compose (p q : Nat × Nat) (x : Nat) :
    lcgApply (lcgCompose p q) x = lcgApply p (lcgApply q x) := by
  unfold lcgApply lcgCompose
  simp only
  have h : (p.1 * q.1 % 2 ^ 32 * x + (p.1 * q.2 + p.2) % 2 ^ 32) ≡
      p.1 * ((q.1 * x + q.2) % 2 ^ 32) + p.2 [MOD 2 ^ 32] := by
    have h1 : p.1 * q.1 % 2 ^ 32 * x ≡ p.1 * q.1 * x [MOD 2 ^ 32] :=
      (Nat.mod_modEq _ _).mul_right _
    have h2 : (p.1 * q.2 + p.2) % 2 ^ 32 ≡ p.1 * q.2 + p.2 [MOD 2 ^ 32] := Nat.mod_modEq _ _
    have h3 : p.1 * ((q.1 * x + q.2) % 2 ^ 32) ≡ p.1 * (q.1 * x + q.2) [MOD 2 ^ 32] :=
      (Nat.mod_modEq _ _).mul_left _
    have h4 := (h1.add h2)
    have h5 := h3.add_right p.2
    have e : p.1 * q.1 * x + (p.1 * q.2 + p.2) = p.1 * (q.1 * x + q.2) + p.2 := by ring
    rw [e] at h4
    exact h4.trans h5.symm
  exact h

theorem lcgApply_lt (p : Nat × Nat) (x : Nat) : lcgApply p x < 2 ^ 32 :=
  Nat.mod_lt _ (by norm_num)

theorem lcgApply_power (bits : List Bool) (p : Nat × Nat) (x : Nat) (hx : x < 2 ^ 32) :
    lcgApply (lcgPower p bits) x = (lcgApply p)^[bitsValue bits] x := by
  induction bits generalizing p x with
  | nil =>
    show (1 * x + 0) % 2 ^ 32 = x
    rw [Nat.one_mul, Nat.add_zero, Nat.mod_eq_of_lt hx]
  | cons b bs ih =>
    have hsq : ∀ (n : Nat) (y : Nat), (lcgApply (lcgCompose p p))^[n] y =
        (lcgApply p)^[2 * n] y := by
      intro n y
      have hf : lcgApply (lcgCompose p p) = (lcgApply p)^[2] := by
        funext z
        rw [lcgApply_compose]
        rfl
      rw [hf, ← Function.iterate_mul]
    cases b with
    | true =>
      show lcgApply (lcgCompose (lcgPower (lcgCompose p p) bs) p) x =
        (lcgApply p)^[1 + 2 * bitsValue bs] x
      rw [lcgApply_compose, ih _ _ (lcgApply_lt p x), hsq, Nat.add_comm,
        Function.iterate_add_apply]
      rfl
    | false =>
      show lcgApply (lcgPower (lcgCompose p p) bs) x = (lcgApply p)^[0 + 2 * bitsValue bs] x
      rw [ih _ _ hx, hsq, Nat.zero_add]

theorem lcgNext_eq_apply : lcgNext = lcgApply (1664525, 1013904223) := by
  funext x
  unfold lcgNext lcgApply
  rw [Nat.mul_comm]

theorem lcgNext_iterate_firstUnitDraw : lcgNext^[52357831] 12345 = 1822439274 := by
  have hb : bitsValue firstUnitDrawBits = 52357831 := by decide
  rw [lcgNext_eq_apply, ← hb, ← lcgApply_power _ _ _ (by norm_num)]
  decide

/-! ## Frame lemmas: which fields the stateful helpers touch -/

theorem GenerateWaveform_snd (M : Libm K) (s : PulsarEngine K) (phase : K)
    (w : PulsaretWaveform) :
    ∃ seed, (GenerateWaveform M s phase w).2 = { s with randomSeed_ := seed } := by
  unfold GenerateWaveform
  split_ifs
  all_goals exact ⟨_, rfl⟩

theorem ShouldEmitPulsar_snd (s : PulsarEngine K) :
    ∃ seed, (ShouldEmitPulsar s).2 = { s with randomSeed_ := seed } := by
  unfold ShouldEmitPulsar
  split_ifs
  all_goals exact ⟨_, rfl⟩

theorem pulsaretSample_snd (M : Libm K) (s : PulsarEngine K) (d : K) :
    ∃ seed, (pulsaretSample M s d).2 =
      { s with pulsaretPhase_ := s.phase_ / d, randomSeed_ := seed } := by
  have h0 : (pulsaretSample M s d).2 =
      (GenerateWaveform M
        (GenerateWaveform M { s with pulsaretPhase_ := s.phase_ / d } (s.phase_ / d)
          s.waveform_).2
        (GenerateWaveform M { s with pulsaretPhase_ := s.phase_ / d } (s.phase_ / d)
          s.waveform_).2.pulsaretPhase_
        (GenerateWaveform M { s with pulsaretPhase_ := s.phase_ / d } (s.phase_ / d)
          s.waveform_).2.waveformNext_).2 := rfl
  rw [h0]
  obtain ⟨seed1, h1⟩ := GenerateWaveform_snd M { s with pulsaretPhase_ := s.phase_ / d }
    (s.phase_ / d) s.waveform_
  rw [h1]
  obtain ⟨seed2, h2⟩ := GenerateWaveform_snd M
    { s with pulsaretPhase_ := s.phase_ / d, randomSeed_ := seed1 } (s.phase_ / d)
    s.waveformNext_
  exact ⟨seed2, h2⟩

theorem renderSample_snd (M : Libm K) (s : PulsarEngine K) :
    ∃ pp seed, (renderSample M s).2 =
      { s with
        inPulsaret_ := decide (s.phase_ < s.dutyCycle_)
        pulsaretPhase_ := pp
        randomSeed_ := seed } := by
  unfold renderSample
  simp only
  split_ifs with hc
  · obtain ⟨seed1, h1⟩ := pulsaretSample_snd M
      { s with inPulsaret_ := decide (s.phase_ < s.dutyCycle_) } s.dutyCycle_
    exact ⟨_, seed1, h1⟩
  · exact ⟨s.pulsaretPhase_, s.randomSeed_, rfl⟩

theorem advancePhase_form (s : PulsarEngine K) :
    ∃ seed pos masked, advancePhase s =
      { s with
        phase_ := if s.phase_ + s.phaseIncrement_ ≥ 1 then s.phase_ + s.phaseIncrement_ - 1
          else s.phase_ + s.phaseIncrement_
        burstPosition_ := pos
        currentPulsarMasked_ := masked
        randomSeed_ := seed } := by
  unfold advancePhase
  simp only
  by_cases h : s.phase_ + s.phaseIncrement_ ≥ 1
  · rw [if_pos h, if_pos h]
    split_ifs
    · obtain ⟨seed, hs⟩ := ShouldEmitPulsar_snd
        { s with phase_ := s.phase_ + s.phaseIncrement_ - 1, burstPosition_ := 0 }
      rw [hs]
      exact ⟨seed, 0, _, rfl⟩
    · obtain ⟨seed, hs⟩ := ShouldEmitPulsar_snd
        { s with phase_ := s.phase_ + s.phaseIncrement_ - 1,
                 burstPosition_ := s.burstPosition_ + 1 }
      rw [hs]
      exact ⟨seed, s.burstPosition_ + 1, _, rfl⟩
  · rw [if_neg h, if_neg h]
    exact ⟨s.randomSeed_, s.burstPosition_, s.currentPulsarMasked_, rfl⟩

theorem Process_snd (M : Libm K) (s : PulsarEngine K) :
    (Process M s).2 =
      { advancePhase (renderSample M s).2 with prevSample_ := (Process M s).1 } := rfl

theorem Process_fst (M : Libm K) (s : PulsarEngine K) :
    (Process M s).1 =
      if (renderSample M s).2.phase_ < s.dutyCycle_ ∧
          (advancePhase (renderSample M s).2).phase_ ≥ s.dutyCycle_ then
        (advancePhase (renderSample M s).2).prevSample_ * 0.5
      else (renderSample M s).1 := rfl

theorem Process_snd_form (M : Libm K) (s : PulsarEngine K) :
    ∃ pp seed pos masked, (Process M s).2 =
      { s with
        inPulsaret_ := decide (s.phase_ < s.dutyCycle_)
        pulsaretPhase_ := pp
        phase_ := if s.phase_ + s.phaseIncrement_ ≥ 1 then s.phase_ + s.phaseIncrement_ - 1
          else s.phase_ + s.phaseIncrement_
        burstPosition_ := pos
        currentPulsarMasked_ := masked
        randomSeed_ := seed
        prevSample_ := (Process M s).1 } := by
  rw [Process_snd]
  obtain ⟨pp, seed1, h1⟩ := renderSample_snd M s
  rw [h1]
  obtain ⟨seed, pos, masked, h2⟩ := advancePhase_form
    { s with inPulsaret_ := decide (s.phase_ < s.dutyCycle_),
             pulsaretPhase_ := pp, randomSeed_ := seed1 }
  rw [h2]
  exact ⟨pp, seed, pos, masked, rfl⟩

theorem Process_fst_form (M : Libm K) (s : PulsarEngine K) :
    (Process M s).1 =
      if s.phase_ < s.dutyCycle_ ∧
          (if s.phase_ + s.phaseIncrement_ ≥ 1 then s.phase_ + s.phaseIncrement_ - 1
            else s.phase_ + s.phaseIncrement_) ≥ s.dutyCycle_ then
        s.prevSample_ * 0.5
      else (renderSample M s).1 := by
  rw [Process_fst]
  obtain ⟨pp, seed1, h1⟩ := renderSample_snd M s
  rw [h1]
  obtain ⟨seed, pos, masked, h2⟩ := advancePhase_form
    { s with inPulsaret_ := decide (s.phase_ < s.dutyCycle_),
             pulsaretPhase_ := pp, randomSeed_ := seed1 }
  rw [h2]

/-! ## The numeric invariant -/

theorem Inv_Init (sampleRate : K) (h : 0 < sampleRate) : Inv (Init sampleRate) := by
  unfold Init SetFrequency fmaxf fminf
  simp only
  rw [if_pos (by norm_num)]
  refine
    { sampleRate_pos := h
      invSampleRate_eq := rfl
      fundamental_ge := le_max_left _ _
      fundamental_le := max_le_max le_rfl (min_le_right _ _)
      phaseIncrement_eq := rfl
      formant_ge := by norm_num
      duty_pos := ?_
      duty_le := min_le_left _ _
      phase_nonneg := le_refl _
      phase_lt := fun _ => by norm_num
      waveformMorph_nonneg := le_refl _
      waveformMorph_lt := by norm_num
      envelopeMorph_nonneg := le_refl _
      envelopeMorph_lt := by norm_num
      fold_nonneg := le_refl _
      fold_le := by norm_num
      amplitude_nonneg := by norm_num
      amplitude_le := le_refl _
      probability_nonneg := by norm_num
      probability_le := le_refl _ }
  simp only
  rw [lt_min_iff]
  refine ⟨by norm_num, div_pos ?_ (by norm_num)⟩
  exact lt_of_lt_of_le (by norm_num) (le_max_left _ _)

theorem duty_formula_pos (f g : K) (hf : 0.1 ≤ f) (hg : 0.1 < g) : 0 < min 1 (f / g) := by
  rw [lt_min_iff]
  refine ⟨by norm_num, div_pos ?_ ?_⟩
  · exact lt_of_lt_of_le (by norm_num) hf
  · exact lt_trans (by norm_num) hg

theorem Inv_SetFrequency (s : PulsarEngine K) (freq : K) (h : Inv s) :
    Inv (SetFrequency s freq) := by
  have hfund : (0.1 : K) ≤ max 0.1 (min freq (s.sampleRate_ * 0.45)) := le_max_left _ _
  unfold SetFrequency fmaxf fminf
  simp only
  split_ifs with hc
  · exact
      { h with
        fundamental_ge := hfund
        fundamental_le := max_le_max le_rfl (min_le_right _ _)
        phaseIncrement_eq := rfl
        duty_pos := duty_formula_pos _ _ hfund hc
        duty_le := min_le_left _ _ }
  · exact
      { h with
        fundamental_ge := hfund
        fundamental_le := max_le_max le_rfl (min_le_right _ _)
        phaseIncrement_eq := rfl }

theorem Inv_SetFormantFrequency (s : PulsarEngine K) (freq : K) (h : Inv s) :
    Inv (SetFormantFrequency s freq) := by
  unfold SetFormantFrequency fmaxf
  simp only
  split_ifs with hc
  · exact
      { h with
        formant_ge := le_max_left _ _
        duty_pos := duty_formula_pos _ _ h.fundamental_ge hc
        duty_le := min_le_left _ _ }
  · exact { h with formant_ge := le_max_left _ _ }

theorem Inv_SetFormantRatio (s : PulsarEngine K) (ratio : K) (h : Inv s) :
    Inv (SetFormantRatio s ratio) := by
  have hr : (0.01 : K) ≤ max 0.01 (min 1 ratio) := le_max_left _ _
  have hr1 : max 0.01 (min 1 ratio) ≤ (1 : K) := max_le (by norm_num) (min_le_left _ _)
  have hpos : (0 : K) < max 0.01 (min 1 ratio) := lt_of_lt_of_le (by norm_num) hr
  unfold SetFormantRatio fmaxf fminf
  simp only
  split_ifs with hc
  · refine
      { h with
        formant_ge := ?_
        duty_pos := hpos
        duty_le := hr1 }
    simp only
    rw [le_div_iff₀ hpos]
    have := h.fundamental_ge
    nlinarith
  · exact { h with duty_pos := hpos, duty_le := hr1 }

theorem truncToInt_of_nonneg (x : K) (h : 0 ≤ x) : truncToInt x = Int.floor x := by
  unfold truncToInt
  rw [if_pos h]

theorem morph_fraction (v : K) :
    0 ≤ max 0 (min 6 v) - ((truncToInt (max 0 (min 6 v)) : Int) : K) ∧
      max 0 (min 6 v) - ((truncToInt (max 0 (min 6 v)) : Int) : K) < 1 := by
  rw [truncToInt_of_nonneg _ (le_max_left _ _)]
  constructor
  · have := Int.floor_le (max 0 (min 6 v))
    linarith
  · have := Int.lt_floor_add_one (max 0 (min 6 v))
    linarith

theorem clamp01 (v : K) : 0 ≤ max 0 (min 1 v) ∧ max 0 (min 1 v) ≤ 1 :=
  ⟨le_max_left _ _, max_le (by norm_num) (min_le_left _ _)⟩

theorem Inv_setters (s : PulsarEngine K) (h : Inv s) :
    (∀ w, Inv (SetWaveform s w)) ∧ (∀ v, Inv (SetWaveformMorph s v)) ∧
    (∀ e, Inv (SetEnvelope s e)) ∧ (∀ v, Inv (SetEnvelopeMorph s v)) ∧
    (∀ v, Inv (SetFold s v)) ∧ (∀ b r, Inv (SetBurstRatio s b r)) ∧
    (∀ v, Inv (SetMaskingProbability s v)) ∧ (∀ m, Inv (SetMaskingMode s m)) ∧
    (∀ v, Inv (SetAmplitude s v)) ∧ Inv (Reset s) ∧ Inv (Sync s) := by
  refine ⟨?_, ?_, ?_, ?_, ?_, ?_, ?_, ?_, ?_, ?_, ?_⟩
  · intro w
    exact { h with waveformMorph_nonneg := le_refl _, waveformMorph_lt := zero_lt_one }
  · intro v
    exact { h with
      waveformMorph_nonneg := (morph_fraction v).1
      waveformMorph_lt := (morph_fraction v).2 }
  · intro e
    exact { h with envelopeMorph_nonneg := le_refl _, envelopeMorph_lt := zero_lt_one }
  · intro v
    exact { h with
      envelopeMorph_nonneg := (morph_fraction v).1
      envelopeMorph_lt := (morph_fraction v).2 }
  · intro v
    exact { h with fold_nonneg := (clamp01 v).1, fold_le := (clamp01 v).2 }
  · intro b r
    exact { h with }
  · intro v
    exact { h with probability_nonneg := (clamp01 v).1, probability_le := (clamp01 v).2 }
  · intro m
    exact { h with }
  · intro v
    exact { h with amplitude_nonneg := (clamp01 v).1, amplitude_le := (clamp01 v).2 }
  · exact { h with phase_nonneg := le_refl _, phase_lt := fun _ => zero_lt_one }
  · unfold Sync
    simp only
    obtain ⟨seed, hs⟩ := ShouldEmitPulsar_snd
      { s with phase_ := 0, pulsaretPhase_ := 0, inPulsaret_ := true }
    rw [hs]
    exact { h with phase_nonneg := le_refl _, phase_lt := fun _ => zero_lt_one }

theorem Inv.phaseIncrement_pos {s : PulsarEngine K} (h : Inv s) : 0 < s.phaseIncrement_ := by
  rw [h.phaseIncrement_eq, h.invSampleRate_eq]
  have h1 : (0 : K) < s.fundamentalFreq_ := lt_of_lt_of_le (by norm_num) h.fundamental_ge
  have h2 : (0 : K) < 1 / s.sampleRate_ := one_div_pos.mpr h.sampleRate_pos
  exact mul_pos h1 h2

theorem Inv.phaseIncrement_le_one {s : PulsarEngine K} (h : Inv s)
    (hsr : 0.1 ≤ s.sampleRate_) : s.phaseIncrement_ ≤ 1 := by
  rw [h.phaseIncrement_eq, h.invSampleRate_eq, mul_one_div, div_le_one h.sampleRate_pos]
  refine le_trans h.fundamental_le (max_le hsr ?_)
  have := h.sampleRate_pos
  linarith

theorem Inv_Process (M : Libm K) (s : PulsarEngine K) (h : Inv s) : Inv (Process M s).2 := by
  obtain ⟨pp, seed, pos, masked, hP⟩ := Process_snd_form M s
  rw [hP]
  have hinc := h.phaseIncrement_pos
  have hp := h.phase_nonneg
  refine { h with phase_nonneg := ?_, phase_lt := ?_ }
  · simp only
    split_ifs with hc <;> linarith
  · intro hsr
    have h1 := h.phase_lt hsr
    have h2 := h.phaseIncrement_le_one hsr
    simp only
    split_ifs with hc
    · linarith
    · exact not_le.mp hc

theorem Inv_apply (M : Libm K) (s : PulsarEngine K) (op : Op K) (h : Inv s) :
    Inv (op.apply M s) := by
  have hs := Inv_setters s h
  cases op with
  | Reset => exact hs.2.2.2.2.2.2.2.2.2.1
  | Sync => exact hs.2.2.2.2.2.2.2.2.2.2
  | Process => exact Inv_Process M s h
  | SetFrequency freq => exact Inv_SetFrequency s freq h
  | SetFormantFrequency freq => exact Inv_SetFormantFrequency s freq h
  | SetFormantRatio ratio => exact Inv_SetFormantRatio s ratio h
  | SetWaveform w => exact hs.1 w
  | SetWaveformMorph v => exact hs.2.1 v
  | SetEnvelope e => exact hs.2.2.1 e
  | SetEnvelopeMorph v => exact hs.2.2.2.1 v
  | SetFold v => exact hs.2.2.2.2.1 v
  | SetBurstRatio b r => exact hs.2.2.2.2.2.1 b r
  | SetMaskingProbability v => exact hs.2.2.2.2.2.2.1 v
  | SetMaskingMode m => exact hs.2.2.2.2.2.2.2.1 m
  | SetAmplitude v => exact hs.2.2.2.2.2.2.2.2.1 v

theorem run_cons (M : Libm K) (s : PulsarEngine K) (op : Op K) (ops : List (Op K)) :
    run M s (op :: ops) = run M (op.apply M s) ops := rfl

theorem run_nil (M : Libm K) (s : PulsarEngine K) : run M s [] = s := rfl

theorem Inv_run (M : Libm K) (ops : List (Op K)) (s : PulsarEngine K) (h : Inv s) :
    Inv (run M s ops) := by
  induction ops generalizing s with
  | nil => exact h
  | cons op ops ih => exact ih _ (Inv_apply M s op h)

/-- With exact quotients, for a positive sample rate, the duty cycle lies in `(0,1]` in every
state reached from `Init` by any sequence of public operations (all setters with arbitrary
arguments, `Reset`, `Sync`, `Process`). The statement is about the exact quotient
`fundamentalFreq / ratio`; it says nothing about a run in which that quotient exceeds
`FLT_MAX`, where binary32 stores `+∞`. -/
theorem dutyCycle_range_exact (M : Libm K) (sampleRate : K) (hsr : 0 < sampleRate)
    (ops : List (Op K)) :
    0 < (run M (Init sampleRate) ops).dutyCycle_ ∧
      (run M (Init sampleRate) ops).dutyCycle_ ≤ 1 ∧
      (run M (Init sampleRate) ops).dutyCycle_ ≠ 0 := by
  have h := Inv_run M ops _ (Inv_Init sampleRate hsr)
  exact ⟨h.duty_pos, h.duty_le, ne_of_gt h.duty_pos⟩

/-! ## What one tick does to the phase and to the masking state -/

theorem Process_phase (M : Libm K) (s : PulsarEngine K) :
    (Process M s).2.phase_ =
      if s.phase_ + s.phaseIncrement_ ≥ 1 then s.phase_ + s.phaseIncrement_ - 1
      else s.phase_ + s.phaseIncrement_ := by
  obtain ⟨pp, seed, pos, masked, hP⟩ := Process_snd_form M s
  rw [hP]

theorem Process_params (M : Libm K) (s : PulsarEngine K) :
    (Process M s).2.burstCount_ = s.burstCount_ ∧
    (Process M s).2.restCount_ = s.restCount_ ∧
    (Process M s).2.maskingMode_ = s.maskingMode_ ∧
    (Process M s).2.phaseIncrement_ = s.phaseIncrement_ ∧
    (Process M s).2.dutyCycle_ = s.dutyCycle_ ∧
    (Process M s).2.maskingProbability_ = s.maskingProbability_ := by
  obtain ⟨pp, seed, pos, masked, hP⟩ := Process_snd_form M s
  rw [hP]
  exact ⟨rfl, rfl, rfl, rfl, rfl, rfl⟩

theorem ShouldEmitPulsar_burstPosition (s : PulsarEngine K) :
    (ShouldEmitPulsar s).2.burstPosition_ = s.burstPosition_ := by
  obtain ⟨seed, hs⟩ := ShouldEmitPulsar_snd s
  rw [hs]

theorem advancePhase_burstPosition (s : PulsarEngine K) :
    (advancePhase s).burstPosition_ =
      if s.phase_ + s.phaseIncrement_ ≥ 1 then
        (if s.burstPosition_ + 1 ≥ s.burstCount_ + s.restCount_ then 0
          else s.burstPosition_ + 1)
      else s.burstPosition_ := by
  unfold advancePhase
  simp only
  by_cases h : s.phase_ + s.phaseIncrement_ ≥ 1
  · rw [if_pos h, if_pos h]
    simp only [ShouldEmitPulsar_burstPosition]
    split_ifs <;> rfl
  · rw [if_neg h, if_neg h]

theorem Process_burstPosition (M : Libm K) (s : PulsarEngine K) :
    (Process M s).2.burstPosition_ =
      if s.phase_ + s.phaseIncrement_ ≥ 1 then
        (if s.burstPosition_ + 1 ≥ s.burstCount_ + s.restCount_ then 0
          else s.burstPosition_ + 1)
      else s.burstPosition_ := by
  have h : (Process M s).2.burstPosition_ =
      (advancePhase (renderSample M s).2).burstPosition_ := rfl
  rw [h, advancePhase_burstPosition]
  obtain ⟨pp, seed1, h1⟩ := renderSample_snd M s
  rw [h1]

theorem Sync_sampleRate (s : PulsarEngine K) : (Sync s).sampleRate_ = s.sampleRate_ := by
  unfold Sync
  simp only
  obtain ⟨seed, hs⟩ := ShouldEmitPulsar_snd
    { s with phase_ := 0, pulsaretPhase_ := 0, inPulsaret_ := true }
  rw [hs]

theorem apply_sampleRate (M : Libm K) (s : PulsarEngine K) (op : Op K) :
    (op.apply M s).sampleRate_ = s.sampleRate_ := by
  cases op with
  | Reset => rfl
  | Sync => exact Sync_sampleRate s
  | Process =>
    obtain ⟨pp, seed, pos, masked, hP⟩ := Process_snd_form M s
    show (Process M s).2.sampleRate_ = s.sampleRate_
    rw [hP]
  | SetFrequency freq =>
    show (SetFrequency s freq).sampleRate_ = s.sampleRate_
    unfold SetFrequency
    simp only
    split_ifs <;> rfl
  | SetFormantFrequency freq =>
    show (SetFormantFrequency s freq).sampleRate_ = s.sampleRate_
    unfold SetFormantFrequency
    simp only
    split_ifs <;> rfl
  | SetFormantRatio ratio =>
    show (SetFormantRatio s ratio).sampleRate_ = s.sampleRate_
    unfold SetFormantRatio
    simp only
    split_ifs <;> rfl
  | SetWaveform w => rfl
  | SetWaveformMorph v => rfl
  | SetEnvelope e => rfl
  | SetEnvelopeMorph v => rfl
  | SetFold v => rfl
  | SetBurstRatio b r => rfl
  | SetMaskingProbability v => rfl
  | SetMaskingMode m => rfl
  | SetAmplitude v => rfl

theorem Init_sampleRate (sampleRate : K) : (Init sampleRate).sampleRate_ = sampleRate := by
  unfold Init SetFrequency
  simp only
  split_ifs <;> rfl

theorem run_sampleRate (M : Libm K) (ops : List (Op K)) (s : PulsarEngine K) :
    (run M s ops).sampleRate_ = s.sampleRate_ := by
  induction ops generalizing s with
  | nil => rfl
  | cons op ops ih => rw [run_cons, ih, apply_sampleRate]

/-! ## The phase accumulator -/

/-- C7 as stated fails for sample rates below `0.1`: with `sampleRate = 0.05` the floor of
`0.1` Hz on the fundamental gives `phaseIncrement = 2`, and the first `Process()` leaves
`phase = 1`. -/
theorem phase_range_counterexample :
    (0 : ℚ) < 0.05 ∧
    (Init (0.05 : ℚ)).phaseIncrement_ = 2 ∧
    (run flatLibm (Init (0.05 : ℚ)) [Op.Process]).phase_ = 1 ∧
    ¬ ((run flatLibm (Init (0.05 : ℚ)) [Op.Process]).phase_ < 1) := by
  have hinc : (Init (0.05 : ℚ)).phaseIncrement_ = 2 := by
    norm_num [Init, SetFrequency, fmaxf, fminf]
  have hph : (Init (0.05 : ℚ)).phase_ = 0 := by
    norm_num [Init, SetFrequency, fmaxf, fminf]
  have h1 : (run flatLibm (Init (0.05 : ℚ)) [Op.Process]).phase_ = 1 := by
    rw [run_cons, run_nil]
    show (Process flatLibm (Init (0.05 : ℚ))).2.phase_ = 1
    rw [Process_phase, hinc, hph]
    norm_num
  refine ⟨by norm_num, hinc, h1, ?_⟩
  rw [h1]
  norm_num

/-- C7, amended: for every sample rate of at least `0.1`, the phase lies in `[0,1)` in every
state reached from `Init` by any sequence of public operations; from such a state `Process()`
adds `phaseIncrement`, subtracts `1` once when the sum reaches `1`, and the result is again
in `[0,1)`. -/
theorem phase_range (M : Libm K) (sampleRate : K) (hsr : 0.1 ≤ sampleRate)
    (ops : List (Op K)) :
    0 ≤ (run M (Init sampleRate) ops).phase_ ∧
    (run M (Init sampleRate) ops).phase_ < 1 ∧
    (Process M (run M (Init sampleRate) ops)).2.phase_ =
      (if (run M (Init sampleRate) ops).phase_ +
            (run M (Init sampleRate) ops).phaseIncrement_ ≥ 1 then
          (run M (Init sampleRate) ops).phase_ +
            (run M (Init sampleRate) ops).phaseIncrement_ - 1
        else (run M (Init sampleRate) ops).phase_ +
            (run M (Init sampleRate) ops).phaseIncrement_) ∧
    0 ≤ (Process M (run M (Init sampleRate) ops)).2.phase_ ∧
    (Process M (run M (Init sampleRate) ops)).2.phase_ < 1 := by
  have hpos : (0 : K) < sampleRate := lt_of_lt_of_le (by norm_num) hsr
  have h := Inv_run M ops _ (Inv_Init sampleRate hpos)
  have hrate : (0.1 : K) ≤ (run M (Init sampleRate) ops).sampleRate_ := by
    rw [run_sampleRate, Init_sampleRate]
    exact hsr
  have h2 := Inv_Process M _ h
  have hrate2 : (0.1 : K) ≤ (Process M (run M (Init sampleRate) ops)).2.sampleRate_ := by
    have := apply_sampleRate M (run M (Init sampleRate) ops) Op.Process
    rw [show (Process M (run M (Init sampleRate) ops)).2 =
      Op.apply M (run M (Init sampleRate) ops) Op.Process from rfl, this]
    exact hrate
  exact ⟨h.phase_nonneg, h.phase_lt hrate, Process_phase M _, h2.phase_nonneg,
    h2.phase_lt hrate2⟩

/-- An instance of the amended C7 at the sample rate `48000` after a retune and three ticks. -/
theorem phase_range_witness :
    (0.1 : ℚ) ≤ 48000 ∧
    0 ≤ (run flatLibm (Init (48000 : ℚ))
      [Op.SetFrequency 20000, Op.Process, Op.Process, Op.Process]).phase_ ∧
    (run flatLibm (Init (48000 : ℚ))
      [Op.SetFrequency 20000, Op.Process, Op.Process, Op.Process]).phase_ < 1 :=
  ⟨by norm_num,
    (phase_range flatLibm 48000 (by norm_num)
      [Op.SetFrequency 20000, Op.Process, Op.Process, Op.Process]).1,
    (phase_range flatLibm 48000 (by norm_num)
      [Op.SetFrequency 20000, Op.Process, Op.Process, Op.Process]).2.1⟩

/-- An instance of `dutyCycle_range_exact`: after `Init(48000)` and a run of setter calls
with out-of-range arguments, interleaved with ticks, the duty cycle is in `(0,1]`. -/
theorem dutyCycle_range_exact_instance :
    (0 : ℚ) < 48000 ∧
    0 < (run flatLibm (Init (48000 : ℚ))
      [Op.SetFrequency (-3), Op.Process, Op.SetFormantFrequency 0, Op.Sync,
        Op.SetFormantRatio (-1), Op.Process, Op.Reset]).dutyCycle_ ∧
    (run flatLibm (Init (48000 : ℚ))
      [Op.SetFrequency (-3), Op.Process, Op.SetFormantFrequency 0, Op.Sync,
        Op.SetFormantRatio (-1), Op.Process, Op.Reset]).dutyCycle_ ≤ 1 :=
  ⟨by norm_num,
    (dutyCycle_range_exact flatLibm 48000 (by norm_num)
      [Op.SetFrequency (-3), Op.Process, Op.SetFormantFrequency 0, Op.Sync,
        Op.SetFormantRatio (-1), Op.Process, Op.Reset]).1,
    (dutyCycle_range_exact flatLibm 48000 (by norm_num)
      [Op.SetFrequency (-3), Op.Process, Op.SetFormantFrequency 0, Op.Sync,
        Op.SetFormantRatio (-1), Op.Process, Op.Reset]).2.1⟩

/-! ## Frame lemmas for the operations that branch -/

theorem SetFrequency_form (s : PulsarEngine K) (freq : K) :
    ∃ d, SetFrequency s freq =
      { s with
        fundamentalFreq_ := fmaxf 0.1 (fminf freq (s.sampleRate_ * 0.45))
        phaseIncrement_ := fmaxf 0.1 (fminf freq (s.sampleRate_ * 0.45)) * s.invSampleRate_
        dutyCycle_ := d } := by
  unfold SetFrequency
  simp only
  split_ifs
  · exact ⟨_, rfl⟩
  · exact ⟨s.dutyCycle_, rfl⟩

theorem SetFormantFrequency_form (s : PulsarEngine K) (freq : K) :
    ∃ d, SetFormantFrequency s freq =
      { s with formantFreq_ := fmaxf 0.1 freq, dutyCycle_ := d } := by
  unfold SetFormantFrequency
  simp only
  split_ifs
  · exact ⟨_, rfl⟩
  · exact ⟨s.dutyCycle_, rfl⟩

theorem SetFormantRatio_form (s : PulsarEngine K) (ratio : K) :
    ∃ f, SetFormantRatio s ratio =
      { s with dutyCycle_ := fmaxf 0.01 (fminf 1 ratio), formantFreq_ := f } := by
  unfold SetFormantRatio
  simp only
  split_ifs
  · exact ⟨_, rfl⟩
  · exact ⟨s.formantFreq_, rfl⟩

theorem Sync_form (s : PulsarEngine K) :
    ∃ seed masked, Sync s =
      { s with
        phase_ := 0
        pulsaretPhase_ := 0
        inPulsaret_ := true
        currentPulsarMasked_ := masked
        randomSeed_ := seed } := by
  unfold Sync
  simp only
  obtain ⟨seed, hs⟩ := ShouldEmitPulsar_snd
    { s with phase_ := 0, pulsaretPhase_ := 0, inPulsaret_ := true }
  rw [hs]
  exact ⟨seed, _, rfl⟩

theorem Process_burstCount (M : Libm K) (s : PulsarEngine K) :
    (Process M s).2.burstCount_ = s.burstCount_ := (Process_params M s).1

theorem Process_restCount (M : Libm K) (s : PulsarEngine K) :
    (Process M s).2.restCount_ = s.restCount_ := (Process_params M s).2.1

theorem Process_maskingMode (M : Libm K) (s : PulsarEngine K) :
    (Process M s).2.maskingMode_ = s.maskingMode_ := (Process_params M s).2.2.1

theorem Process_phaseIncrement (M : Libm K) (s : PulsarEngine K) :
    (Process M s).2.phaseIncrement_ = s.phaseIncrement_ := (Process_params M s).2.2.2.1

theorem Process_dutyCycle (M : Libm K) (s : PulsarEngine K) :
    (Process M s).2.dutyCycle_ = s.dutyCycle_ := (Process_params M s).2.2.2.2.1

/-! ## The burst counters -/

/-- Every operation other than `SetBurstRatio` keeps the counters within their bounds and
keeps the burst position inside the pattern. -/
theorem burst_step (M : Libm K) (s : PulsarEngine K) (op : Op K) (h : BurstInv s) :
    BurstInv (op.apply M s) ∧
      ((∀ b r, op ≠ Op.SetBurstRatio b r) → positionInPattern s →
        positionInPattern (op.apply M s)) := by
  have hb := h.burstCount_ge
  have hr := h.restCount_ge
  cases op with
  | Reset =>
    refine ⟨{ h with
      position_ge := le_refl _
      position_le := show (0 : Int) ≤ 31 by omega }, fun _ _ => ?_⟩
    show (0 : Int) < s.burstCount_ + s.restCount_
    omega
  | Sync =>
    obtain ⟨seed, masked, hS⟩ := Sync_form s
    show BurstInv (Sync s) ∧ (_ → positionInPattern s → positionInPattern (Sync s))
    rw [hS]
    exact ⟨{ h with }, fun _ hp => hp⟩
  | Process =>
    show BurstInv (Process M s).2 ∧ (_ → positionInPattern s →
      positionInPattern (Process M s).2)
    have h1 := Process_burstPosition M s
    have h2 := Process_burstCount M s
    have h3 := Process_restCount M s
    have hge := h.position_ge
    have hle := h.position_le
    have hbl := h.burstCount_le
    have hrl := h.restCount_le
    constructor
    · constructor
      · rw [h2]; exact hb
      · rw [h2]; exact hbl
      · rw [h3]; exact hr
      · rw [h3]; exact hrl
      · rw [h1]; split_ifs <;> omega
      · rw [h1]; split_ifs <;> omega
    · intro _ hp
      unfold positionInPattern at hp ⊢
      rw [h1, h2, h3]
      split_ifs <;> omega
  | SetFrequency freq =>
    obtain ⟨d, hS⟩ := SetFrequency_form s freq
    show BurstInv (SetFrequency s freq) ∧ (_ → positionInPattern s →
      positionInPattern (SetFrequency s freq))
    rw [hS]
    exact ⟨{ h with }, fun _ hp => hp⟩
  | SetFormantFrequency freq =>
    obtain ⟨d, hS⟩ := SetFormantFrequency_form s freq
    show BurstInv (SetFormantFrequency s freq) ∧ (_ → positionInPattern s →
      positionInPattern (SetFormantFrequency s freq))
    rw [hS]
    exact ⟨{ h with }, fun _ hp => hp⟩
  | SetFormantRatio ratio =>
    obtain ⟨f, hS⟩ := SetFormantRatio_form s ratio
    show BurstInv (SetFormantRatio s ratio) ∧ (_ → positionInPattern s →
      positionInPattern (SetFormantRatio s ratio))
    rw [hS]
    exact ⟨{ h with }, fun _ hp => hp⟩
  | SetWaveform w => exact ⟨{ h with }, fun _ hp => hp⟩
  | SetWaveformMorph v => exact ⟨{ h with }, fun _ hp => hp⟩
  | SetEnvelope e => exact ⟨{ h with }, fun _ hp => hp⟩
  | SetEnvelopeMorph v => exact ⟨{ h with }, fun _ hp => hp⟩
  | SetFold v => exact ⟨{ h with }, fun _ hp => hp⟩
  | SetBurstRatio b r =>
    refine ⟨?_, fun hne => absurd rfl (hne b r)⟩
    show BurstInv (SetBurstRatio s b r)
    unfold SetBurstRatio
    refine { h with
      burstCount_ge := ?_, burstCount_le := ?_, restCount_ge := ?_, restCount_le := ?_ }
    all_goals simp only
    all_goals split_ifs <;> omega
  | SetMaskingProbability v => exact ⟨{ h with }, fun _ hp => hp⟩
  | SetMaskingMode m => exact ⟨{ h with }, fun _ hp => hp⟩
  | SetAmplitude v => exact ⟨{ h with }, fun _ hp => hp⟩

theorem BurstInv_Init (sampleRate : K) :
    BurstInv (Init sampleRate) ∧ positionInPattern (Init sampleRate) := by
  obtain ⟨d, hS⟩ := SetFrequency_form
    ({ sampleRate_ := sampleRate, invSampleRate_ := 1 / sampleRate, phase_ := 0,
       pulsaretPhase_ := 0, phaseIncrement_ := 0, fundamentalFreq_ := 220,
       formantFreq_ := 440, dutyCycle_ := 0.5, waveform_ := PulsaretWaveform.SINE,
       waveformNext_ := PulsaretWaveform.SINE, waveformMorph_ := 0,
       envelope_ := PulsaretEnvelope.GAUSSIAN, envelopeNext_ := PulsaretEnvelope.GAUSSIAN,
       envelopeMorph_ := 0, foldAmount_ := 0, maskingMode_ := MaskingMode.OFF,
       burstCount_ := 4, restCount_ := 0, burstPosition_ := 0, maskingProbability_ := 1,
       currentPulsarMasked_ := false, inPulsaret_ := true, amplitude_ := 1,
       randomSeed_ := 12345, prevSample_ := 0 } : PulsarEngine K) 220
  unfold Init
  simp only
  rw [hS]
  refine ⟨⟨?_, ?_, ?_, ?_, ?_, ?_⟩, ?_⟩
  · show (1 : Int) ≤ 4
    omega
  · show (4 : Int) ≤ 16
    omega
  · show (0 : Int) ≤ 0
    omega
  · show (0 : Int) ≤ 16
    omega
  · show (0 : Int) ≤ 0
    omega
  · show (0 : Int) ≤ 31
    omega
  · show (0 : Int) < 4 + 0
    omega

theorem BurstInv_run (M : Libm K) (ops : List (Op K)) (s : PulsarEngine K)
    (h : BurstInv s) : BurstInv (run M s ops) := by
  induction ops generalizing s with
  | nil => exact h
  | cons op ops ih => exact ih _ (burst_step M s op h).1

theorem positionInPattern_run (M : Libm K) (ops : List (Op K)) (s : PulsarEngine K)
    (h : BurstInv s) (hp : positionInPattern s) (hsafe : burstSafe M s ops) :
    positionInPattern (run M s ops) := by
  induction ops generalizing s with
  | nil => exact hp
  | cons op ops ih =>
    rw [run_cons]
    have hstep := burst_step M s op h
    by_cases hop : ∃ b r, op = Op.SetBurstRatio b r
    · obtain ⟨b, r, rfl⟩ := hop
      simp only [burstSafe] at hsafe
      exact ih _ hstep.1 hsafe.1 hsafe.2
    · have hne : ∀ b r, op ≠ Op.SetBurstRatio b r := fun b r he => hop ⟨b, r, he⟩
      have hsafe2 : burstSafe M (op.apply M s) ops := by
        cases op <;> first | exact hsafe | exact absurd rfl (hne _ _)
      exact ih _ hstep.1 (hstep.2 hne hp) hsafe2

theorem Process_wrap_position (M : Libm K) (s : PulsarEngine K) (h : BurstInv s)
    (hw : s.phase_ + s.phaseIncrement_ ≥ 1) :
    (Process M s).2.burstPosition_ <
      (Process M s).2.burstCount_ + (Process M s).2.restCount_ := by
  have hb := h.burstCount_ge
  have hr := h.restCount_ge
  rw [Process_burstPosition, Process_burstCount, Process_restCount, if_pos hw]
  split_ifs <;> omega

/-- C8 as stated fails: `SetBurstRatio` does not touch `burstPosition`. After `Init(48000)`,
`SetFrequency(20000)` and three ticks the phase has wrapped once and `burstPosition` is `1`;
`SetBurstRatio(1, 0)` then leaves `burstPosition = 1 = burstCount + restCount`. -/
theorem burstPosition_counterexample :
    (run flatLibm (Init (48000 : ℚ))
      [Op.SetFrequency 20000, Op.Process, Op.Process, Op.Process,
        Op.SetBurstRatio 1 0]).burstPosition_ = 1 ∧
    (run flatLibm (Init (48000 : ℚ))
      [Op.SetFrequency 20000, Op.Process, Op.Process, Op.Process,
        Op.SetBurstRatio 1 0]).burstCount_ = 1 ∧
    (run flatLibm (Init (48000 : ℚ))
      [Op.SetFrequency 20000, Op.Process, Op.Process, Op.Process,
        Op.SetBurstRatio 1 0]).restCount_ = 0 ∧
    ¬ ((run flatLibm (Init (48000 : ℚ))
      [Op.SetFrequency 20000, Op.Process, Op.Process, Op.Process,
        Op.SetBurstRatio 1 0]).burstPosition_ <
      (run flatLibm (Init (48000 : ℚ))
        [Op.SetFrequency 20000, Op.Process, Op.Process, Op.Process,
          Op.SetBurstRatio 1 0]).burstCount_ +
      (run flatLibm (Init (48000 : ℚ))
        [Op.SetFrequency 20000, Op.Process, Op.Process, Op.Process,
          Op.SetBurstRatio 1 0]).restCount_) := by
  have h0 : (SetFrequency (Init (48000 : ℚ)) 20000).phase_ = 0 ∧
      (SetFrequency (Init (48000 : ℚ)) 20000).phaseIncrement_ = 5 / 12 ∧
      (SetFrequency (Init (48000 : ℚ)) 20000).burstPosition_ = 0 ∧
      (SetFrequency (Init (48000 : ℚ)) 20000).burstCount_ = 4 ∧
      (SetFrequency (Init (48000 : ℚ)) 20000).restCount_ = 0 := by
    norm_num [Init, SetFrequency, fmaxf, fminf]
  obtain ⟨hph, hinc, hpos, hbc, hrc⟩ := h0
  have hp : (run flatLibm (Init (48000 : ℚ))
      [Op.SetFrequency 20000, Op.Process, Op.Process, Op.Process,
        Op.SetBurstRatio 1 0]).burstPosition_ = 1 := by
    simp only [run, List.foldl_cons, List.foldl_nil, Op.apply, SetBurstRatio,
      Process_burstPosition, Process_phase, Process_phaseIncrement, Process_burstCount,
      Process_restCount, hph, hinc, hpos, hbc, hrc]
    norm_num
  have hb : (run flatLibm (Init (48000 : ℚ))
      [Op.SetFrequency 20000, Op.Process, Op.Process, Op.Process,
        Op.SetBurstRatio 1 0]).burstCount_ = 1 := by
    simp [run, Op.apply, SetBurstRatio]
  have hr : (run flatLibm (Init (48000 : ℚ))
      [Op.SetFrequency 20000, Op.Process, Op.Process, Op.Process,
        Op.SetBurstRatio 1 0]).restCount_ = 0 := by
    simp [run, Op.apply, SetBurstRatio]
  refine ⟨hp, hb, hr, ?_⟩
  rw [hp, hb, hr]
  omega

/-- C8, amended: `burstPosition < burstCount + restCount` holds in every state reached from
`Init` by a sequence of public operations in which every `SetBurstRatio` call installs a
clamped pattern length greater than the burst position at the time of the call. In every
reachable state, whatever the sequence, `1 ≤ burstCount ≤ 16`, `0 ≤ restCount ≤ 16` and
`0 ≤ burstPosition ≤ 31`, and a `Process()` tick that wraps the phase ends with
`burstPosition < burstCount + restCount`. -/
theorem burstPosition_in_pattern (M : Libm K) (sampleRate : K) (ops : List (Op K)) :
    (burstSafe M (Init sampleRate) ops →
      (run M (Init sampleRate) ops).burstPosition_ <
        (run M (Init sampleRate) ops).burstCount_ +
          (run M (Init sampleRate) ops).restCount_) ∧
    (1 ≤ (run M (Init sampleRate) ops).burstCount_ ∧
      (run M (Init sampleRate) ops).burstCount_ ≤ 16 ∧
      0 ≤ (run M (Init sampleRate) ops).restCount_ ∧
      (run M (Init sampleRate) ops).restCount_ ≤ 16 ∧
      0 ≤ (run M (Init sampleRate) ops).burstPosition_ ∧
      (run M (Init sampleRate) ops).burstPosition_ ≤ 31) ∧
    ((run M (Init sampleRate) ops).phase_ + (run M (Init sampleRate) ops).phaseIncrement_ ≥ 1 →
      (Process M (run M (Init sampleRate) ops)).2.burstPosition_ <
        (Process M (run M (Init sampleRate) ops)).2.burstCount_ +
          (Process M (run M (Init sampleRate) ops)).2.restCount_) := by
  have hI := BurstInv_Init sampleRate
  have hB := BurstInv_run M ops _ hI.1
  exact ⟨fun hsafe => positionInPattern_run M ops _ hI.1 hI.2 hsafe,
    ⟨hB.burstCount_ge, hB.burstCount_le, hB.restCount_ge, hB.restCount_le, hB.position_ge,
      hB.position_le⟩,
    fun hw => Process_wrap_position M _ hB hw⟩

/-- An instance of the amended C8: the pattern is set to `2 + 1` right after `Init`, while
the burst position is `0`, and the engine then ticks. -/
theorem burstPosition_in_pattern_witness :
    burstSafe flatLibm (Init (48000 : ℚ))
      [Op.SetBurstRatio 2 1, Op.SetMaskingMode MaskingMode.BURST, Op.Process, Op.Process] ∧
    (run flatLibm (Init (48000 : ℚ))
      [Op.SetBurstRatio 2 1, Op.SetMaskingMode MaskingMode.BURST, Op.Process,
        Op.Process]).burstPosition_ <
      (run flatLibm (Init (48000 : ℚ))
        [Op.SetBurstRatio 2 1, Op.SetMaskingMode MaskingMode.BURST, Op.Process,
          Op.Process]).burstCount_ +
      (run flatLibm (Init (48000 : ℚ))
        [Op.SetBurstRatio 2 1, Op.SetMaskingMode MaskingMode.BURST, Op.Process,
          Op.Process]).restCount_ := by
  have hsafe : burstSafe flatLibm (Init (48000 : ℚ))
      [Op.SetBurstRatio 2 1, Op.SetMaskingMode MaskingMode.BURST, Op.Process, Op.Process] := by
    have h0 : (Init (48000 : ℚ)).burstPosition_ = 0 := by
      norm_num [Init, SetFrequency, fmaxf, fminf]
    simp only [burstSafe, SetBurstRatio, h0]
    norm_num
  exact ⟨hsafe, (burstPosition_in_pattern flatLibm 48000 _).1 hsafe⟩

/-! ## Burst masking -/

theorem ShouldEmitPulsar_burst (s : PulsarEngine K) (hm : s.maskingMode_ = MaskingMode.BURST) :
    (ShouldEmitPulsar s).1 = decide (s.burstPosition_ < s.burstCount_) := by
  unfold ShouldEmitPulsar
  rw [hm, if_neg (by decide), if_pos rfl]

theorem advancePhase_masked_burst (s : PulsarEngine K)
    (hm : s.maskingMode_ = MaskingMode.BURST) :
    (advancePhase s).currentPulsarMasked_ =
      if s.phase_ + s.phaseIncrement_ ≥ 1 then
        !decide ((advancePhase s).burstPosition_ < s.burstCount_)
      else s.currentPulsarMasked_ := by
  by_cases h : s.phase_ + s.phaseIncrement_ ≥ 1
  · rw [if_pos h]
    unfold advancePhase
    simp only
    rw [if_pos h]
    simp only [ShouldEmitPulsar_burstPosition]
    split_ifs with h2
    · rw [ShouldEmitPulsar_burst]
      exact hm
    · rw [ShouldEmitPulsar_burst]
      exact hm
  · rw [if_neg h]
    unfold advancePhase
    simp only
    rw [if_neg h]

theorem Process_masked_burst (M : Libm K) (s : PulsarEngine K)
    (hm : s.maskingMode_ = MaskingMode.BURST) :
    (Process M s).2.currentPulsarMasked_ =
      if s.phase_ + s.phaseIncrement_ ≥ 1 then
        !decide ((Process M s).2.burstPosition_ < s.burstCount_)
      else s.currentPulsarMasked_ := by
  have h : (Process M s).2.currentPulsarMasked_ =
      (advancePhase (renderSample M s).2).currentPulsarMasked_ := rfl
  have hb : (Process M s).2.burstPosition_ =
      (advancePhase (renderSample M s).2).burstPosition_ := rfl
  rw [h, hb]
  obtain ⟨pp, seed1, h1⟩ := renderSample_snd M s
  rw [h1]
  exact advancePhase_masked_burst _ hm

theorem succ_emod (k m : Int) (hm : 0 < m) :
    (k + 1) % m = if k % m + 1 ≥ m then 0 else k % m + 1 := by
  have h1 := Int.emod_nonneg k (ne_of_gt hm)
  have h2 := Int.emod_lt_of_pos k hm
  have h3 := Int.emod_add_ediv k m
  split_ifs with h
  · have he : k % m + 1 = m := by omega
    have : k + 1 = m * (k / m + 1) := by
      rw [mul_add, mul_one]
      omega
    rw [this]
    exact Int.mul_emod_right _ _
  · have : k + 1 = (k % m + 1) + m * (k / m) := by omega
    rw [this, Int.add_mul_emod_self_left]
    exact Int.emod_eq_of_lt (by omega) (by omega)

/-- From a state with burst masking selected, burst position `0` and the masking flag clear,
`n` ticks leave the burst position at the period index modulo the pattern length and the
masking flag set exactly when that residue is not below `burstCount`. -/
theorem ticks_burst (M : Libm K) (s : PulsarEngine K)
    (hm : s.maskingMode_ = MaskingMode.BURST) (hb : 1 ≤ s.burstCount_)
    (hr : 0 ≤ s.restCount_) (hp : s.burstPosition_ = 0)
    (hc : s.currentPulsarMasked_ = false) (n : Nat) :
    (ticks M s n).maskingMode_ = MaskingMode.BURST ∧
    (ticks M s n).burstCount_ = s.burstCount_ ∧
    (ticks M s n).restCount_ = s.restCount_ ∧
    (ticks M s n).burstPosition_ = (wraps M s n : Int) % (s.burstCount_ + s.restCount_) ∧
    (ticks M s n).currentPulsarMasked_ =
      !decide ((wraps M s n : Int) % (s.burstCount_ + s.restCount_) < s.burstCount_) := by
  induction n with
  | zero =>
    refine ⟨hm, rfl, rfl, ?_, ?_⟩
    · show s.burstPosition_ = ((0 : Nat) : Int) % (s.burstCount_ + s.restCount_)
      rw [hp]
      simp
    · show s.currentPulsarMasked_ =
        !decide (((0 : Nat) : Int) % (s.burstCount_ + s.restCount_) < s.burstCount_)
      rw [hc]
      simp
      omega
  | succ n ih =>
    obtain ⟨ih1, ih2, ih3, ih4, ih5⟩ := ih
    have hpos : (0 : Int) < s.burstCount_ + s.restCount_ := by omega
    have e1 : (ticks M s (n + 1)).maskingMode_ = MaskingMode.BURST := by
      show (Process M (ticks M s n)).2.maskingMode_ = _
      rw [Process_maskingMode, ih1]
    have e2 : (ticks M s (n + 1)).burstCount_ = s.burstCount_ := by
      show (Process M (ticks M s n)).2.burstCount_ = _
      rw [Process_burstCount, ih2]
    have e3 : (ticks M s (n + 1)).restCount_ = s.restCount_ := by
      show (Process M (ticks M s n)).2.restCount_ = _
      rw [Process_restCount, ih3]
    have e4 : (ticks M s (n + 1)).burstPosition_ =
        (wraps M s (n + 1) : Int) % (s.burstCount_ + s.restCount_) := by
      show (Process M (ticks M s n)).2.burstPosition_ = _
      rw [Process_burstPosition, ih2, ih3, ih4]
      simp only [wraps]
      split_ifs with hw h2
      · rw [Nat.cast_add, Nat.cast_one, succ_emod _ _ hpos, if_pos h2]
      · rw [Nat.cast_add, Nat.cast_one, succ_emod _ _ hpos, if_neg h2]
      · rw [Nat.add_zero]
    refine ⟨e1, e2, e3, e4, ?_⟩
    have hP := Process_masked_burst M (ticks M s n) ih1
    have hbp : (Process M (ticks M s n)).2.burstPosition_ =
        (wraps M s (n + 1) : Int) % (s.burstCount_ + s.restCount_) := e4
    show (Process M (ticks M s n)).2.currentPulsarMasked_ = _
    rw [hP, hbp, ih2]
    split_ifs with hw
    · rfl
    · rw [ih5]
      simp only [wraps, if_neg hw, Nat.add_zero]

/-- C9: in BURST mode with `SetBurstRatio(b, r)`, `b` in `[1,16]` and `r` in `[0,16]`,
starting from the state left by `Reset()` and ticking with no other call: after any number
of ticks, with `k` the number of phase wraps so far (the index of the current period), the
period is audible (`currentPulsarMasked = false`) exactly when `k mod (b + r) < b`, and
`burstPosition = k mod (b + r)`. -/
theorem burst_pattern (M : Libm K) (s0 : PulsarEngine K) (b r : Int)
    (hb1 : 1 ≤ b) (hb2 : b ≤ 16) (hr1 : 0 ≤ r) (hr2 : r ≤ 16) (n : Nat) :
    ((ticks M (Reset (SetBurstRatio (SetMaskingMode s0 MaskingMode.BURST) b r))
        n).currentPulsarMasked_ = false ↔
      (wraps M (Reset (SetBurstRatio (SetMaskingMode s0 MaskingMode.BURST) b r)) n : Int)
        % (b + r) < b) ∧
    (ticks M (Reset (SetBurstRatio (SetMaskingMode s0 MaskingMode.BURST) b r))
        n).burstPosition_ =
      (wraps M (Reset (SetBurstRatio (SetMaskingMode s0 MaskingMode.BURST) b r)) n : Int)
        % (b + r) := by
  have hbc : (Reset (SetBurstRatio (SetMaskingMode s0 MaskingMode.BURST) b r)).burstCount_
      = b := by
    show (if b < 1 then 1 else (if b > 16 then 16 else b)) = b
    rw [if_neg (by omega), if_neg (by omega)]
  have hrc : (Reset (SetBurstRatio (SetMaskingMode s0 MaskingMode.BURST) b r)).restCount_
      = r := by
    show (if r < 0 then 0 else (if r > 16 then 16 else r)) = r
    rw [if_neg (by omega), if_neg (by omega)]
  have h := ticks_burst M (Reset (SetBurstRatio (SetMaskingMode s0 MaskingMode.BURST) b r))
    rfl (by rw [hbc]; exact hb1) (by rw [hrc]; exact hr1) rfl rfl n
  rw [hbc, hrc] at h
  obtain ⟨_, _, _, h4, h5⟩ := h
  refine ⟨?_, h4⟩
  rw [h5]
  simp

/-- Scenario D of the specification: with `SetBurstRatio(2, 1)` at sample rate `48000` and
fundamental `20000` (phase increment `5/12`), the phase has wrapped twice after five ticks,
and period `2` of the pattern `audible, audible, silent` is masked. -/
theorem burst_pattern_witness :
    wraps flatLibm
      (Reset (SetBurstRatio (SetMaskingMode (SetFrequency (Init (48000 : ℚ)) 20000)
        MaskingMode.BURST) 2 1)) 5 = 2 ∧
    (ticks flatLibm
      (Reset (SetBurstRatio (SetMaskingMode (SetFrequency (Init (48000 : ℚ)) 20000)
        MaskingMode.BURST) 2 1)) 5).currentPulsarMasked_ = true := by
  have hph : (Reset (SetBurstRatio (SetMaskingMode (SetFrequency (Init (48000 : ℚ)) 20000)
      MaskingMode.BURST) 2 1)).phase_ = 0 := rfl
  have hinc : (Reset (SetBurstRatio (SetMaskingMode (SetFrequency (Init (48000 : ℚ)) 20000)
      MaskingMode.BURST) 2 1)).phaseIncrement_ = 5 / 12 := by
    norm_num [Reset, SetBurstRatio, SetMaskingMode, Init, SetFrequency, fmaxf, fminf]
  have hw : wraps flatLibm
      (Reset (SetBurstRatio (SetMaskingMode (SetFrequency (Init (48000 : ℚ)) 20000)
        MaskingMode.BURST) 2 1)) 5 = 2 := by
    simp only [wraps, ticks, Process_phase, Process_phaseIncrement, hph, hinc]
    norm_num
  have h := (burst_pattern flatLibm (SetFrequency (Init (48000 : ℚ)) 20000) 2 1
    (by norm_num) (by norm_num) (by norm_num) (by norm_num) 5).1
  rw [hw] at h
  refine ⟨hw, ?_⟩
  by_contra hc
  have hf := h.mp (by simpa using hc)
  norm_num at hf

/-! ## Stochastic masking -/

theorem FastRandom_maskingProbability (s : PulsarEngine K) :
    (FastRandom s).2.maskingProbability_ = s.maskingProbability_ := by
  rw [FastRandom_snd]

theorem ShouldEmitPulsar_stochastic (s : PulsarEngine K)
    (hm : s.maskingMode_ = MaskingMode.STOCHASTIC) :
    ShouldEmitPulsar s =
      (decide ((FastRandom s).1 < s.maskingProbability_), (FastRandom s).2) := by
  unfold ShouldEmitPulsar
  rw [hm, if_neg (by decide), if_neg (by decide), if_pos rfl]
  show (decide ((FastRandom s).1 < (FastRandom s).2.maskingProbability_), (FastRandom s).2) = _
  rw [FastRandom_maskingProbability]

/-- In STOCHASTIC mode `ShouldEmitPulsar()` returns true exactly when its one draw is
strictly below `maskingProbability`; with probability `0` it returns false for every
seed. -/
theorem ShouldEmitPulsar_stochastic_iff (s : PulsarEngine K)
    (hm : s.maskingMode_ = MaskingMode.STOCHASTIC) :
    ((ShouldEmitPulsar s).1 = true ↔ (FastRandom s).1 < s.maskingProbability_) ∧
    (s.maskingProbability_ = 0 → (ShouldEmitPulsar s).1 = false) ∧
    (ShouldEmitPulsar s).2 = (FastRandom s).2 := by
  rw [ShouldEmitPulsar_stochastic s hm]
  refine ⟨by simp, ?_, rfl⟩
  intro h0
  have := FastRandom_nonneg s
  simp only [decide_eq_false_iff_not, not_lt, h0]
  exact this

/-! ## Output range -/

theorem GenerateWaveform_range (M : Libm K) (hM : M.Sound) (s : PulsarEngine K) (phase : K)
    (w : PulsaretWaveform) (h0 : 0 ≤ phase) (h1 : phase ≤ 1) :
    -1 ≤ (GenerateWaveform M s phase w).1 ∧ (GenerateWaveform M s phase w).1 ≤ 1 := by
  have hn0 := FastRandom_nonneg s
  have hn1 := FastRandom_le_one s
  have hs0 := hM.sin_ge (phase * TWO_PI)
  have hs1 := hM.sin_le (phase * TWO_PI)
  unfold GenerateWaveform
  split_ifs <;> simp only <;> constructor <;> norm_num at * <;> linarith

theorem GenerateEnvelope_range (M : Libm K) (hM : M.Sound) (phase : K)
    (e : PulsaretEnvelope) (h0 : 0 ≤ phase) (h1 : phase ≤ 1) :
    0 ≤ GenerateEnvelope M phase e ∧ GenerateEnvelope M phase e ≤ 1 := by
  have hg0 := hM.exp_nonneg (-((phase - 0.5) * 3) * ((phase - 0.5) * 3))
  have hg1 := hM.exp_le_one (-((phase - 0.5) * 3) * ((phase - 0.5) * 3))
    (by nlinarith [mul_self_nonneg ((phase - 0.5) * 3)])
  have hd0 := hM.exp_nonneg (-phase * 4)
  have hd1 := hM.exp_le_one (-phase * 4) (by linarith)
  unfold GenerateEnvelope
  simp only
  split_ifs with c1 c2 c3 c4 c5 c6 c7 c8
  · exact ⟨zero_le_one, le_refl _⟩
  · exact ⟨hg0, hg1⟩
  · exact ⟨hd0, hd1⟩
  · constructor <;> linarith
  · exact ⟨h0, h1⟩
  · constructor <;> linarith
  · have hpos : (0 : K) < 0.1 := by norm_num
    constructor
    · exact div_nonneg h0 (le_of_lt hpos)
    · rw [div_le_one hpos]
      exact le_of_lt c8
  · have hle : -(phase - 0.1) * 3 ≤ 0 := by
      have := not_lt.mp c8
      linarith
    exact ⟨hM.exp_nonneg _, hM.exp_le_one _ hle⟩
  · exact ⟨zero_le_one, le_refl _⟩

theorem lerp_range (a b w lo hi : K) (ha0 : lo ≤ a) (ha1 : a ≤ hi) (hb0 : lo ≤ b)
    (hb1 : b ≤ hi) (hw0 : 0 ≤ w) (hw1 : w ≤ 1) :
    lo ≤ a + (b - a) * w ∧ a + (b - a) * w ≤ hi := by
  have e : a + (b - a) * w = a * (1 - w) + b * w := by ring
  rw [e]
  have h1w : 0 ≤ 1 - w := by linarith
  constructor
  · nlinarith [mul_nonneg (sub_nonneg.mpr ha0) h1w, mul_nonneg (sub_nonneg.mpr hb0) hw0]
  · nlinarith [mul_nonneg (sub_nonneg.mpr ha1) h1w, mul_nonneg (sub_nonneg.mpr hb1) hw0]

theorem scale_range (x e : K) (hx0 : -1 ≤ x) (hx1 : x ≤ 1) (he0 : 0 ≤ e) (he1 : e ≤ 1) :
    -1 ≤ x * e ∧ x * e ≤ 1 := by
  constructor
  · nlinarith [mul_nonneg (by linarith : (0 : K) ≤ x + 1) he0]
  · nlinarith [mul_nonneg (by linarith : (0 : K) ≤ 1 - x) he0]

theorem pulsaretSample_range (M : Libm K) (hM : M.Sound) (s : PulsarEngine K) (d : K)
    (hp0 : 0 ≤ s.phase_ / d) (hp1 : s.phase_ / d ≤ 1)
    (hw0 : 0 ≤ s.waveformMorph_) (hw1 : s.waveformMorph_ ≤ 1)
    (he0 : 0 ≤ s.envelopeMorph_) (he1 : s.envelopeMorph_ ≤ 1)
    (ha0 : 0 ≤ s.amplitude_) (ha1 : s.amplitude_ ≤ 1) :
    -1 ≤ (pulsaretSample M s d).1 ∧ (pulsaretSample M s d).1 ≤ 1 := by
  obtain ⟨seed1, h1⟩ := GenerateWaveform_snd M { s with pulsaretPhase_ := s.phase_ / d }
    (s.phase_ / d) s.waveform_
  have ha := GenerateWaveform_range M hM { s with pulsaretPhase_ := s.phase_ / d }
    (s.phase_ / d) s.waveform_ hp0 hp1
  obtain ⟨seed2, h2⟩ := GenerateWaveform_snd M
    { s with pulsaretPhase_ := s.phase_ / d, randomSeed_ := seed1 } (s.phase_ / d)
    s.waveformNext_
  have hb := GenerateWaveform_range M hM
    { s with pulsaretPhase_ := s.phase_ / d, randomSeed_ := seed1 } (s.phase_ / d)
    s.waveformNext_ hp0 hp1
  have hE1 := GenerateEnvelope_range M hM (s.phase_ / d) s.envelope_ hp0 hp1
  have hE2 := GenerateEnvelope_range M hM (s.phase_ / d) s.envelopeNext_ hp0 hp1
  unfold pulsaretSample
  simp only
  rw [h1]
  simp only
  rw [h2]
  simp only
  have hW := lerp_range _ _ _ (-1) 1 ha.1 ha.2 hb.1 hb.2 hw0 hw1
  have hE := lerp_range _ _ _ 0 1 hE1.1 hE1.2 hE2.1 hE2.2 he0 he1
  have hX := scale_range _ _ hW.1 hW.2 hE.1 hE.2
  split_ifs with hf
  · exact scale_range _ _ (ApplyFold_bounds _ _).1 (ApplyFold_bounds _ _).2 ha0 ha1
  · exact scale_range _ _ hX.1 hX.2 ha0 ha1

theorem renderSample_range (M : Libm K) (hM : M.Sound) (s : PulsarEngine K) (h : Inv s) :
    -1 ≤ (renderSample M s).1 ∧ (renderSample M s).1 ≤ 1 := by
  unfold renderSample
  simp only
  split_ifs with hc
  · have hlt : s.phase_ < s.dutyCycle_ := by
      simp only [Bool.and_eq_true, decide_eq_true_eq] at hc
      exact hc.1
    refine pulsaretSample_range M hM _ _ ?_ ?_ h.waveformMorph_nonneg
      (le_of_lt h.waveformMorph_lt) h.envelopeMorph_nonneg (le_of_lt h.envelopeMorph_lt)
      h.amplitude_nonneg h.amplitude_le
    · exact div_nonneg h.phase_nonneg (le_of_lt h.duty_pos)
    · show s.phase_ / s.dutyCycle_ ≤ 1
      rw [div_le_one h.duty_pos]
      exact le_of_lt hlt
  · constructor <;> norm_num

theorem Process_range (M : Libm K) (hM : M.Sound) (s : PulsarEngine K) (h : Inv s)
    (hp0 : -1 ≤ s.prevSample_) (hp1 : s.prevSample_ ≤ 1) :
    -1 ≤ (Process M s).1 ∧ (Process M s).1 ≤ 1 := by
  have hr := renderSample_range M hM s h
  have hh : -1 ≤ s.prevSample_ * 0.5 ∧ s.prevSample_ * 0.5 ≤ 1 := by
    constructor <;> norm_num <;> linarith
  rw [Process_fst_form]
  split_ifs
  all_goals first
    | exact hr
    | exact hh

theorem Process_prevSample (M : Libm K) (s : PulsarEngine K) :
    (Process M s).2.prevSample_ = (Process M s).1 := rfl

theorem prevSample_step (M : Libm K) (hM : M.Sound) (s : PulsarEngine K) (op : Op K)
    (h : Inv s) (hp : -1 ≤ s.prevSample_ ∧ s.prevSample_ ≤ 1) :
    -1 ≤ (op.apply M s).prevSample_ ∧ (op.apply M s).prevSample_ ≤ 1 := by
  cases op with
  | Reset =>
    show (-1 : K) ≤ 0 ∧ (0 : K) ≤ 1
    constructor <;> norm_num
  | Sync =>
    obtain ⟨seed, masked, hS⟩ := Sync_form s
    show -1 ≤ (Sync s).prevSample_ ∧ (Sync s).prevSample_ ≤ 1
    rw [hS]
    exact hp
  | Process => exact Process_range M hM s h hp.1 hp.2
  | SetFrequency freq =>
    obtain ⟨d, hS⟩ := SetFrequency_form s freq
    show -1 ≤ (SetFrequency s freq).prevSample_ ∧ (SetFrequency s freq).prevSample_ ≤ 1
    rw [hS]
    exact hp
  | SetFormantFrequency freq =>
    obtain ⟨d, hS⟩ := SetFormantFrequency_form s freq
    show -1 ≤ (SetFormantFrequency s freq).prevSample_ ∧
      (SetFormantFrequency s freq).prevSample_ ≤ 1
    rw [hS]
    exact hp
  | SetFormantRatio ratio =>
    obtain ⟨f, hS⟩ := SetFormantRatio_form s ratio
    show -1 ≤ (SetFormantRatio s ratio).prevSample_ ∧
      (SetFormantRatio s ratio).prevSample_ ≤ 1
    rw [hS]
    exact hp
  | SetWaveform w => exact hp
  | SetWaveformMorph v => exact hp
  | SetEnvelope e => exact hp
  | SetEnvelopeMorph v => exact hp
  | SetFold v => exact hp
  | SetBurstRatio b r => exact hp
  | SetMaskingProbability v => exact hp
  | SetMaskingMode m => exact hp
  | SetAmplitude v => exact hp

theorem Init_prevSample (sampleRate : K) : (Init sampleRate).prevSample_ = 0 := by
  unfold Init SetFrequency
  simp only
  split_ifs <;> rfl

theorem prevSample_run (M : Libm K) (hM : M.Sound) (ops : List (Op K)) (s : PulsarEngine K)
    (h : Inv s) (hp : -1 ≤ s.prevSample_ ∧ s.prevSample_ ≤ 1) :
    -1 ≤ (run M s ops).prevSample_ ∧ (run M s ops).prevSample_ ≤ 1 := by
  induction ops generalizing s with
  | nil => exact hp
  | cons op ops ih => exact ih _ (Inv_apply M s op h) (prevSample_step M hM s op h hp)

/-- The real sine and exponential satisfy the facts collected in `Libm.Sound`. -/
theorem realLibm_sound : (⟨Real.sin, Real.exp⟩ : Libm ℝ).Sound :=
  { sin_ge := Real.neg_one_le_sin
    sin_le := Real.sin_le_one
    exp_nonneg := fun x => le_of_lt (Real.exp_pos x)
    exp_le_one := fun _ hx => Real.exp_le_one_iff.mpr hx }

/-- C1: with exact arithmetic, a sine bounded by `1` in absolute value and an exponential
with values in `[0,1]` on non-positive arguments (in particular with the real `sin` and
`exp`), every value returned by `Process()` lies in `[-1,1]`, in every state reached from
`Init(sampleRate)` with `sampleRate > 0` by any sequence of public operations. This covers
the `NOISE` waveform, wavefolding, amplitude scaling and the click-suppression override. -/
theorem Process_output_range (M : Libm K) (hM : M.Sound) (sampleRate : K)
    (hsr : 0 < sampleRate) (ops : List (Op K)) :
    -1 ≤ (Process M (run M (Init sampleRate) ops)).1 ∧
      (Process M (run M (Init sampleRate) ops)).1 ≤ 1 := by
  have hI := Inv_Init sampleRate hsr
  have h := Inv_run M ops _ hI
  have hp0 : -1 ≤ (Init sampleRate).prevSample_ ∧ (Init sampleRate).prevSample_ ≤ 1 := by
    rw [Init_prevSample]
    constructor <;> norm_num
  have hp := prevSample_run M hM ops _ hI hp0
  exact Process_range M hM _ h hp.1 hp.2

/-- An instance of C1 over the reals with the real sine and exponential: a noise/pulse morph,
full fold, stochastic masking and a retune, followed by ticks. -/
theorem Process_output_range_witness :
    (0 : ℝ) < 48000 ∧
    -1 ≤ (Process ⟨Real.sin, Real.exp⟩ (run ⟨Real.sin, Real.exp⟩ (Init (48000 : ℝ))
      [Op.SetWaveformMorph 5.5, Op.SetFold 1, Op.SetMaskingMode MaskingMode.STOCHASTIC,
        Op.SetFrequency 20000, Op.Process, Op.Process, Op.Sync, Op.Process])).1 ∧
    (Process ⟨Real.sin, Real.exp⟩ (run ⟨Real.sin, Real.exp⟩ (Init (48000 : ℝ))
      [Op.SetWaveformMorph 5.5, Op.SetFold 1, Op.SetMaskingMode MaskingMode.STOCHASTIC,
        Op.SetFrequency 20000, Op.Process, Op.Process, Op.Sync, Op.Process])).1 ≤ 1 :=
  ⟨by norm_num,
    Process_output_range ⟨Real.sin, Real.exp⟩ realLibm_sound 48000 (by norm_num) _⟩

/-! ## Frequency, formant and ratio setters -/

theorem SetFrequency_fields (s : PulsarEngine K) (freq : K) :
    (SetFrequency s freq).fundamentalFreq_ = max 0.1 (min freq (s.sampleRate_ * 0.45)) ∧
    (SetFrequency s freq).phaseIncrement_ =
      max 0.1 (min freq (s.sampleRate_ * 0.45)) * s.invSampleRate_ := by
  obtain ⟨d, hS⟩ := SetFrequency_form s freq
  rw [hS]
  exact ⟨rfl, rfl⟩

/-- C11 as stated fails for small sample rates: at `sampleRate = 0.2` the ceiling
`0.45·sampleRate = 0.09` lies below the floor `0.1`, and `SetFrequency(1)` stores the
fundamental `0.1`, which is not inside `[0.1, 0.45·sampleRate]`. -/
theorem SetFrequency_clamp_counterexample :
    (0 : ℚ) < 0.2 ∧
    (SetFrequency (Init (0.2 : ℚ)) 1).fundamentalFreq_ = 0.1 ∧
    ¬ ((SetFrequency (Init (0.2 : ℚ)) 1).fundamentalFreq_ ≤ 0.45 * 0.2) := by
  have h : (SetFrequency (Init (0.2 : ℚ)) 1).fundamentalFreq_ = 0.1 := by
    rw [(SetFrequency_fields _ _).1, Init_sampleRate]
    norm_num
  refine ⟨by norm_num, h, ?_⟩
  rw [h]
  norm_num

/-- C11, amended: in every state reached from `Init(sampleRate)`, `sampleRate > 0`,
`SetFrequency(freq)` sets `fundamentalFreq` to `max(0.1, min(freq, 0.45·sampleRate))` and
`phaseIncrement` to `fundamentalFreq / sampleRate`. When `0.45·sampleRate ≥ 0.1` this is
`freq` clamped into `[0.1, 0.45·sampleRate]`; for smaller sample rates the result is the
floor `0.1`. For every `freq` in `[0.1, 0.45·sampleRate]` the fundamental is `freq` and
`phaseIncrement = freq / sampleRate`. -/
theorem SetFrequency_clamp (M : Libm K) (sampleRate : K) (hsr : 0 < sampleRate)
    (ops : List (Op K)) (freq : K) :
    (SetFrequency (run M (Init sampleRate) ops) freq).fundamentalFreq_ =
      max 0.1 (min freq (0.45 * sampleRate)) ∧
    (SetFrequency (run M (Init sampleRate) ops) freq).phaseIncrement_ =
      (SetFrequency (run M (Init sampleRate) ops) freq).fundamentalFreq_ / sampleRate ∧
    0.1 ≤ (SetFrequency (run M (Init sampleRate) ops) freq).fundamentalFreq_ ∧
    (0.1 ≤ 0.45 * sampleRate →
      (SetFrequency (run M (Init sampleRate) ops) freq).fundamentalFreq_ ≤
        0.45 * sampleRate) ∧
    (0.45 * sampleRate < 0.1 →
      (SetFrequency (run M (Init sampleRate) ops) freq).fundamentalFreq_ = 0.1) ∧
    (0.1 ≤ freq → freq ≤ 0.45 * sampleRate →
      (SetFrequency (run M (Init sampleRate) ops) freq).fundamentalFreq_ = freq ∧
      (SetFrequency (run M (Init sampleRate) ops) freq).phaseIncrement_ =
        freq / sampleRate) := by
  have hI := Inv_run M ops _ (Inv_Init sampleRate hsr)
  have hrate : (run M (Init sampleRate) ops).sampleRate_ = sampleRate := by
    rw [run_sampleRate, Init_sampleRate]
  have hinv : (run M (Init sampleRate) ops).invSampleRate_ = 1 / sampleRate := by
    rw [hI.invSampleRate_eq, hrate]
  obtain ⟨hf, hp⟩ := SetFrequency_fields (run M (Init sampleRate) ops) freq
  rw [hrate, mul_comm sampleRate 0.45] at hf
  rw [hrate, mul_comm sampleRate 0.45, hinv, mul_one_div] at hp
  rw [hf, hp]
  refine ⟨rfl, rfl, le_max_left _ _, ?_, ?_, ?_⟩
  · intro h
    exact max_le h (min_le_right _ _)
  · intro h
    exact max_eq_left (le_trans (min_le_right _ _) (le_of_lt h))
  · intro h1 h2
    have e : max 0.1 (min freq (0.45 * sampleRate)) = freq := by
      rw [min_eq_left h2, max_eq_right h1]
    rw [e]
    exact ⟨rfl, rfl⟩

/-- An instance of the amended C11: at sample rate `48000`, `SetFrequency(1000)` stores
`1000` and the phase increment `1000 / 48000`. -/
theorem SetFrequency_clamp_witness :
    (0 : ℚ) < 48000 ∧ (0.1 : ℚ) ≤ 1000 ∧ (1000 : ℚ) ≤ 0.45 * 48000 ∧
    (SetFrequency (run flatLibm (Init (48000 : ℚ)) [Op.Process, Op.SetFormantRatio 0.3])
      1000).fundamentalFreq_ = 1000 ∧
    (SetFrequency (run flatLibm (Init (48000 : ℚ)) [Op.Process, Op.SetFormantRatio 0.3])
      1000).phaseIncrement_ = 1000 / 48000 :=
  ⟨by norm_num, by norm_num, by norm_num,
    (SetFrequency_clamp flatLibm 48000 (by norm_num) _ 1000).2.2.2.2.2
      (by norm_num) (by norm_num)⟩

theorem SetFormantRatio_fields (s : PulsarEngine K) (ratio : K) :
    (SetFormantRatio s ratio).dutyCycle_ = max 0.01 (min 1 ratio) ∧
    (SetFormantRatio s ratio).fundamentalFreq_ = s.fundamentalFreq_ ∧
    (SetFormantRatio s ratio).formantFreq_ =
      if max 0.01 (min 1 ratio) > 0.01 then s.fundamentalFreq_ / max 0.01 (min 1 ratio)
      else s.formantFreq_ := by
  unfold SetFormantRatio fmaxf fminf
  simp only
  split_ifs <;> exact ⟨rfl, rfl, rfl⟩

theorem Init_fields (sampleRate : K) :
    (Init sampleRate).fundamentalFreq_ = max 0.1 (min 220 (sampleRate * 0.45)) ∧
    (Init sampleRate).formantFreq_ = 440 ∧
    (Init sampleRate).dutyCycle_ = min 1 (max 0.1 (min 220 (sampleRate * 0.45)) / 440) ∧
    (Init sampleRate).phaseIncrement_ =
      max 0.1 (min 220 (sampleRate * 0.45)) * (1 / sampleRate) := by
  unfold Init SetFrequency fmaxf fminf
  simp only
  rw [if_pos (by norm_num)]
  exact ⟨rfl, rfl, rfl, rfl⟩

theorem Init_48000 :
    (Init (48000 : ℚ)).fundamentalFreq_ = 220 ∧ (Init (48000 : ℚ)).formantFreq_ = 440 ∧
    (Init (48000 : ℚ)).dutyCycle_ = 0.5 ∧
    (Init (48000 : ℚ)).phaseIncrement_ = 220 / 48000 := by
  obtain ⟨h1, h2, h3, h4⟩ := Init_fields (48000 : ℚ)
  rw [h1, h2, h3, h4]
  norm_num

/-- C12 as stated fails at the lower end of the interval: `SetFormantRatio(0.01)` after
`Init(48000)` sets the duty cycle to `0.01` but leaves the formant frequency at `440`, not at
`fundamentalFreq / 0.01 = 22000`. -/
theorem SetFormantRatio_counterexample :
    (0.01 : ℚ) ≤ 0.01 ∧ (0.01 : ℚ) ≤ 1 ∧
    (SetFormantRatio (Init (48000 : ℚ)) 0.01).dutyCycle_ = 0.01 ∧
    (SetFormantRatio (Init (48000 : ℚ)) 0.01).formantFreq_ = 440 ∧
    (SetFormantRatio (Init (48000 : ℚ)) 0.01).fundamentalFreq_ / 0.01 = 22000 ∧
    (SetFormantRatio (Init (48000 : ℚ)) 0.01).formantFreq_ ≠
      (SetFormantRatio (Init (48000 : ℚ)) 0.01).fundamentalFreq_ / 0.01 := by
  obtain ⟨h1, h2, h3⟩ := SetFormantRatio_fields (Init (48000 : ℚ)) 0.01
  obtain ⟨i1, i2, _, _⟩ := Init_48000
  rw [h1, h2, h3, i1, i2]
  norm_num

/-- C12, amended: for every `r` with `0.01 < r ≤ 1` and every engine state,
`SetFormantRatio(r)` stores the formant frequency `fundamentalFreq / r` and the duty cycle
`r`, leaves the fundamental unchanged, and, when the fundamental is positive,
`dutyCycle = min(1, fundamentalFreq / formantFreq)` holds afterwards. For every `r ≤ 0.01`
the duty cycle becomes `0.01` and the stored formant frequency is left unchanged. -/
theorem SetFormantRatio_roundtrip (s : PulsarEngine K) (r : K) :
    (0.01 < r → r ≤ 1 →
      (SetFormantRatio s r).formantFreq_ = s.fundamentalFreq_ / r ∧
      (SetFormantRatio s r).dutyCycle_ = r ∧
      (SetFormantRatio s r).fundamentalFreq_ = s.fundamentalFreq_ ∧
      (0 < s.fundamentalFreq_ →
        (SetFormantRatio s r).dutyCycle_ =
          min 1 ((SetFormantRatio s r).fundamentalFreq_ /
            (SetFormantRatio s r).formantFreq_))) ∧
    (r ≤ 0.01 →
      (SetFormantRatio s r).dutyCycle_ = 0.01 ∧
      (SetFormantRatio s r).formantFreq_ = s.formantFreq_) := by
  obtain ⟨h1, h2, h3⟩ := SetFormantRatio_fields s r
  rw [h1, h2, h3]
  constructor
  · intro hr0 hr1
    have e : max 0.01 (min 1 r) = r := by
      rw [min_eq_right hr1, max_eq_right (le_of_lt hr0)]
    rw [e, if_pos hr0]
    refine ⟨rfl, rfl, rfl, ?_⟩
    intro hf
    have hrpos : (0 : K) < r := lt_trans (by norm_num) hr0
    have e2 : s.fundamentalFreq_ / (s.fundamentalFreq_ / r) = r := by
      field_simp
    rw [e2, min_eq_right hr1]
  · intro hr
    have e : max 0.01 (min 1 r) = (0.01 : K) := by
      apply max_eq_left
      exact le_trans (min_le_right _ _) hr
    rw [e, if_neg (lt_irrefl _)]
    exact ⟨rfl, rfl⟩

/-- An instance of the amended C12: after `Init(48000)`, `SetFormantRatio(0.25)` stores the
formant frequency `220 / 0.25 = 880` and the duty cycle `0.25`. -/
theorem SetFormantRatio_roundtrip_witness :
    (0.01 : ℚ) < 0.25 ∧ (0.25 : ℚ) ≤ 1 ∧
    (SetFormantRatio (Init (48000 : ℚ)) 0.25).formantFreq_ = 880 ∧
    (SetFormantRatio (Init (48000 : ℚ)) 0.25).dutyCycle_ = 0.25 := by
  have h := (SetFormantRatio_roundtrip (Init (48000 : ℚ)) 0.25).1 (by norm_num) (by norm_num)
  rw [Init_48000.1] at h
  refine ⟨by norm_num, by norm_num, ?_, h.2.1⟩
  rw [h.1]
  norm_num

theorem SetFormantFrequency_fields (s : PulsarEngine K) (freq : K) :
    (SetFormantFrequency s freq).formantFreq_ = max 0.1 freq ∧
    (SetFormantFrequency s freq).fundamentalFreq_ = s.fundamentalFreq_ ∧
    (SetFormantFrequency s freq).dutyCycle_ =
      if max 0.1 freq > 0.1 then min 1 (s.fundamentalFreq_ / max 0.1 freq)
      else s.dutyCycle_ := by
  unfold SetFormantFrequency fmaxf fminf
  simp only
  split_ifs <;> exact ⟨rfl, rfl, rfl⟩

/-- C13 as stated fails when the argument is clamped up to the floor:
`SetFormantFrequency(0.05)` after `Init(48000)` stores the formant frequency `0.1` and leaves
the duty cycle at `0.5`, while `min(1, fundamentalFreq / formantFreq) = min(1, 2200) = 1`. -/
theorem SetFormantFrequency_counterexample :
    (SetFormantFrequency (Init (48000 : ℚ)) 0.05).formantFreq_ = 0.1 ∧
    (SetFormantFrequency (Init (48000 : ℚ)) 0.05).dutyCycle_ = 0.5 ∧
    min 1 ((SetFormantFrequency (Init (48000 : ℚ)) 0.05).fundamentalFreq_ /
      (SetFormantFrequency (Init (48000 : ℚ)) 0.05).formantFreq_) = 1 ∧
    (SetFormantFrequency (Init (48000 : ℚ)) 0.05).dutyCycle_ ≠
      min 1 ((SetFormantFrequency (Init (48000 : ℚ)) 0.05).fundamentalFreq_ /
        (SetFormantFrequency (Init (48000 : ℚ)) 0.05).formantFreq_) := by
  obtain ⟨h1, h2, h3⟩ := SetFormantFrequency_fields (Init (48000 : ℚ)) 0.05
  obtain ⟨i1, _, i3, _⟩ := Init_48000
  rw [h1, h2, h3, i1, i3]
  norm_num

/-- C13, amended: for every `freq` and every engine state, `SetFormantFrequency(freq)`
stores the formant frequency `max(0.1, freq)` and leaves the fundamental unchanged. For
`freq > 0.1` the duty cycle becomes `min(1, fundamentalFreq / formantFreq)` computed from the
new formant frequency; for `freq ≤ 0.1` the formant frequency is `0.1` and the duty cycle is
left unchanged. -/
theorem SetFormantFrequency_duty (s : PulsarEngine K) (freq : K) :
    (SetFormantFrequency s freq).formantFreq_ = max 0.1 freq ∧
    (SetFormantFrequency s freq).fundamentalFreq_ = s.fundamentalFreq_ ∧
    (0.1 < freq →
      (SetFormantFrequency s freq).formantFreq_ = freq ∧
      (SetFormantFrequency s freq).dutyCycle_ =
        min 1 ((SetFormantFrequency s freq).fundamentalFreq_ /
          (SetFormantFrequency s freq).formantFreq_)) ∧
    (freq ≤ 0.1 →
      (SetFormantFrequency s freq).formantFreq_ = 0.1 ∧
      (SetFormantFrequency s freq).dutyCycle_ = s.dutyCycle_) := by
  obtain ⟨h1, h2, h3⟩ := SetFormantFrequency_fields s freq
  rw [h1, h2, h3]
  refine ⟨rfl, rfl, ?_, ?_⟩
  · intro hf
    rw [max_eq_right (le_of_lt hf), if_pos hf]
    exact ⟨rfl, rfl⟩
  · intro hf
    rw [max_eq_left hf, if_neg (lt_irrefl _)]
    exact ⟨rfl, rfl⟩

/-- An instance of the amended C13: after `Init(48000)`, `SetFormantFrequency(880)` stores
`880` and the duty cycle `min(1, 220 / 880) = 0.25`. -/
theorem SetFormantFrequency_duty_witness :
    (0.1 : ℚ) < 880 ∧
    (SetFormantFrequency (Init (48000 : ℚ)) 880).formantFreq_ = 880 ∧
    (SetFormantFrequency (Init (48000 : ℚ)) 880).dutyCycle_ = 0.25 := by
  have h := (SetFormantFrequency_duty (Init (48000 : ℚ)) 880).2.2.1 (by norm_num)
  have hf := (SetFormantFrequency_duty (Init (48000 : ℚ)) 880).2.1
  refine ⟨by norm_num, h.1, ?_⟩
  rw [h.2, h.1, hf, Init_48000.1]
  norm_num

/-! ## Morph selectors -/

theorem clamp06_comm (v : K) : max 0 (min 6 v) = min 6 (max 0 v) := by
  rcases le_total v 0 with h | h
  · rw [min_eq_right (le_trans h (by norm_num)), max_eq_left h,
      min_eq_right (by norm_num)]
  · rw [max_eq_right h]
    exact max_eq_right (le_min (by norm_num) h)

theorem morph_index (v : K) :
    truncToInt (max 0 (min 6 v)) = Int.floor (min 6 (max 0 v)) ∧
    0 ≤ Int.floor (min 6 (max 0 v)) ∧ Int.floor (min 6 (max 0 v)) ≤ 6 := by
  rw [truncToInt_of_nonneg _ (le_max_left _ _), clamp06_comm]
  refine ⟨rfl, ?_, ?_⟩
  · exact Int.floor_nonneg.mpr (le_min (by norm_num) (le_max_left _ _))
  · have h : min 6 (max 0 v) ≤ ((6 : Int) : K) := by
      push_cast
      exact min_le_left _ _
    have := Int.floor_mono h
    rw [Int.floor_intCast] at this
    exact this

theorem morph_next (n : Int) (h0 : 0 ≤ n) :
    truncToInt (fminf (6 : K) ((n + 1 : Int) : K)) = min (n + 1) 6 := by
  have e : fminf (6 : K) ((n + 1 : Int) : K) = ((min (n + 1) 6 : Int) : K) := by
    unfold fminf
    rw [min_comm]
    push_cast
    rfl
  rw [e, truncToInt_of_nonneg]
  · exact Int.floor_intCast _
  · have : (0 : Int) ≤ min (n + 1) 6 := le_min (by omega) (by omega)
    exact_mod_cast this

/-- C14: with `c = min(6, max(0, v))`, `SetWaveformMorph(v)` sets the current waveform to the
selector with index `⌊c⌋`, the next waveform to the selector with index `min(⌊c⌋ + 1, 6)` and
the morph weight to `c - ⌊c⌋`, which lies in `[0,1)`; both indices lie in `0..6`.
`SetEnvelopeMorph(v)` does the same to the envelope selectors and weight. -/
theorem morph_selectors (s : PulsarEngine K) (v : K) :
    ((SetWaveformMorph s v).waveform_.val = Int.floor (min 6 (max 0 v)) ∧
      (SetWaveformMorph s v).waveformNext_.val = min (Int.floor (min 6 (max 0 v)) + 1) 6 ∧
      (SetWaveformMorph s v).waveformMorph_ =
        min 6 (max 0 v) - (Int.floor (min 6 (max 0 v)) : K) ∧
      0 ≤ (SetWaveformMorph s v).waveformMorph_ ∧
      (SetWaveformMorph s v).waveformMorph_ < 1 ∧
      0 ≤ (SetWaveformMorph s v).waveform_.val ∧
      (SetWaveformMorph s v).waveform_.val ≤ 6 ∧
      0 ≤ (SetWaveformMorph s v).waveformNext_.val ∧
      (SetWaveformMorph s v).waveformNext_.val ≤ 6) ∧
    ((SetEnvelopeMorph s v).envelope_.val = Int.floor (min 6 (max 0 v)) ∧
      (SetEnvelopeMorph s v).envelopeNext_.val = min (Int.floor (min 6 (max 0 v)) + 1) 6 ∧
      (SetEnvelopeMorph s v).envelopeMorph_ =
        min 6 (max 0 v) - (Int.floor (min 6 (max 0 v)) : K) ∧
      0 ≤ (SetEnvelopeMorph s v).envelopeMorph_ ∧
      (SetEnvelopeMorph s v).envelopeMorph_ < 1 ∧
      0 ≤ (SetEnvelopeMorph s v).envelope_.val ∧
      (SetEnvelopeMorph s v).envelope_.val ≤ 6 ∧
      0 ≤ (SetEnvelopeMorph s v).envelopeNext_.val ∧
      (SetEnvelopeMorph s v).envelopeNext_.val ≤ 6) := by
  obtain ⟨hi, hi0, hi6⟩ := morph_index v
  have hn := morph_next (K := K) (Int.floor (min 6 (max 0 v))) hi0
  have hf := morph_fraction v
  have key :
      truncToInt (fmaxf 0 (fminf 6 v)) = Int.floor (min 6 (max 0 v)) ∧
      truncToInt (fminf (6 : K) ((truncToInt (fmaxf 0 (fminf 6 v)) + 1 : Int) : K)) =
        min (Int.floor (min 6 (max 0 v)) + 1) 6 ∧
      fmaxf 0 (fminf 6 v) - ((truncToInt (fmaxf 0 (fminf 6 v)) : Int) : K) =
        min 6 (max 0 v) - (Int.floor (min 6 (max 0 v)) : K) ∧
      0 ≤ fmaxf 0 (fminf 6 v) - ((truncToInt (fmaxf 0 (fminf 6 v)) : Int) : K) ∧
      fmaxf 0 (fminf 6 v) - ((truncToInt (fmaxf 0 (fminf 6 v)) : Int) : K) < 1 := by
    unfold fmaxf
    rw [show fminf 6 v = min 6 v from rfl, hi, hn]
    refine ⟨rfl, rfl, ?_, ?_, ?_⟩
    · rw [clamp06_comm]
    · rw [← hi]; exact hf.1
    · rw [← hi]; exact hf.2
  obtain ⟨k1, k2, k3, k4, k5⟩ := key
  have hn0 : 0 ≤ min (Int.floor (min 6 (max 0 v)) + 1) 6 := le_min (by omega) (by omega)
  have hn6 : min (Int.floor (min 6 (max 0 v)) + 1) 6 ≤ 6 := min_le_right _ _
  constructor
  · show truncToInt (fmaxf 0 (fminf 6 v)) = _ ∧
      truncToInt (fminf (6 : K) ((truncToInt (fmaxf 0 (fminf 6 v)) + 1 : Int) : K)) = _ ∧
      fmaxf 0 (fminf 6 v) - ((truncToInt (fmaxf 0 (fminf 6 v)) : Int) : K) = _ ∧
      0 ≤ fmaxf 0 (fminf 6 v) - ((truncToInt (fmaxf 0 (fminf 6 v)) : Int) : K) ∧
      fmaxf 0 (fminf 6 v) - ((truncToInt (fmaxf 0 (fminf 6 v)) : Int) : K) < 1 ∧
      0 ≤ truncToInt (fmaxf 0 (fminf 6 v)) ∧ truncToInt (fmaxf 0 (fminf 6 v)) ≤ 6 ∧
      0 ≤ truncToInt (fminf (6 : K) ((truncToInt (fmaxf 0 (fminf 6 v)) + 1 : Int) : K)) ∧
      truncToInt (fminf (6 : K) ((truncToInt (fmaxf 0 (fminf 6 v)) + 1 : Int) : K)) ≤ 6
    rw [k2, k1]
    rw [k1] at k3 k4 k5
    exact ⟨rfl, rfl, k3, k4, k5, hi0, hi6, hn0, hn6⟩
  · show truncToInt (fmaxf 0 (fminf 6 v)) = _ ∧
      truncToInt (fminf (6 : K) ((truncToInt (fmaxf 0 (fminf 6 v)) + 1 : Int) : K)) = _ ∧
      fmaxf 0 (fminf 6 v) - ((truncToInt (fmaxf 0 (fminf 6 v)) : Int) : K) = _ ∧
      0 ≤ fmaxf 0 (fminf 6 v) - ((truncToInt (fmaxf 0 (fminf 6 v)) : Int) : K) ∧
      fmaxf 0 (fminf 6 v) - ((truncToInt (fmaxf 0 (fminf 6 v)) : Int) : K) < 1 ∧
      0 ≤ truncToInt (fmaxf 0 (fminf 6 v)) ∧ truncToInt (fmaxf 0 (fminf 6 v)) ≤ 6 ∧
      0 ≤ truncToInt (fminf (6 : K) ((truncToInt (fmaxf 0 (fminf 6 v)) + 1 : Int) : K)) ∧
      truncToInt (fminf (6 : K) ((truncToInt (fmaxf 0 (fminf 6 v)) + 1 : Int) : K)) ≤ 6
    rw [k2, k1]
    rw [k1] at k3 k4 k5
    exact ⟨rfl, rfl, k3, k4, k5, hi0, hi6, hn0, hn6⟩

/-! ## Initial state, `Reset` and `Sync` -/

theorem Init_literal (sampleRate : K) (h : 220 ≤ 0.45 * sampleRate) :
    Init sampleRate =
      { sampleRate_ := sampleRate
        invSampleRate_ := 1 / sampleRate
        phase_ := 0
        pulsaretPhase_ := 0
        phaseIncrement_ := 220 / sampleRate
        fundamentalFreq_ := 220
        formantFreq_ := 440
        dutyCycle_ := 0.5
        waveform_ := PulsaretWaveform.SINE
        waveformNext_ := PulsaretWaveform.SINE
        waveformMorph_ := 0
        envelope_ := PulsaretEnvelope.GAUSSIAN
        envelopeNext_ := PulsaretEnvelope.GAUSSIAN
        envelopeMorph_ := 0
        foldAmount_ := 0
        maskingMode_ := MaskingMode.OFF
        burstCount_ := 4
        restCount_ := 0
        burstPosition_ := 0
        maskingProbability_ := 1
        currentPulsarMasked_ := false
        inPulsaret_ := true
        amplitude_ := 1
        randomSeed_ := 12345
        prevSample_ := 0 } := by
  have e : max (0.1 : K) (min 220 (sampleRate * 0.45)) = 220 := by
    rw [min_eq_left (by linarith)]
    exact max_eq_right (by norm_num)
  have e2 : min (1 : K) (220 / 440) = 0.5 := by
    rw [min_eq_right (by norm_num)]
    norm_num
  unfold Init SetFrequency fmaxf fminf
  simp only
  rw [if_pos (by norm_num), e, e2, mul_one_div]

/-- C15 as stated fails for sample rates below `220 / 0.45`: `Init` ends with
`SetFrequency(220)`, which applies the ceiling `0.45·sampleRate`. At `sampleRate = 100` the
fundamental is `45`, the duty cycle `45 / 440` and the phase increment `45 / 100`. -/
theorem Init_defaults_counterexample :
    (0 : ℚ) < 100 ∧
    (Init (100 : ℚ)).fundamentalFreq_ = 45 ∧ (Init (100 : ℚ)).fundamentalFreq_ ≠ 220 ∧
    (Init (100 : ℚ)).dutyCycle_ = 9 / 88 ∧ (Init (100 : ℚ)).dutyCycle_ ≠ 0.5 ∧
    (Init (100 : ℚ)).phaseIncrement_ = 45 / 100 ∧
    (Init (100 : ℚ)).phaseIncrement_ ≠ 220 / 100 := by
  obtain ⟨h1, _, h3, h4⟩ := Init_fields (100 : ℚ)
  rw [h1, h3, h4]
  norm_num

/-- C15, amended: for every sample rate with `0.45·sampleRate ≥ 220`, `Init(sampleRate)`
leaves the default state: fundamental `220`, formant `440`, duty cycle `0.5`, phase increment
`220 / sampleRate`, phase `0`, waveform `SINE`, envelope `GAUSSIAN`, masking `OFF` with burst
count `4` and rest count `0`, amplitude `1`, fold amount `0`, seed `12345`. For every sample
rate the fundamental is `max(0.1, min(220, 0.45·sampleRate))`, the duty cycle
`min(1, fundamentalFreq / 440)` and the phase increment `fundamentalFreq · (1 / sampleRate)`. -/
theorem Init_defaults (sampleRate : K) :
    (220 ≤ 0.45 * sampleRate →
      Init sampleRate =
        { sampleRate_ := sampleRate
          invSampleRate_ := 1 / sampleRate
          phase_ := 0
          pulsaretPhase_ := 0
          phaseIncrement_ := 220 / sampleRate
          fundamentalFreq_ := 220
          formantFreq_ := 440
          dutyCycle_ := 0.5
          waveform_ := PulsaretWaveform.SINE
          waveformNext_ := PulsaretWaveform.SINE
          waveformMorph_ := 0
          envelope_ := PulsaretEnvelope.GAUSSIAN
          envelopeNext_ := PulsaretEnvelope.GAUSSIAN
          envelopeMorph_ := 0
          foldAmount_ := 0
          maskingMode_ := MaskingMode.OFF
          burstCount_ := 4
          restCount_ := 0
          burstPosition_ := 0
          maskingProbability_ := 1
          currentPulsarMasked_ := false
          inPulsaret_ := true
          amplitude_ := 1
          randomSeed_ := 12345
          prevSample_ := 0 }) ∧
    (Init sampleRate).fundamentalFreq_ = max 0.1 (min 220 (sampleRate * 0.45)) ∧
    (Init sampleRate).dutyCycle_ = min 1 ((Init sampleRate).fundamentalFreq_ / 440) ∧
    (Init sampleRate).phaseIncrement_ =
      (Init sampleRate).fundamentalFreq_ * (1 / sampleRate) := by
  obtain ⟨h1, _, h3, h4⟩ := Init_fields sampleRate
  refine ⟨?_, h1, ?_, ?_⟩
  · exact Init_literal sampleRate
  · rw [h3, h1]
  · rw [h4, h1]

/-- Scenario A of the specification: at sample rate `48000` the initial duty cycle is `0.5`
and the initial phase increment is `220 / 48000`. -/
theorem Init_defaults_witness :
    (220 : ℚ) ≤ 0.45 * 48000 ∧
    (Init (48000 : ℚ)).dutyCycle_ = 0.5 ∧
    (Init (48000 : ℚ)).phaseIncrement_ = 220 / 48000 ∧
    (Init (48000 : ℚ)).fundamentalFreq_ = 220 ∧
    (Init (48000 : ℚ)).randomSeed_ = 12345 := by
  have h := (Init_defaults (48000 : ℚ)).1 (by norm_num)
  refine ⟨by norm_num, ?_, ?_, ?_, ?_⟩ <;> rw [h]

/-- C16: `Reset()` sets `phase`, `pulsaretPhase`, `burstPosition` and `prevSample` to `0`,
clears `currentPulsarMasked`, sets `inPulsaret`, and leaves every other field unchanged:
sample rate and its inverse, phase increment, fundamental and formant frequencies, duty
cycle, waveform and envelope selectors and morph weights, fold amount, amplitude, masking
mode, burst and rest counts, masking probability and the seed. `Reset` is idempotent. -/
theorem Reset_frame (s : PulsarEngine K) :
    ((Reset s).phase_ = 0 ∧ (Reset s).pulsaretPhase_ = 0 ∧ (Reset s).burstPosition_ = 0 ∧
      (Reset s).currentPulsarMasked_ = false ∧ (Reset s).inPulsaret_ = true ∧
      (Reset s).prevSample_ = 0) ∧
    ((Reset s).sampleRate_ = s.sampleRate_ ∧ (Reset s).invSampleRate_ = s.invSampleRate_ ∧
      (Reset s).phaseIncrement_ = s.phaseIncrement_ ∧
      (Reset s).fundamentalFreq_ = s.fundamentalFreq_ ∧
      (Reset s).formantFreq_ = s.formantFreq_ ∧ (Reset s).dutyCycle_ = s.dutyCycle_ ∧
      (Reset s).waveform_ = s.waveform_ ∧ (Reset s).waveformNext_ = s.waveformNext_ ∧
      (Reset s).waveformMorph_ = s.waveformMorph_ ∧ (Reset s).envelope_ = s.envelope_ ∧
      (Reset s).envelopeNext_ = s.envelopeNext_ ∧
      (Reset s).envelopeMorph_ = s.envelopeMorph_ ∧ (Reset s).foldAmount_ = s.foldAmount_ ∧
      (Reset s).amplitude_ = s.amplitude_ ∧ (Reset s).maskingMode_ = s.maskingMode_ ∧
      (Reset s).burstCount_ = s.burstCount_ ∧ (Reset s).restCount_ = s.restCount_ ∧
      (Reset s).maskingProbability_ = s.maskingProbability_ ∧
      (Reset s).randomSeed_ = s.randomSeed_) ∧
    Reset (Reset s) = Reset s :=
  ⟨⟨rfl, rfl, rfl, rfl, rfl, rfl⟩,
    ⟨rfl, rfl, rfl, rfl, rfl, rfl, rfl, rfl, rfl, rfl, rfl, rfl, rfl, rfl, rfl, rfl, rfl, rfl,
      rfl⟩,
    rfl⟩

theorem ShouldEmitPulsar_off (s : PulsarEngine K) (hm : s.maskingMode_ = MaskingMode.OFF) :
    ShouldEmitPulsar s = (true, s) := by
  unfold ShouldEmitPulsar
  rw [if_pos hm]

theorem ShouldEmitPulsar_burst_pair (s : PulsarEngine K)
    (hm : s.maskingMode_ = MaskingMode.BURST) :
    ShouldEmitPulsar s = (decide (s.burstPosition_ < s.burstCount_), s) := by
  unfold ShouldEmitPulsar
  rw [hm, if_neg (by decide), if_pos rfl]

theorem ShouldEmitPulsar_seed_of_ne (s : PulsarEngine K)
    (hm : s.maskingMode_ ≠ MaskingMode.STOCHASTIC) :
    (ShouldEmitPulsar s).2.randomSeed_ = s.randomSeed_ := by
  unfold ShouldEmitPulsar
  split_ifs <;> rfl

theorem Sync_decision (s : PulsarEngine K) :
    (Sync s).currentPulsarMasked_ =
      (!(ShouldEmitPulsar
        { s with phase_ := 0, pulsaretPhase_ := 0, inPulsaret_ := true }).1) ∧
    (Sync s).randomSeed_ =
      (ShouldEmitPulsar
        { s with phase_ := 0, pulsaretPhase_ := 0, inPulsaret_ := true }).2.randomSeed_ :=
  ⟨rfl, rfl⟩

/-- C17: `Sync()` sets `phase` and `pulsaretPhase` to `0`, sets `inPulsaret`, and sets
`currentPulsarMasked` to the negation of the masking decision: false in mode `OFF`, true
exactly when `burstPosition ≥ burstCount` in mode `BURST`, true exactly when one fresh draw
is at least `maskingProbability` in mode `STOCHASTIC`. The seed advances by one draw in mode
`STOCHASTIC` and is unchanged in every other mode. `burstPosition`, `prevSample` and all
parameters are unchanged. -/
theorem Sync_frame (s : PulsarEngine K) :
    ((Sync s).phase_ = 0 ∧ (Sync s).pulsaretPhase_ = 0 ∧ (Sync s).inPulsaret_ = true) ∧
    (s.maskingMode_ = MaskingMode.OFF →
      (Sync s).currentPulsarMasked_ = false ∧ (Sync s).randomSeed_ = s.randomSeed_) ∧
    (s.maskingMode_ = MaskingMode.BURST →
      ((Sync s).currentPulsarMasked_ = true ↔ s.burstPosition_ ≥ s.burstCount_) ∧
      (Sync s).randomSeed_ = s.randomSeed_) ∧
    (s.maskingMode_ = MaskingMode.STOCHASTIC →
      ((Sync s).currentPulsarMasked_ = true ↔
        (FastRandom s).1 ≥ s.maskingProbability_) ∧
      (Sync s).randomSeed_ = (s.randomSeed_ * 1664525 + 1013904223) % 2 ^ 32 ∧
      (Sync s).randomSeed_ = (FastRandom s).2.randomSeed_) ∧
    (s.maskingMode_ ≠ MaskingMode.STOCHASTIC → (Sync s).randomSeed_ = s.randomSeed_) ∧
    ((Sync s).burstPosition_ = s.burstPosition_ ∧ (Sync s).prevSample_ = s.prevSample_ ∧
      (Sync s).sampleRate_ = s.sampleRate_ ∧ (Sync s).invSampleRate_ = s.invSampleRate_ ∧
      (Sync s).phaseIncrement_ = s.phaseIncrement_ ∧
      (Sync s).fundamentalFreq_ = s.fundamentalFreq_ ∧
      (Sync s).formantFreq_ = s.formantFreq_ ∧ (Sync s).dutyCycle_ = s.dutyCycle_ ∧
      (Sync s).waveform_ = s.waveform_ ∧ (Sync s).waveformNext_ = s.waveformNext_ ∧
      (Sync s).waveformMorph_ = s.waveformMorph_ ∧ (Sync s).envelope_ = s.envelope_ ∧
      (Sync s).envelopeNext_ = s.envelopeNext_ ∧
      (Sync s).envelopeMorph_ = s.envelopeMorph_ ∧ (Sync s).foldAmount_ = s.foldAmount_ ∧
      (Sync s).amplitude_ = s.amplitude_ ∧ (Sync s).maskingMode_ = s.maskingMode_ ∧
      (Sync s).burstCount_ = s.burstCount_ ∧ (Sync s).restCount_ = s.restCount_ ∧
      (Sync s).maskingProbability_ = s.maskingProbability_) := by
  refine ⟨?_, ?_, ?_, ?_, ?_, ?_⟩
  · obtain ⟨seed, masked, hS⟩ := Sync_form s
    rw [hS]
    exact ⟨rfl, rfl, rfl⟩
  · intro hm
    obtain ⟨h1, h2⟩ := Sync_decision s
    rw [h1, h2, ShouldEmitPulsar_off
      { s with phase_ := 0, pulsaretPhase_ := 0, inPulsaret_ := true } hm]
    exact ⟨rfl, rfl⟩
  · intro hm
    obtain ⟨h1, h2⟩ := Sync_decision s
    rw [h1, h2, ShouldEmitPulsar_burst_pair
      { s with phase_ := 0, pulsaretPhase_ := 0, inPulsaret_ := true } hm]
    refine ⟨?_, rfl⟩
    show (!decide (s.burstPosition_ < s.burstCount_)) = true ↔ _
    simp
  · intro hm
    obtain ⟨h1, h2⟩ := Sync_decision s
    have e : (FastRandom
        { s with phase_ := 0, pulsaretPhase_ := 0, inPulsaret_ := true }).1 =
        (FastRandom s).1 := by
      rw [FastRandom_fst, FastRandom_fst]
    rw [h1, h2, ShouldEmitPulsar_stochastic
      { s with phase_ := 0, pulsaretPhase_ := 0, inPulsaret_ := true } hm, e]
    refine ⟨?_, rfl, rfl⟩
    show (!decide ((FastRandom s).1 < s.maskingProbability_)) = true ↔ _
    simp
  · intro hm
    rw [(Sync_decision s).2]
    exact ShouldEmitPulsar_seed_of_ne
      { s with phase_ := 0, pulsaretPhase_ := 0, inPulsaret_ := true } hm
  · obtain ⟨seed, masked, hS⟩ := Sync_form s
    rw [hS]
    exact ⟨rfl, rfl, rfl, rfl, rfl, rfl, rfl, rfl, rfl, rfl, rfl, rfl, rfl, rfl, rfl, rfl,
      rfl, rfl, rfl, rfl⟩

/-- An instance of C17 in mode `BURST`: after `Init(48000)` and `SetMaskingMode(BURST)` the
burst position `0` is below the burst count `4`, so `Sync()` leaves the pulsar unmasked and
the seed at `12345`. -/
theorem Sync_frame_witness :
    (SetMaskingMode (Init (48000 : ℚ)) MaskingMode.BURST).maskingMode_ = MaskingMode.BURST ∧
    (Sync (SetMaskingMode (Init (48000 : ℚ)) MaskingMode.BURST)).currentPulsarMasked_
      = false ∧
    (Sync (SetMaskingMode (Init (48000 : ℚ)) MaskingMode.BURST)).randomSeed_ = 12345 := by
  have h := (Sync_frame (SetMaskingMode (Init (48000 : ℚ)) MaskingMode.BURST)).2.2.1 rfl
  have hI := Init_literal (48000 : ℚ) (by norm_num)
  refine ⟨rfl, ?_, ?_⟩
  · by_contra hc
    have hm := h.1.mp (by simpa using hc)
    rw [show (SetMaskingMode (Init (48000 : ℚ)) MaskingMode.BURST).burstPosition_ =
        (Init (48000 : ℚ)).burstPosition_ from rfl,
      show (SetMaskingMode (Init (48000 : ℚ)) MaskingMode.BURST).burstCount_ =
        (Init (48000 : ℚ)).burstCount_ from rfl, hI] at hm
    exact absurd hm (by decide)
  · rw [h.2]
    show (Init (48000 : ℚ)).randomSeed_ = 12345
    rw [hI]

/-! ## Envelope range, triangle shape and click suppression -/

/-- C18: with an exponential that takes values in `[0,1]` on non-positive arguments (in
particular the real one), for every phase in `[0,1]` and every envelope selector
`GenerateEnvelope` returns a gain in `[0,1]`, and so does the blend
`envA + (envB - envA)·w` of two envelopes for every weight `w` in `[0,1)`. -/
theorem GenerateEnvelope_unit_range (M : Libm K) (hM : M.Sound) (phase : K)
    (h0 : 0 ≤ phase) (h1 : phase ≤ 1) (e next : PulsaretEnvelope) (w : K)
    (hw0 : 0 ≤ w) (hw1 : w < 1) :
    (0 ≤ GenerateEnvelope M phase e ∧ GenerateEnvelope M phase e ≤ 1) ∧
    0 ≤ GenerateEnvelope M phase e +
      (GenerateEnvelope M phase next - GenerateEnvelope M phase e) * w ∧
    GenerateEnvelope M phase e +
      (GenerateEnvelope M phase next - GenerateEnvelope M phase e) * w ≤ 1 := by
  have hA := GenerateEnvelope_range M hM phase e h0 h1
  have hB := GenerateEnvelope_range M hM phase next h0 h1
  exact ⟨hA, lerp_range _ _ _ 0 1 hA.1 hA.2 hB.1 hB.2 hw0 (le_of_lt hw1)⟩

/-- An instance of C18 over the reals with the real exponential: the `GAUSSIAN` envelope at
phase `0.5`, blended half-way toward `EXPODEC`. -/
theorem GenerateEnvelope_unit_range_witness :
    ((0 : ℝ) ≤ 0.5 ∧ (0.5 : ℝ) ≤ 1 ∧ (0 : ℝ) ≤ 0.5 ∧ (0.5 : ℝ) < 1) ∧
    (0 ≤ GenerateEnvelope ⟨Real.sin, Real.exp⟩ (0.5 : ℝ) PulsaretEnvelope.GAUSSIAN ∧
      GenerateEnvelope ⟨Real.sin, Real.exp⟩ (0.5 : ℝ) PulsaretEnvelope.GAUSSIAN ≤ 1) ∧
    0 ≤ GenerateEnvelope ⟨Real.sin, Real.exp⟩ (0.5 : ℝ) PulsaretEnvelope.GAUSSIAN +
      (GenerateEnvelope ⟨Real.sin, Real.exp⟩ (0.5 : ℝ) PulsaretEnvelope.EXPODEC -
        GenerateEnvelope ⟨Real.sin, Real.exp⟩ (0.5 : ℝ) PulsaretEnvelope.GAUSSIAN) * 0.5 ∧
    GenerateEnvelope ⟨Real.sin, Real.exp⟩ (0.5 : ℝ) PulsaretEnvelope.GAUSSIAN +
      (GenerateEnvelope ⟨Real.sin, Real.exp⟩ (0.5 : ℝ) PulsaretEnvelope.EXPODEC -
        GenerateEnvelope ⟨Real.sin, Real.exp⟩ (0.5 : ℝ) PulsaretEnvelope.GAUSSIAN) * 0.5
      ≤ 1 :=
  ⟨⟨by norm_num, by norm_num, by norm_num, by norm_num⟩,
    GenerateEnvelope_unit_range ⟨Real.sin, Real.exp⟩ realLibm_sound 0.5 (by norm_num)
      (by norm_num) PulsaretEnvelope.GAUSSIAN PulsaretEnvelope.EXPODEC 0.5 (by norm_num)
      (by norm_num)⟩

theorem GenerateWaveform_triangle (M : Libm K) (s : PulsarEngine K) (phase : K) :
    (GenerateWaveform M s phase PulsaretWaveform.TRIANGLE).1 =
      if phase < 0.25 then phase * 4
      else if phase < 0.75 then 1 - (phase - 0.25) * 4
      else (phase - 0.75) * 4 - 1 := by
  unfold GenerateWaveform
  rw [if_neg (by decide), if_pos rfl]
  split_ifs <;> rfl

/-- C19 as stated fails at the end of the cycle: the `TRIANGLE` waveform at phase `1` is `0`,
not `-1`; the value `-1` is taken at phase `0.75`. -/
theorem triangle_counterexample :
    (GenerateWaveform flatLibm (Init (48000 : ℚ)) 1 PulsaretWaveform.TRIANGLE).1 = 0 ∧
    (GenerateWaveform flatLibm (Init (48000 : ℚ)) 1 PulsaretWaveform.TRIANGLE).1 ≠ -1 := by
  rw [GenerateWaveform_triangle]
  norm_num

/-- C19, amended: the `TRIANGLE` waveform is the piecewise linear ramp `4·phase` on
`[0, 0.25)`, `1 - 4·(phase - 0.25)` on `[0.25, 0.75)` and `4·(phase - 0.75) - 1` from `0.75`
on. It starts at `0`, peaks at phase `0.25` with value `1`, reaches `-1` at phase `0.75` and
returns to `0` at phase `1`: on `[0.75, 1]` its distance to `0` is `4·(1 - phase)`. On
`[0,1]` it stays within `[-1,1]`. -/
theorem triangle_shape (M : Libm K) (s : PulsarEngine K) :
    (GenerateWaveform M s 0 PulsaretWaveform.TRIANGLE).1 = 0 ∧
    (GenerateWaveform M s 0.25 PulsaretWaveform.TRIANGLE).1 = 1 ∧
    (GenerateWaveform M s 0.75 PulsaretWaveform.TRIANGLE).1 = -1 ∧
    (GenerateWaveform M s 1 PulsaretWaveform.TRIANGLE).1 = 0 ∧
    (∀ phase : K, phase < 0.25 →
      (GenerateWaveform M s phase PulsaretWaveform.TRIANGLE).1 = phase * 4) ∧
    (∀ phase : K, 0.25 ≤ phase → phase < 0.75 →
      (GenerateWaveform M s phase PulsaretWaveform.TRIANGLE).1 = 1 - (phase - 0.25) * 4) ∧
    (∀ phase : K, 0.75 ≤ phase →
      (GenerateWaveform M s phase PulsaretWaveform.TRIANGLE).1 = (phase - 0.75) * 4 - 1) ∧
    (∀ phase : K, 0.75 ≤ phase → phase ≤ 1 →
      |(GenerateWaveform M s phase PulsaretWaveform.TRIANGLE).1 - 0| = 4 * (1 - phase)) ∧
    (∀ phase : K, 0 ≤ phase → phase ≤ 1 →
      -1 ≤ (GenerateWaveform M s phase PulsaretWaveform.TRIANGLE).1 ∧
      (GenerateWaveform M s phase PulsaretWaveform.TRIANGLE).1 ≤ 1) := by
  have h3 : ∀ phase : K, 0.75 ≤ phase →
      (GenerateWaveform M s phase PulsaretWaveform.TRIANGLE).1 = (phase - 0.75) * 4 - 1 := by
    intro phase hp
    rw [GenerateWaveform_triangle, if_neg (by linarith), if_neg (by linarith)]
  refine ⟨?_, ?_, ?_, ?_, ?_, ?_, h3, ?_, ?_⟩
  · rw [GenerateWaveform_triangle]
    norm_num
  · rw [GenerateWaveform_triangle]
    norm_num
  · rw [GenerateWaveform_triangle]
    norm_num
  · rw [GenerateWaveform_triangle]
    norm_num
  · intro phase hp
    rw [GenerateWaveform_triangle, if_pos hp]
  · intro phase hp1 hp2
    rw [GenerateWaveform_triangle, if_neg (not_lt.mpr hp1), if_pos hp2]
  · intro phase hp1 hp2
    rw [h3 phase hp1, sub_zero, abs_of_nonpos (by linarith)]
    ring
  · intro phase hp0 hp1
    rw [GenerateWaveform_triangle]
    split_ifs <;> constructor <;> linarith

/-- An instance of the amended C19 at phase `0.9`: the value is `-0.4`, at distance
`4·(1 - 0.9)` from `0`. -/
theorem triangle_shape_witness :
    (0.75 : ℚ) ≤ 0.9 ∧ (0.9 : ℚ) ≤ 1 ∧
    (GenerateWaveform flatLibm (Init (48000 : ℚ)) 0.9 PulsaretWaveform.TRIANGLE).1 = -0.4 ∧
    |(GenerateWaveform flatLibm (Init (48000 : ℚ)) 0.9 PulsaretWaveform.TRIANGLE).1 - 0| =
      4 * (1 - 0.9) := by
  have h := triangle_shape flatLibm (Init (48000 : ℚ))
  refine ⟨by norm_num, by norm_num, ?_, h.2.2.2.2.2.2.2.1 0.9 (by norm_num) (by norm_num)⟩
  rw [h.2.2.2.2.2.2.1 0.9 (by norm_num)]
  norm_num

theorem renderSample_fst (M : Libm K) (s : PulsarEngine K) :
    (renderSample M s).1 =
      if s.phase_ < s.dutyCycle_ ∧ s.currentPulsarMasked_ = false then
        (pulsaretSample M { s with inPulsaret_ := decide (s.phase_ < s.dutyCycle_) }
          s.dutyCycle_).1
      else 0 := by
  unfold renderSample
  simp only
  by_cases h : s.phase_ < s.dutyCycle_ ∧ s.currentPulsarMasked_ = false
  · rw [if_pos h, if_pos]
    simp only [Bool.and_eq_true, decide_eq_true_eq, Bool.not_eq_true']
    exact h
  · rw [if_neg h, if_neg]
    simp only [Bool.and_eq_true, decide_eq_true_eq, Bool.not_eq_true']
    exact h

/-- C20: with `p` the phase before the tick and `p'` the phase after advance and wrap
(`p + phaseIncrement`, minus `1` when that sum reaches `1`): if `p < dutyCycle` and
`p' ≥ dutyCycle`, `Process()` returns `0.5` times the stored `prevSample` and discards the
sample computed for the tick; otherwise it returns the computed sample, which is the
pulsaret sample when `p < dutyCycle` and the pulsar is not masked, and `0` when
`p ≥ dutyCycle` or the pulsar is masked. In both cases `prevSample` is the returned value
afterwards. -/
theorem Process_click_suppression (M : Libm K) (s : PulsarEngine K) :
    (Process M s).2.phase_ =
      (if s.phase_ + s.phaseIncrement_ ≥ 1 then s.phase_ + s.phaseIncrement_ - 1
        else s.phase_ + s.phaseIncrement_) ∧
    (s.phase_ < s.dutyCycle_ ∧ (Process M s).2.phase_ ≥ s.dutyCycle_ →
      (Process M s).1 = 0.5 * s.prevSample_) ∧
    (¬ (s.phase_ < s.dutyCycle_ ∧ (Process M s).2.phase_ ≥ s.dutyCycle_) →
      (Process M s).1 = (renderSample M s).1) ∧
    (s.phase_ < s.dutyCycle_ → s.currentPulsarMasked_ = false →
      (renderSample M s).1 =
        (pulsaretSample M { s with inPulsaret_ := true } s.dutyCycle_).1) ∧
    (s.phase_ ≥ s.dutyCycle_ ∨ s.currentPulsarMasked_ = true → (renderSample M s).1 = 0) ∧
    (Process M s).2.prevSample_ = (Process M s).1 := by
  have hph := Process_phase M s
  refine ⟨hph, ?_, ?_, ?_, ?_, rfl⟩
  · intro h
    rw [hph] at h
    rw [Process_fst_form, if_pos h, mul_comm]
  · intro h
    rw [hph] at h
    rw [Process_fst_form, if_neg h]
  · intro h1 h2
    rw [renderSample_fst, if_pos ⟨h1, h2⟩, decide_eq_true h1]
  · intro h
    rw [renderSample_fst, if_neg]
    rintro ⟨h1, h2⟩
    rcases h with h | h
    · exact absurd h1 (not_lt.mpr h)
    · rw [h2] at h
      exact absurd h (by decide)

/-- An instance of C20: from the initial state at sample rate `48000` (duty cycle `0.5`, phase
increment `220 / 48000`) with the phase moved to `0.499` and `prevSample = 0.8`, the tick
crosses the duty threshold and `Process()` returns `0.4`. -/
theorem Process_click_suppression_witness :
    (Process flatLibm { Init (48000 : ℚ) with phase_ := 0.499, prevSample_ := 0.8 }).1
      = 0.4 := by
  obtain ⟨i1, i2, i3, i4⟩ := Init_48000
  have hd : ({ Init (48000 : ℚ) with phase_ := 0.499, prevSample_ := 0.8 } :
      PulsarEngine ℚ).dutyCycle_ = 0.5 := i3
  have hi : ({ Init (48000 : ℚ) with phase_ := 0.499, prevSample_ := 0.8 } :
      PulsarEngine ℚ).phaseIncrement_ = 220 / 48000 := i4
  have hp : ({ Init (48000 : ℚ) with phase_ := 0.499, prevSample_ := 0.8 } :
      PulsarEngine ℚ).phase_ = 0.499 := rfl
  have hv : ({ Init (48000 : ℚ) with phase_ := 0.499, prevSample_ := 0.8 } :
      PulsarEngine ℚ).prevSample_ = 0.8 := rfl
  have h := Process_click_suppression flatLibm
    { Init (48000 : ℚ) with phase_ := 0.499, prevSample_ := 0.8 }
  rw [h.2.1 ⟨by rw [hp, hd]; norm_num, by rw [h.1, hp, hd, hi]; norm_num⟩, hv]
  norm_num

/-! ## The masking decision is held between wraps -/

theorem advancePhase_no_wrap (s : PulsarEngine K) (h : s.phase_ + s.phaseIncrement_ < 1) :
    advancePhase s = { s with phase_ := s.phase_ + s.phaseIncrement_ } := by
  unfold advancePhase
  simp only
  rw [if_neg (not_le.mpr h)]

theorem Process_no_wrap (M : Libm K) (s : PulsarEngine K)
    (h : s.phase_ + s.phaseIncrement_ < 1) :
    (Process M s).2.currentPulsarMasked_ = s.currentPulsarMasked_ ∧
      (Process M s).2.burstPosition_ = s.burstPosition_ := by
  have h1 : (Process M s).2.currentPulsarMasked_ =
      (advancePhase (renderSample M s).2).currentPulsarMasked_ := rfl
  have h2 : (Process M s).2.burstPosition_ =
      (advancePhase (renderSample M s).2).burstPosition_ := rfl
  obtain ⟨pp, seed, hr⟩ := renderSample_snd M s
  rw [h1, h2, hr, advancePhase_no_wrap]
  · exact ⟨rfl, rfl⟩
  · exact h

/-- C21: on a tick that does not wrap the period (`phase + phaseIncrement < 1`),
`Process()` leaves `currentPulsarMasked` and `burstPosition` unchanged, and none of the
twelve setters changes `currentPulsarMasked` or `burstPosition`. -/
theorem masking_held (M : Libm K) (s : PulsarEngine K) :
    (s.phase_ + s.phaseIncrement_ < 1 →
      (Process M s).2.currentPulsarMasked_ = s.currentPulsarMasked_ ∧
      (Process M s).2.burstPosition_ = s.burstPosition_) ∧
    (∀ freq : K,
      (SetFrequency s freq).currentPulsarMasked_ = s.currentPulsarMasked_ ∧
      (SetFrequency s freq).burstPosition_ = s.burstPosition_) ∧
    (∀ freq : K,
      (SetFormantFrequency s freq).currentPulsarMasked_ = s.currentPulsarMasked_ ∧
      (SetFormantFrequency s freq).burstPosition_ = s.burstPosition_) ∧
    (∀ ratio : K,
      (SetFormantRatio s ratio).currentPulsarMasked_ = s.currentPulsarMasked_ ∧
      (SetFormantRatio s ratio).burstPosition_ = s.burstPosition_) ∧
    (∀ w : PulsaretWaveform,
      (SetWaveform s w).currentPulsarMasked_ = s.currentPulsarMasked_ ∧
      (SetWaveform s w).burstPosition_ = s.burstPosition_) ∧
    (∀ v : K,
      (SetWaveformMorph s v).currentPulsarMasked_ = s.currentPulsarMasked_ ∧
      (SetWaveformMorph s v).burstPosition_ = s.burstPosition_) ∧
    (∀ e : PulsaretEnvelope,
      (SetEnvelope s e).currentPulsarMasked_ = s.currentPulsarMasked_ ∧
      (SetEnvelope s e).burstPosition_ = s.burstPosition_) ∧
    (∀ v : K,
      (SetEnvelopeMorph s v).currentPulsarMasked_ = s.currentPulsarMasked_ ∧
      (SetEnvelopeMorph s v).burstPosition_ = s.burstPosition_) ∧
    (∀ amount : K,
      (SetFold s amount).currentPulsarMasked_ = s.currentPulsarMasked_ ∧
      (SetFold s amount).burstPosition_ = s.burstPosition_) ∧
    (∀ burst rest : Int,
      (SetBurstRatio s burst rest).currentPulsarMasked_ = s.currentPulsarMasked_ ∧
      (SetBurstRatio s burst rest).burstPosition_ = s.burstPosition_) ∧
    (∀ probability : K,
      (SetMaskingProbability s probability).currentPulsarMasked_ = s.currentPulsarMasked_ ∧
      (SetMaskingProbability s probability).burstPosition_ = s.burstPosition_) ∧
    (∀ mode : MaskingMode,
      (SetMaskingMode s mode).currentPulsarMasked_ = s.currentPulsarMasked_ ∧
      (SetMaskingMode s mode).burstPosition_ = s.burstPosition_) ∧
    (∀ amp : K,
      (SetAmplitude s amp).currentPulsarMasked_ = s.currentPulsarMasked_ ∧
      (SetAmplitude s amp).burstPosition_ = s.burstPosition_) := by
  refine ⟨Process_no_wrap M s, ?_, ?_, ?_, fun _ => ⟨rfl, rfl⟩, fun _ => ⟨rfl, rfl⟩,
    fun _ => ⟨rfl, rfl⟩, fun _ => ⟨rfl, rfl⟩, fun _ => ⟨rfl, rfl⟩, fun _ _ => ⟨rfl, rfl⟩,
    fun _ => ⟨rfl, rfl⟩, fun _ => ⟨rfl, rfl⟩, fun _ => ⟨rfl, rfl⟩⟩
  · intro freq
    obtain ⟨d, hS⟩ := SetFrequency_form s freq
    rw [hS]
    exact ⟨rfl, rfl⟩
  · intro freq
    obtain ⟨d, hS⟩ := SetFormantFrequency_form s freq
    rw [hS]
    exact ⟨rfl, rfl⟩
  · intro ratio
    obtain ⟨f, hS⟩ := SetFormantRatio_form s ratio
    rw [hS]
    exact ⟨rfl, rfl⟩

/-- An instance of C21: in STOCHASTIC mode with masking probability `0`, the first tick after
`Init(48000)` does not wrap (`0 + 220/48000 < 1`), so the pulsar stays unmasked and the
burst position stays `0`. -/
theorem masking_held_witness :
    (SetMaskingProbability (SetMaskingMode (Init (48000 : ℚ)) MaskingMode.STOCHASTIC)
        0).phase_ +
      (SetMaskingProbability (SetMaskingMode (Init (48000 : ℚ)) MaskingMode.STOCHASTIC)
        0).phaseIncrement_ < 1 ∧
    (Process flatLibm (SetMaskingProbability
      (SetMaskingMode (Init (48000 : ℚ)) MaskingMode.STOCHASTIC) 0)).2.currentPulsarMasked_
        = false ∧
    (Process flatLibm (SetMaskingProbability
      (SetMaskingMode (Init (48000 : ℚ)) MaskingMode.STOCHASTIC) 0)).2.burstPosition_ = 0 := by
  have hI := Init_literal (48000 : ℚ) (by norm_num)
  have hlt : (SetMaskingProbability (SetMaskingMode (Init (48000 : ℚ))
      MaskingMode.STOCHASTIC) 0).phase_ +
      (SetMaskingProbability (SetMaskingMode (Init (48000 : ℚ)) MaskingMode.STOCHASTIC)
        0).phaseIncrement_ < 1 := by
    show (Init (48000 : ℚ)).phase_ + (Init (48000 : ℚ)).phaseIncrement_ < 1
    rw [hI]
    norm_num
  have h := (masking_held flatLibm (SetMaskingProbability
    (SetMaskingMode (Init (48000 : ℚ)) MaskingMode.STOCHASTIC) 0)).1 hlt
  refine ⟨hlt, ?_, ?_⟩
  · rw [h.1]
    show (Init (48000 : ℚ)).currentPulsarMasked_ = false
    rw [hI]
  · rw [h.2]
    show (Init (48000 : ℚ)).burstPosition_ = 0
    rw [hI]

/-! ## The wavefolder as a triangle fold -/

theorem foldImage_foldBody (y : K) : foldImage y (foldBody y) := by
  unfold foldBody
  simp only
  split_ifs
  · exact ⟨1, Or.inl (by push_cast; ring)⟩
  · exact ⟨0, Or.inr (by push_cast; ring)⟩
  · exact ⟨-1, Or.inr (by push_cast; ring)⟩
  · exact ⟨0, Or.inl (by push_cast; ring)⟩

theorem foldImage_trans (y z t : K) (h1 : foldImage y z) (h2 : foldImage z t) :
    foldImage y t := by
  obtain ⟨a, ha⟩ := h1
  obtain ⟨b, hb⟩ := h2
  rcases ha with ha | ha <;> rcases hb with hb | hb
  · exact ⟨a + b, Or.inl (by rw [hb, ha]; push_cast; ring)⟩
  · exact ⟨a + b, Or.inr (by rw [hb, ha]; push_cast; ring)⟩
  · exact ⟨a - b, Or.inr (by rw [hb, ha]; push_cast; ring)⟩
  · exact ⟨a - b, Or.inl (by rw [hb, ha]; push_cast; ring)⟩

theorem foldImage_foldLoop (y : K) : foldImage y (foldLoop y) := by
  induction y using foldLoop.induct with
  | case1 x h ih =>
    rw [foldLoop_unfold, if_pos h]
    exact foldImage_trans _ _ _ (foldImage_foldBody x) ih
  | case2 x h =>
    rw [foldLoop_unfold, if_neg h]
    exact ⟨0, Or.inl (by push_cast; ring)⟩

theorem foldImage_neg (y t : K) (h : foldImage y t) : foldImage (-y) (-t) := by
  obtain ⟨k, hk⟩ := h
  rcases hk with hk | hk
  · exact ⟨-k, Or.inl (by rw [hk]; push_cast; ring)⟩
  · exact ⟨-k - 1, Or.inr (by rw [hk]; push_cast; ring)⟩

theorem int_eq_zero_of_small (m : Int) (h1 : -2 ≤ 4 * (m : K)) (h2 : 4 * (m : K) ≤ 2) :
    m = 0 := by
  have a : ((-2 : Int) : K) ≤ ((4 * m : Int) : K) := by
    push_cast
    exact h1
  have b : ((4 * m : Int) : K) ≤ ((2 : Int) : K) := by
    push_cast
    exact h2
  have a2 : (-2 : Int) ≤ 4 * m := Int.cast_le.mp a
  have b2 : 4 * m ≤ (2 : Int) := Int.cast_le.mp b
  omega

theorem int_cases_of_sum (m : Int) (h1 : -4 ≤ 4 * (m : K)) (h2 : 4 * (m : K) ≤ 0) :
    m = 0 ∨ m = -1 := by
  have a : ((-4 : Int) : K) ≤ ((4 * m : Int) : K) := by
    push_cast
    exact h1
  have b : ((4 * m : Int) : K) ≤ ((0 : Int) : K) := by
    push_cast
    exact h2
  have a2 : (-4 : Int) ≤ 4 * m := Int.cast_le.mp a
  have b2 : 4 * m ≤ (0 : Int) := Int.cast_le.mp b
  omega

theorem foldImage_mixed (y t u : K) (a b : Int) (ht0 : -1 ≤ t) (ht1 : t ≤ 1)
    (hu0 : -1 ≤ u) (hu1 : u ≤ 1) (ha : t = y - 4 * (a : K))
    (hb : u = 2 - (y - 4 * (b : K))) : t = u := by
  have hsum : t + u = 2 + 4 * ((b - a : Int) : K) := by
    rw [ha, hb]
    push_cast
    ring
  rcases int_cases_of_sum (K := K) (b - a) (by linarith) (by linarith) with h | h
  · rw [h] at hsum
    push_cast at hsum
    linarith
  · rw [h] at hsum
    push_cast at hsum
    linarith

theorem foldImage_unique (y t u : K) (ht0 : -1 ≤ t) (ht1 : t ≤ 1) (hu0 : -1 ≤ u)
    (hu1 : u ≤ 1) (ht : foldImage y t) (hu : foldImage y u) : t = u := by
  obtain ⟨a, ha⟩ := ht
  obtain ⟨b, hb⟩ := hu
  rcases ha with ha | ha <;> rcases hb with hb | hb
  · have hd : t - u = 4 * ((b - a : Int) : K) := by
      rw [ha, hb]
      push_cast
      ring
    have h0 := int_eq_zero_of_small (K := K) (b - a) (by linarith) (by linarith)
    rw [h0] at hd
    push_cast at hd
    linarith
  · exact foldImage_mixed y t u a b ht0 ht1 hu0 hu1 ha hb
  · exact (foldImage_mixed y u t b a hu0 hu1 ht0 ht1 hb ha).symm
  · have hd : t - u = 4 * ((a - b : Int) : K) := by
      rw [ha, hb]
      push_cast
      ring
    have h0 := int_eq_zero_of_small (K := K) (a - b) (by linarith) (by linarith)
    rw [h0] at hd
    push_cast at hd
    linarith

theorem foldLoop_neg (y : K) : foldLoop (-y) = -foldLoop y := by
  have h1 := abs_le.mp (abs_foldLoop_le (-y))
  have h2 := abs_le.mp (abs_foldLoop_le y)
  exact foldImage_unique (-y) _ _ h1.1 h1.2 (by linarith) (by linarith)
    (foldImage_foldLoop (-y)) (foldImage_neg _ _ (foldImage_foldLoop y))

/-- C22: `ApplyFold` is an odd function of its input, for every input and every fold amount.
Its result is the period-4 triangle fold of `y = x·(1 + 8·foldAmount)`: it lies in `[-1,1]`,
it has the form `y - 4k` or `2 - (y - 4k)` for an integer `k`, and it is the only value of
`[-1,1]` of that form. -/
theorem ApplyFold_odd (s : PulsarEngine K) (x : K) :
    ApplyFold s (-x) = -ApplyFold s x ∧
    (-1 ≤ ApplyFold s x ∧ ApplyFold s x ≤ 1) ∧
    (∃ k : Int, ApplyFold s x = x * (1 + 8 * s.foldAmount_) - 4 * (k : K) ∨
      ApplyFold s x = 2 - (x * (1 + 8 * s.foldAmount_) - 4 * (k : K))) ∧
    (∀ t : K, -1 ≤ t → t ≤ 1 →
      (∃ k : Int, t = x * (1 + 8 * s.foldAmount_) - 4 * (k : K) ∨
        t = 2 - (x * (1 + 8 * s.foldAmount_) - 4 * (k : K))) →
      t = ApplyFold s x) := by
  have hy : x * (1 + s.foldAmount_ * 8) = x * (1 + 8 * s.foldAmount_) := by ring
  have hb := abs_le.mp (abs_foldLoop_le (x * (1 + 8 * s.foldAmount_)))
  rw [ApplyFold_eq, ApplyFold_eq, hy]
  refine ⟨?_, hb, foldImage_foldLoop _, ?_⟩
  · rw [show -x * (1 + s.foldAmount_ * 8) = -(x * (1 + 8 * s.foldAmount_)) by ring]
    exact foldLoop_neg _
  · intro t ht0 ht1 ht
    exact foldImage_unique _ t _ ht0 ht1 hb.1 hb.2 ht (foldImage_foldLoop _)

/-- An instance of C22 at full fold (gain `9`): `0.5` is scaled to `4.5` and folded to `0.5`
(`4.5 - 4`), and `-0.5` is folded to `-0.5`. -/
theorem ApplyFold_odd_witness :
    ApplyFold (SetFold (Init (48000 : ℚ)) 1) 0.5 = 0.5 ∧
    ApplyFold (SetFold (Init (48000 : ℚ)) 1) (-0.5) = -0.5 := by
  have hf : (SetFold (Init (48000 : ℚ)) 1).foldAmount_ = 1 := by
    norm_num [SetFold, fmaxf, fminf]
  have h := ApplyFold_odd (SetFold (Init (48000 : ℚ)) 1) 0.5
  have h1 : ApplyFold (SetFold (Init (48000 : ℚ)) 1) 0.5 = 0.5 := by
    refine (h.2.2.2 0.5 (by norm_num) (by norm_num) ⟨1, Or.inl ?_⟩).symm
    rw [hf]
    norm_num
  refine ⟨h1, ?_⟩
  rw [h.1, h1]

/-! ## Seed accounting for one tick -/

theorem lcgNext_ne_self (z : Nat) : lcgNext z ≠ z := by
  unfold lcgNext
  intro h
  have h2 : (z * 1664525 + 1013904223) % 4294967296 = z := by
    norm_num at h
    exact h
  omega

theorem GenerateWaveform_seed (M : Libm K) (s : PulsarEngine K) (phase : K)
    (w : PulsaretWaveform) :
    (GenerateWaveform M s phase w).2.randomSeed_ =
      if w = PulsaretWaveform.NOISE then lcgNext s.randomSeed_ else s.randomSeed_ := by
  by_cases hw : w = PulsaretWaveform.NOISE
  · rw [if_pos hw, hw]
    unfold GenerateWaveform
    rw [if_neg (by decide), if_neg (by decide), if_neg (by decide), if_neg (by decide),
      if_neg (by decide), if_neg (by decide), if_pos rfl]
    simp only
    rw [FastRandom_snd]
  · rw [if_neg hw]
    unfold GenerateWaveform
    split_ifs <;> rfl

theorem iterate_noise (a b : Prop) [Decidable a] [Decidable b] (seed : Nat) :
    (if b then lcgNext (if a then lcgNext seed else seed)
      else (if a then lcgNext seed else seed)) =
    lcgNext^[(if a then 1 else 0) + (if b then 1 else 0)] seed := by
  by_cases ha : a <;> by_cases hb : b
  · rw [if_pos ha, if_pos hb, if_pos ha, if_pos hb, Function.iterate_succ_apply,
      Function.iterate_succ_apply, Function.iterate_zero_apply]
  · rw [if_pos ha, if_neg hb, if_pos ha, if_neg hb, Nat.add_zero,
      Function.iterate_succ_apply, Function.iterate_zero_apply]
  · rw [if_neg ha, if_pos hb, if_neg ha, if_pos hb, Nat.zero_add,
      Function.iterate_succ_apply, Function.iterate_zero_apply]
  · rw [if_neg ha, if_neg hb, if_neg ha, if_neg hb, Function.iterate_zero_apply]

theorem pulsaretSample_seed (M : Libm K) (s : PulsarEngine K) (d : K) :
    (pulsaretSample M s d).2.randomSeed_ = lcgNext^[noiseSelectors s] s.randomSeed_ := by
  have h0 : (pulsaretSample M s d).2.randomSeed_ =
      (GenerateWaveform M
        (GenerateWaveform M { s with pulsaretPhase_ := s.phase_ / d } (s.phase_ / d)
          s.waveform_).2
        (GenerateWaveform M { s with pulsaretPhase_ := s.phase_ / d } (s.phase_ / d)
          s.waveform_).2.pulsaretPhase_
        (GenerateWaveform M { s with pulsaretPhase_ := s.phase_ / d } (s.phase_ / d)
          s.waveform_).2.waveformNext_).2.randomSeed_ := rfl
  have hA := GenerateWaveform_seed M { s with pulsaretPhase_ := s.phase_ / d }
    (s.phase_ / d) s.waveform_
  have hN : (GenerateWaveform M { s with pulsaretPhase_ := s.phase_ / d } (s.phase_ / d)
      s.waveform_).2.waveformNext_ = s.waveformNext_ := by
    obtain ⟨seed1, h1⟩ := GenerateWaveform_snd M { s with pulsaretPhase_ := s.phase_ / d }
      (s.phase_ / d) s.waveform_
    rw [h1]
  rw [h0, GenerateWaveform_seed, hN, hA]
  exact iterate_noise _ _ _

theorem renderSample_seed (M : Libm K) (s : PulsarEngine K) :
    (renderSample M s).2.randomSeed_ =
      if s.phase_ < s.dutyCycle_ ∧ s.currentPulsarMasked_ = false then
        lcgNext^[noiseSelectors s] s.randomSeed_
      else s.randomSeed_ := by
  unfold renderSample
  simp only
  by_cases h : s.phase_ < s.dutyCycle_ ∧ s.currentPulsarMasked_ = false
  · rw [if_pos h, if_pos, pulsaretSample_seed]
    · rfl
    · simp only [Bool.and_eq_true, decide_eq_true_eq, Bool.not_eq_true']
      exact h
  · rw [if_neg h, if_neg]
    simp only [Bool.and_eq_true, decide_eq_true_eq, Bool.not_eq_true']
    exact h

theorem ShouldEmitPulsar_seed (s : PulsarEngine K) :
    (ShouldEmitPulsar s).2.randomSeed_ =
      if s.maskingMode_ = MaskingMode.STOCHASTIC then lcgNext s.randomSeed_
      else s.randomSeed_ := by
  by_cases hm : s.maskingMode_ = MaskingMode.STOCHASTIC
  · rw [if_pos hm, ShouldEmitPulsar_stochastic s hm]
    simp only
    rw [FastRandom_snd]
  · rw [if_neg hm]
    exact ShouldEmitPulsar_seed_of_ne s hm

theorem wrapState_fields (s : PulsarEngine K) (c : Prop) [Decidable c] (p : K) :
    (if c then ({ s with phase_ := p, burstPosition_ := 0 } : PulsarEngine K)
      else { s with phase_ := p, burstPosition_ := s.burstPosition_ + 1 }).maskingMode_ =
        s.maskingMode_ ∧
    (if c then ({ s with phase_ := p, burstPosition_ := 0 } : PulsarEngine K)
      else { s with phase_ := p, burstPosition_ := s.burstPosition_ + 1 }).randomSeed_ =
        s.randomSeed_ := by
  split_ifs <;> exact ⟨rfl, rfl⟩

theorem advancePhase_seed (s : PulsarEngine K) :
    (advancePhase s).randomSeed_ =
      if s.phase_ + s.phaseIncrement_ ≥ 1 ∧ s.maskingMode_ = MaskingMode.STOCHASTIC then
        lcgNext s.randomSeed_
      else s.randomSeed_ := by
  by_cases hw : s.phase_ + s.phaseIncrement_ ≥ 1
  · have h : (advancePhase s).randomSeed_ =
        (ShouldEmitPulsar
          (if s.burstPosition_ + 1 ≥ s.burstCount_ + s.restCount_ then
            ({ s with phase_ := s.phase_ + s.phaseIncrement_ - 1, burstPosition_ := 0 } :
              PulsarEngine K)
          else { s with phase_ := s.phase_ + s.phaseIncrement_ - 1,
                        burstPosition_ := s.burstPosition_ + 1 })).2.randomSeed_ := by
      unfold advancePhase
      simp only
      rw [if_pos hw]
    obtain ⟨h1, h2⟩ := wrapState_fields s
      (s.burstPosition_ + 1 ≥ s.burstCount_ + s.restCount_)
      (s.phase_ + s.phaseIncrement_ - 1)
    rw [h, ShouldEmitPulsar_seed, h1, h2]
    by_cases hm : s.maskingMode_ = MaskingMode.STOCHASTIC
    · rw [if_pos hm, if_pos ⟨hw, hm⟩]
    · rw [if_neg hm, if_neg (fun hh => hm hh.2)]
  · have h : advancePhase s = { s with phase_ := s.phase_ + s.phaseIncrement_ } := by
      unfold advancePhase
      simp only
      rw [if_neg hw]
    rw [h, if_neg (fun hh => hw hh.1)]

theorem Process_seed (M : Libm K) (s : PulsarEngine K) :
    (Process M s).2.randomSeed_ =
      if s.phase_ + s.phaseIncrement_ ≥ 1 ∧ s.maskingMode_ = MaskingMode.STOCHASTIC then
        lcgNext (renderSample M s).2.randomSeed_
      else (renderSample M s).2.randomSeed_ := by
  have h : (Process M s).2.randomSeed_ =
      (advancePhase (renderSample M s).2).randomSeed_ := rfl
  rw [h, advancePhase_seed]
  obtain ⟨pp, seed1, h1⟩ := renderSample_snd M s
  rw [h1]

theorem Process_waveforms (M : Libm K) (s : PulsarEngine K) :
    (Process M s).2.waveform_ = s.waveform_ ∧
    (Process M s).2.waveformNext_ = s.waveformNext_ := by
  obtain ⟨pp, seed, pos, masked, hP⟩ := Process_snd_form M s
  rw [hP]
  exact ⟨rfl, rfl⟩

theorem Process_seed_formula (M : Libm K) (s : PulsarEngine K) :
    (Process M s).2.randomSeed_ =
      if s.phase_ + s.phaseIncrement_ ≥ 1 ∧ s.maskingMode_ = MaskingMode.STOCHASTIC then
        lcgNext
          (if s.phase_ < s.dutyCycle_ ∧ s.currentPulsarMasked_ = false then
            lcgNext^[noiseSelectors s] s.randomSeed_
          else s.randomSeed_)
      else
        (if s.phase_ < s.dutyCycle_ ∧ s.currentPulsarMasked_ = false then
          lcgNext^[noiseSelectors s] s.randomSeed_
        else s.randomSeed_) := by
  rw [Process_seed, renderSample_seed]

theorem noiseSelectors_zero (s : PulsarEngine K)
    (h1 : s.waveform_ ≠ PulsaretWaveform.NOISE)
    (h2 : s.waveformNext_ ≠ PulsaretWaveform.NOISE) : noiseSelectors s = 0 := by
  unfold noiseSelectors
  rw [if_neg h1, if_neg h2]

theorem noiseSelectors_two (s : PulsarEngine K)
    (h1 : s.waveform_ = PulsaretWaveform.NOISE)
    (h2 : s.waveformNext_ = PulsaretWaveform.NOISE) : noiseSelectors s = 2 := by
  unfold noiseSelectors
  rw [if_pos h1, if_pos h2]

/-- C23 as stated fails on an audible tick that also wraps the phase in STOCHASTIC mode: the
masking draw comes on top of the noise draws. After `Init(48000)`, `SetWaveform(NOISE)`,
`SetMaskingMode(STOCHASTIC)`, `SetFormantRatio(1)`, `SetFrequency(20000)` and two ticks, the
phase is `10/12` with duty cycle `1`; the third tick is audible with both selectors `NOISE`,
wraps, and advances the seed three times, not twice. -/
theorem seed_draws_counterexample :
    audibleTick (run flatLibm (Init (48000 : ℚ))
      [Op.SetWaveform PulsaretWaveform.NOISE, Op.SetMaskingMode MaskingMode.STOCHASTIC,
        Op.SetFormantRatio 1, Op.SetFrequency 20000, Op.Process, Op.Process]) ∧
    (run flatLibm (Init (48000 : ℚ))
      [Op.SetWaveform PulsaretWaveform.NOISE, Op.SetMaskingMode MaskingMode.STOCHASTIC,
        Op.SetFormantRatio 1, Op.SetFrequency 20000, Op.Process, Op.Process]).waveform_ =
      PulsaretWaveform.NOISE ∧
    (run flatLibm (Init (48000 : ℚ))
      [Op.SetWaveform PulsaretWaveform.NOISE, Op.SetMaskingMode MaskingMode.STOCHASTIC,
        Op.SetFormantRatio 1, Op.SetFrequency 20000, Op.Process, Op.Process]).waveformNext_ =
      PulsaretWaveform.NOISE ∧
    (Process flatLibm (run flatLibm (Init (48000 : ℚ))
      [Op.SetWaveform PulsaretWaveform.NOISE, Op.SetMaskingMode MaskingMode.STOCHASTIC,
        Op.SetFormantRatio 1, Op.SetFrequency 20000, Op.Process, Op.Process])).2.randomSeed_ =
      lcgNext^[3] (run flatLibm (Init (48000 : ℚ))
        [Op.SetWaveform PulsaretWaveform.NOISE, Op.SetMaskingMode MaskingMode.STOCHASTIC,
          Op.SetFormantRatio 1, Op.SetFrequency 20000, Op.Process,
          Op.Process]).randomSeed_ ∧
    (Process flatLibm (run flatLibm (Init (48000 : ℚ))
      [Op.SetWaveform PulsaretWaveform.NOISE, Op.SetMaskingMode MaskingMode.STOCHASTIC,
        Op.SetFormantRatio 1, Op.SetFrequency 20000, Op.Process, Op.Process])).2.randomSeed_ ≠
      lcgNext^[2] (run flatLibm (Init (48000 : ℚ))
        [Op.SetWaveform PulsaretWaveform.NOISE, Op.SetMaskingMode MaskingMode.STOCHASTIC,
          Op.SetFormantRatio 1, Op.SetFrequency 20000, Op.Process,
          Op.Process]).randomSeed_ := by
  have hI := Init_literal (48000 : ℚ) (by norm_num)
  have e0 : run flatLibm (Init (48000 : ℚ))
      [Op.SetWaveform PulsaretWaveform.NOISE, Op.SetMaskingMode MaskingMode.STOCHASTIC,
        Op.SetFormantRatio 1, Op.SetFrequency 20000, Op.Process, Op.Process] =
      (Process flatLibm (Process flatLibm
        (SetFrequency (SetFormantRatio (SetMaskingMode
          (SetWaveform (Init (48000 : ℚ)) PulsaretWaveform.NOISE) MaskingMode.STOCHASTIC) 1)
          20000)).2).2 := rfl
  rw [e0]
  generalize hs0 : SetFrequency (SetFormantRatio (SetMaskingMode
    (SetWaveform (Init (48000 : ℚ)) PulsaretWaveform.NOISE) MaskingMode.STOCHASTIC) 1)
    20000 = s0
  have f0 : s0.phase_ = 0 ∧ s0.phaseIncrement_ = 5 / 12 ∧ s0.dutyCycle_ = 1 ∧
      s0.currentPulsarMasked_ = false ∧ s0.waveform_ = PulsaretWaveform.NOISE ∧
      s0.waveformNext_ = PulsaretWaveform.NOISE ∧
      s0.maskingMode_ = MaskingMode.STOCHASTIC := by
    rw [← hs0, hI]
    norm_num [SetFrequency, SetFormantRatio, SetMaskingMode, SetWaveform, fmaxf, fminf]
  obtain ⟨p0, i0, d0, m0, w0, n0, k0⟩ := f0
  have p1 : (Process flatLibm s0).2.phase_ = 5 / 12 := by
    rw [Process_phase, p0, i0]
    norm_num
  have i1 : (Process flatLibm s0).2.phaseIncrement_ = 5 / 12 := by
    rw [Process_phaseIncrement, i0]
  have d1 : (Process flatLibm s0).2.dutyCycle_ = 1 := by
    rw [Process_dutyCycle, d0]
  have m1 : (Process flatLibm s0).2.currentPulsarMasked_ = false := by
    rw [(Process_no_wrap flatLibm s0 (by rw [p0, i0]; norm_num)).1, m0]
  have w1 : (Process flatLibm s0).2.waveform_ = PulsaretWaveform.NOISE := by
    rw [(Process_waveforms flatLibm s0).1, w0]
  have n1 : (Process flatLibm s0).2.waveformNext_ = PulsaretWaveform.NOISE := by
    rw [(Process_waveforms flatLibm s0).2, n0]
  have k1 : (Process flatLibm s0).2.maskingMode_ = MaskingMode.STOCHASTIC := by
    rw [Process_maskingMode, k0]
  generalize (Process flatLibm s0).2 = s1 at p1 i1 d1 m1 w1 n1 k1 ⊢
  have p2 : (Process flatLibm s1).2.phase_ = 10 / 12 := by
    rw [Process_phase, p1, i1]
    norm_num
  have i2 : (Process flatLibm s1).2.phaseIncrement_ = 5 / 12 := by
    rw [Process_phaseIncrement, i1]
  have d2 : (Process flatLibm s1).2.dutyCycle_ = 1 := by
    rw [Process_dutyCycle, d1]
  have m2 : (Process flatLibm s1).2.currentPulsarMasked_ = false := by
    rw [(Process_no_wrap flatLibm s1 (by rw [p1, i1]; norm_num)).1, m1]
  have w2 : (Process flatLibm s1).2.waveform_ = PulsaretWaveform.NOISE := by
    rw [(Process_waveforms flatLibm s1).1, w1]
  have n2 : (Process flatLibm s1).2.waveformNext_ = PulsaretWaveform.NOISE := by
    rw [(Process_waveforms flatLibm s1).2, n1]
  have k2 : (Process flatLibm s1).2.maskingMode_ = MaskingMode.STOCHASTIC := by
    rw [Process_maskingMode, k1]
  generalize (Process flatLibm s1).2 = s2 at p2 i2 d2 m2 w2 n2 k2 ⊢
  have ha : s2.phase_ < s2.dutyCycle_ ∧ s2.currentPulsarMasked_ = false := by
    rw [p2, d2]
    exact ⟨by norm_num, m2⟩
  have hw : s2.phase_ + s2.phaseIncrement_ ≥ 1 ∧ s2.maskingMode_ = MaskingMode.STOCHASTIC := by
    rw [p2, i2]
    exact ⟨by norm_num, k2⟩
  have h3 : (Process flatLibm s2).2.randomSeed_ = lcgNext^[3] s2.randomSeed_ := by
    rw [Process_seed_formula, if_pos hw, if_pos ha, noiseSelectors_two s2 w2 n2,
      ← Function.iterate_succ_apply' lcgNext 2]
  refine ⟨ha, w2, n2, h3, ?_⟩
  rw [h3, Function.iterate_succ_apply' lcgNext 2]
  exact lcgNext_ne_self _

/-- C23, amended: `Process()` advances the seed only through draws. With `n` the number of
`NOISE` selectors among the current and the next waveform (`0`, `1` or `2`): on a tick that
is not audible or has no `NOISE` selector, and that does not wrap or is not in STOCHASTIC
mode, the seed is unchanged; on an audible tick that does not wrap or is not in STOCHASTIC
mode the seed advances `n` times; on an audible tick that wraps in STOCHASTIC mode it
advances `n + 1` times; on a tick that is not audible and wraps in STOCHASTIC mode it
advances once. The count does not depend on the morph weight. -/
theorem seed_draws (M : Libm K) (s : PulsarEngine K) :
    ((¬ audibleTick s ∨
        (s.waveform_ ≠ PulsaretWaveform.NOISE ∧ s.waveformNext_ ≠ PulsaretWaveform.NOISE)) →
      (s.phase_ + s.phaseIncrement_ < 1 ∨ s.maskingMode_ ≠ MaskingMode.STOCHASTIC) →
      (Process M s).2.randomSeed_ = s.randomSeed_) ∧
    (audibleTick s →
      (s.phase_ + s.phaseIncrement_ < 1 ∨ s.maskingMode_ ≠ MaskingMode.STOCHASTIC) →
      (Process M s).2.randomSeed_ = lcgNext^[noiseSelectors s] s.randomSeed_) ∧
    (audibleTick s → s.phase_ + s.phaseIncrement_ ≥ 1 →
      s.maskingMode_ = MaskingMode.STOCHASTIC →
      (Process M s).2.randomSeed_ = lcgNext^[noiseSelectors s + 1] s.randomSeed_) ∧
    (¬ audibleTick s → s.phase_ + s.phaseIncrement_ ≥ 1 →
      s.maskingMode_ = MaskingMode.STOCHASTIC →
      (Process M s).2.randomSeed_ = lcgNext s.randomSeed_) ∧
    (noiseSelectors s =
      (if s.waveform_ = PulsaretWaveform.NOISE then 1 else 0) +
        (if s.waveformNext_ = PulsaretWaveform.NOISE then 1 else 0)) ∧
    (∀ w : K, (Process M { s with waveformMorph_ := w }).2.randomSeed_ =
      (Process M s).2.randomSeed_) := by
  have hF := Process_seed_formula M s
  have hno : (s.phase_ + s.phaseIncrement_ < 1 ∨ s.maskingMode_ ≠ MaskingMode.STOCHASTIC) →
      ¬ (s.phase_ + s.phaseIncrement_ ≥ 1 ∧ s.maskingMode_ = MaskingMode.STOCHASTIC) := by
    rintro (h | h) ⟨h1, h2⟩
    · exact absurd h1 (not_le.mpr h)
    · exact h h2
  refine ⟨?_, ?_, ?_, ?_, rfl, ?_⟩
  · intro h1 h2
    rw [hF, if_neg (hno h2)]
    by_cases ha : s.phase_ < s.dutyCycle_ ∧ s.currentPulsarMasked_ = false
    · rcases h1 with h1 | h1
      · exact absurd ha h1
      · rw [if_pos ha, noiseSelectors_zero s h1.1 h1.2, Function.iterate_zero_apply]
    · rw [if_neg ha]
  · intro ha h2
    have ha2 : s.phase_ < s.dutyCycle_ ∧ s.currentPulsarMasked_ = false := ha
    rw [hF, if_neg (hno h2), if_pos ha2]
  · intro ha hw hm
    have ha2 : s.phase_ < s.dutyCycle_ ∧ s.currentPulsarMasked_ = false := ha
    rw [hF, if_pos ⟨hw, hm⟩, if_pos ha2, Function.iterate_succ_apply']
  · intro ha hw hm
    have ha2 : ¬ (s.phase_ < s.dutyCycle_ ∧ s.currentPulsarMasked_ = false) := ha
    rw [hF, if_pos ⟨hw, hm⟩, if_neg ha2]
  · intro w
    rw [hF, Process_seed_formula]
    rfl

/-- An instance of the amended C23: after `Init(48000)` and `SetWaveform(NOISE)` the first
tick is audible, does not wrap and has both selectors `NOISE`; the seed advances twice, from
`12345` to `71072467`, with morph weight `0`. -/
theorem seed_draws_witness :
    audibleTick (SetWaveform (Init (48000 : ℚ)) PulsaretWaveform.NOISE) ∧
    (SetWaveform (Init (48000 : ℚ)) PulsaretWaveform.NOISE).waveformMorph_ = 0 ∧
    (Process flatLibm (SetWaveform (Init (48000 : ℚ))
      PulsaretWaveform.NOISE)).2.randomSeed_ = lcgNext^[2] 12345 ∧
    lcgNext^[2] 12345 = 71072467 := by
  have hI := Init_literal (48000 : ℚ) (by norm_num)
  have ha : audibleTick (SetWaveform (Init (48000 : ℚ)) PulsaretWaveform.NOISE) := by
    show (Init (48000 : ℚ)).phase_ < (Init (48000 : ℚ)).dutyCycle_ ∧
      (Init (48000 : ℚ)).currentPulsarMasked_ = false
    rw [hI]
    exact ⟨by norm_num, rfl⟩
  have hw : (SetWaveform (Init (48000 : ℚ)) PulsaretWaveform.NOISE).phase_ +
      (SetWaveform (Init (48000 : ℚ)) PulsaretWaveform.NOISE).phaseIncrement_ < 1 := by
    show (Init (48000 : ℚ)).phase_ + (Init (48000 : ℚ)).phaseIncrement_ < 1
    rw [hI]
    norm_num
  have hs : (SetWaveform (Init (48000 : ℚ)) PulsaretWaveform.NOISE).randomSeed_ = 12345 := by
    show (Init (48000 : ℚ)).randomSeed_ = 12345
    rw [hI]
  have h := (seed_draws flatLibm (SetWaveform (Init (48000 : ℚ))
    PulsaretWaveform.NOISE)).2.1 ha (Or.inl hw)
  rw [noiseSelectors_two _ rfl rfl, hs] at h
  refine ⟨ha, rfl, h, ?_⟩
  rw [Function.iterate_succ_apply, Function.iterate_succ_apply, Function.iterate_zero_apply]
  norm_num [lcgNext]

/-! ## The draw that equals one, and the formant quotient beyond `FLT_MAX` -/

theorem Sync_stochastic (s : PulsarEngine K) (hm : s.maskingMode_ = MaskingMode.STOCHASTIC) :
    (Sync s).maskingMode_ = MaskingMode.STOCHASTIC ∧
    (Sync s).maskingProbability_ = s.maskingProbability_ ∧
    (Sync s).randomSeed_ = lcgNext s.randomSeed_ ∧
    (Sync s).currentPulsarMasked_ = !decide ((FastRandom s).1 < s.maskingProbability_) := by
  have hm2 : ({ s with phase_ := 0, pulsaretPhase_ := 0, inPulsaret_ := true } :
      PulsarEngine K).maskingMode_ = MaskingMode.STOCHASTIC := hm
  have e : (FastRandom
      { s with phase_ := 0, pulsaretPhase_ := 0, inPulsaret_ := true }).1 =
      (FastRandom s).1 := by
    rw [FastRandom_fst, FastRandom_fst]
  refine ⟨?_, ?_, ?_, ?_⟩
  · obtain ⟨seed, masked, hS⟩ := Sync_form s
    rw [hS]
    exact hm
  · obtain ⟨seed, masked, hS⟩ := Sync_form s
    rw [hS]
  · rw [(Sync_decision s).2, ShouldEmitPulsar_seed, if_pos hm2]
  · rw [(Sync_decision s).1, ShouldEmitPulsar_stochastic _ hm2, e]

theorem run_replicate_Sync (M : Libm K) (n : Nat) (s : PulsarEngine K)
    (hm : s.maskingMode_ = MaskingMode.STOCHASTIC) :
    (run M s (List.replicate n Op.Sync)).maskingMode_ = MaskingMode.STOCHASTIC ∧
    (run M s (List.replicate n Op.Sync)).maskingProbability_ = s.maskingProbability_ ∧
    (run M s (List.replicate n Op.Sync)).randomSeed_ = lcgNext^[n] s.randomSeed_ := by
  induction n generalizing s with
  | zero => exact ⟨hm, rfl, rfl⟩
  | succ n ih =>
    obtain ⟨h1, h2, h3, _⟩ := Sync_stochastic s hm
    obtain ⟨i1, i2, i3⟩ := ih (Sync s) h1
    rw [List.replicate_succ, run_cons]
    show (run M (Sync s) (List.replicate n Op.Sync)).maskingMode_ = MaskingMode.STOCHASTIC ∧
      (run M (Sync s) (List.replicate n Op.Sync)).maskingProbability_ =
        s.maskingProbability_ ∧
      (run M (Sync s) (List.replicate n Op.Sync)).randomSeed_ = lcgNext^[n + 1] s.randomSeed_
    rw [i2, i3, h2, h3, Function.iterate_succ_apply]
    exact ⟨i1, rfl, rfl⟩

theorem apply_SetMaskingMode (M : Libm K) (s : PulsarEngine K) (mode : MaskingMode) :
    Op.apply M s (Op.SetMaskingMode mode) = SetMaskingMode s mode := rfl

theorem apply_SetMaskingProbability (M : Libm K) (s : PulsarEngine K) (probability : K) :
    Op.apply M s (Op.SetMaskingProbability probability) =
      SetMaskingProbability s probability := rfl

theorem Init_48000_masking :
    (Init (48000 : ℚ)).randomSeed_ = 12345 ∧ (Init (48000 : ℚ)).maskingProbability_ = 1 := by
  rw [Init_literal (48000 : ℚ) (by norm_num)]
  exact ⟨rfl, rfl⟩

theorem lcgNext_at_firstUnitDraw : lcgNext 1822439274 = 4294967233 := by
  norm_num [lcgNext]

theorem firstUnitDrawState_fields :
    firstUnitDrawState.maskingMode_ = MaskingMode.STOCHASTIC ∧
    firstUnitDrawState.randomSeed_ = 1822439274 := by
  have h := run_replicate_Sync flatLibm 52357831
    (SetMaskingMode (Init (48000 : ℚ)) MaskingMode.STOCHASTIC) rfl
  have hs : (SetMaskingMode (Init (48000 : ℚ)) MaskingMode.STOCHASTIC).randomSeed_ = 12345 :=
    Init_48000_masking.1
  have h3 := h.2.2
  rw [hs, lcgNext_iterate_firstUnitDraw] at h3
  unfold firstUnitDrawState
  rw [run_cons, apply_SetMaskingMode]
  exact ⟨h.1, h3⟩

/-- C5: the draw is not always below `1`. After `Init(48000)`, `SetMaskingMode(STOCHASTIC)`
and `52357831` calls of `Sync()`, each of which makes one draw, the seed is `1822439274`.
The next `FastRandom()` sets the seed to `4294967233`, as the recurrence prescribes, and
returns exactly `1`: the conversion to `float` rounds `4294967233` up to `2^32`. The
returned value is not the quotient `4294967233 / 2^32` and the one-element sequence of
draws differs from the specification's sequence for the same seed. -/
theorem FastRandom_unit_draw :
    firstUnitDrawState.randomSeed_ = 1822439274 ∧
    (FastRandom firstUnitDrawState).2.randomSeed_ = 4294967233 ∧
    (FastRandom firstUnitDrawState).1 = 1 ∧
    ¬ (FastRandom firstUnitDrawState).1 < 1 ∧
    (FastRandom firstUnitDrawState).1 ≠ (4294967233 : ℚ) / 2 ^ 32 ∧
    draws 1 firstUnitDrawState ≠ lcgDraws ℚ 1 firstUnitDrawState.randomSeed_ := by
  have hseed := firstUnitDrawState_fields.2
  have hnext : lcgNext firstUnitDrawState.randomSeed_ = 4294967233 := by
    rw [hseed]
    exact lcgNext_at_firstUnitDraw
  have hone : (FastRandom firstUnitDrawState).1 = 1 := by
    rw [FastRandom_eq_one_iff, hnext]
    norm_num
  refine ⟨hseed, ?_, hone, ?_, ?_, ?_⟩
  · rw [FastRandom_snd]
    exact hnext
  · rw [hone]
    norm_num
  · rw [hone]
    norm_num
  · simp only [draws, lcgDraws]
    rw [hone, hnext]
    norm_num

theorem unitDrawAtProbabilityOne_fields :
    unitDrawAtProbabilityOne.maskingMode_ = MaskingMode.STOCHASTIC ∧
    unitDrawAtProbabilityOne.maskingProbability_ = 1 ∧
    unitDrawAtProbabilityOne.randomSeed_ = 1822439274 := by
  have h := run_replicate_Sync flatLibm 52357831
    (SetMaskingProbability (SetMaskingMode (Init (48000 : ℚ)) MaskingMode.STOCHASTIC) 1) rfl
  have hs : (SetMaskingProbability (SetMaskingMode (Init (48000 : ℚ))
      MaskingMode.STOCHASTIC) 1).randomSeed_ = 12345 := Init_48000_masking.1
  have hp : (SetMaskingProbability (SetMaskingMode (Init (48000 : ℚ))
      MaskingMode.STOCHASTIC) 1).maskingProbability_ = 1 := by
    norm_num [SetMaskingProbability, fmaxf, fminf]
  have h2 := h.2.1
  have h3 := h.2.2
  rw [hp] at h2
  rw [hs, lcgNext_iterate_firstUnitDraw] at h3
  unfold unitDrawAtProbabilityOne
  rw [run_cons, apply_SetMaskingMode, run_cons, apply_SetMaskingProbability]
  exact ⟨h.1, h2, h3⟩

/-- C10: with `maskingProbability = 1` a pulsar can be masked. After `Init(48000)`,
`SetMaskingMode(STOCHASTIC)`, `SetMaskingProbability(1)` and `52357831` calls of `Sync()` the
engine is in STOCHASTIC mode with probability `1` and seed `1822439274`. The draw of the next
`ShouldEmitPulsar()` is exactly `1`, the test `1 < 1` fails and the result is false; the next
`Sync()` therefore sets `currentPulsarMasked`. -/
theorem stochastic_masking_unit_draw :
    unitDrawAtProbabilityOne.maskingMode_ = MaskingMode.STOCHASTIC ∧
    unitDrawAtProbabilityOne.maskingProbability_ = 1 ∧
    (FastRandom unitDrawAtProbabilityOne).1 = 1 ∧
    (ShouldEmitPulsar unitDrawAtProbabilityOne).1 = false ∧
    (Sync unitDrawAtProbabilityOne).currentPulsarMasked_ = true := by
  obtain ⟨hm, hp, hseed⟩ := unitDrawAtProbabilityOne_fields
  have hone : (FastRandom unitDrawAtProbabilityOne).1 = 1 := by
    rw [FastRandom_eq_one_iff, hseed, lcgNext_at_firstUnitDraw]
    norm_num
  refine ⟨hm, hp, hone, ?_, ?_⟩
  · rw [ShouldEmitPulsar_stochastic _ hm, hp, hone]
    simp
  · rw [(Sync_stochastic _ hm).2.2.2, hp, hone]
    simp

end PulsarEngine
